import Mathlib

/-!
# ncnn layer core: shallow embedding and verified properties

Embedding of `src/layer.cpp` (default option, base `Layer` execution contract
on host and device, layer registry and factory), `src/layer/innerproduct.cpp`
(the InnerProduct layer) and `tools/pnnx/src/pass_ncnn/nn_AvgPool2d.cpp` (the
AvgPool2d rewriter) as pure Lean functions.

Conventions of the embedding
* C `int` values are `Int`; sizes and indices that the code keeps non-negative
  are `Nat`.
* A nullable pointer is a `Fallible` value (`none` is the null pointer).
* A function whose C++ body can dereference a null pointer or read outside a
  buffer returns `Fallible`; `none` then stands for that fault.
* A loop that may not end takes a fuel argument; `none` then stands for the
  fuel running out.
* Calls whose order the properties speak about are recorded in a ghost log
  of `Event`s returned next to the C++ result.
* `float` is an arbitrary type `F` with the operations the code uses
  (`0`, `1`, `+`, `*`, `/`); theorems about exact arithmetic take `F` to be a
  semiring, and `ExtFloat` is an instance with infinities and NaN.
* A parallel loop runs under an `OmpRuntime`, which promises that the region
  returns and runs every iteration once only for a positive thread count;
  `none` stands for a region that does not return.
-/

set_option autoImplicit false

/-- Nullable pointers and faulting computations: `none` is the null pointer,
respectively the fault. -/
abbrev Fallible (α : Type) : Type := Option α

namespace ncnn

/-! ## Tensor buffers -/

/-- One element slot of a buffer: not yet written, a `float`, or an integer
(`signed char` or `int`, depending on the element size of the buffer). -/
inductive Cell (F : Type) where
  | uninit
  | flt (x : F)
  | int (n : Int)
  deriving DecidableEq, Repr

/-- Typed read through a `float*`. -/
def Cell.asFloat {F : Type} : Cell F → Fallible F
  | .flt x => some x
  | _ => none

/-- Typed read through a `signed char*` or `int*`. -/
def Cell.asInt {F : Type} : Cell F → Fallible Int
  | .int n => some n
  | _ => none

/-- Modelled from the spec: the tensor buffer `Mat` (declared in `mat.h`): extents
`w`, `h`, `c`, the element size in bytes, the channel stride `cstep` in
elements, and the storage (`none` when the buffer has no storage). -/
structure Mat (F : Type) where
  w : Int
  h : Int
  c : Int
  elemsize : Nat
  cstep : Nat
  data : Fallible (List (Cell F))
  deriving DecidableEq, Repr

/-- An allocator, seen from one call: whether the `k`-th request made to it
during the call is granted. -/
abbrev Allocator : Type := Nat → Bool

namespace Mat

variable {F : Type}

/-- Modelled from the spec: the default-constructed buffer `Mat()`: no extents,
no storage. -/
def nil : Mat F :=
  { w := 0, h := 0, c := 0, elemsize := 0, cstep := 0, data := none }

/-- Modelled from the spec: `Mat::total()`, the number of element slots. -/
def total (m : Mat F) : Nat := m.cstep * m.c.toNat

/-- Modelled from the spec: `Mat::empty()`: an empty buffer has no storage. -/
def empty (m : Mat F) : Bool := m.data.isNone || m.total == 0

/-- Modelled from the spec: `alignSize(sz, n)` of `mat.h`, the least multiple
of `n` that is at least `sz`. -/
def alignSize (sz n : Nat) : Nat := (sz + n - 1) / n * n

/-- Modelled from the spec: `Mat::create(w, elemsize, allocator)`: a fresh
one-dimensional buffer of `w` unwritten slots when the allocator grants the
request, a buffer without storage otherwise. `granted` is the allocator's
answer. -/
def create (w : Int) (elemsize : Nat) (granted : Bool) : Mat F :=
  { w := w, h := 1, c := 1, elemsize := elemsize, cstep := w.toNat,
    data := if 0 < w.toNat ∧ granted = true then some (List.replicate w.toNat Cell.uninit)
            else none }

/-- Modelled from the spec: `Mat::create(w, h, c, elemsize, allocator)`: a
fresh three-dimensional buffer whose channels are aligned to 16 bytes. -/
def create3 (w h c : Int) (elemsize : Nat) (granted : Bool) : Mat F :=
  let cstep := alignSize ((w * h).toNat * elemsize) 16 / elemsize
  { w := w, h := h, c := c, elemsize := elemsize, cstep := cstep,
    data := if 0 < cstep * c.toNat ∧ granted = true
            then some (List.replicate (cstep * c.toNat) Cell.uninit)
            else none }

/-- Modelled from the spec: `Mat::clone(allocator)`: an empty buffer clones to
`Mat()`; otherwise a fresh buffer of the same shape and contents when the
allocator grants the request, and a buffer without storage when it does not. -/
def clone (m : Mat F) (granted : Bool) : Mat F :=
  if m.empty then nil
  else if granted then m
  else { m with data := none }

/-- The slot at flat offset `i` of the storage; `none` without storage or
outside it. -/
def cell (m : Mat F) (i : Nat) : Fallible (Cell F) :=
  match m.data with
  | none => none
  | some cells => cells.get? i

/-- Read `((const float*)m)[i]`. -/
def floatAt (m : Mat F) (i : Nat) : Fallible F :=
  (m.cell i).bind Cell.asFloat

/-- Read `((const signed char*)m)[i]`, respectively `((const int*)m)[i]`. -/
def intAt (m : Mat F) (i : Nat) : Fallible Int :=
  (m.cell i).bind Cell.asInt

/-- Write slot `i`; `none` without storage or outside it. -/
def write (m : Mat F) (i : Nat) (v : Cell F) : Fallible (Mat F) :=
  match m.data with
  | none => none
  | some cells => if i < cells.length then some { m with data := some (cells.set i v) } else none

end Mat

/-! ## Option (`layer.cpp`, lines 25-58) -/

/-- The per-call configuration `ncnn::Option`. -/
structure Option where
  lightmode : Bool
  num_threads : Int
  blob_allocator : Allocator
  workspace_allocator : Allocator
  vulkan_compute : Bool
  blob_vkallocator : Allocator
  workspace_vkallocator : Allocator
  staging_vkallocator : Allocator

/-- `get_default_option()`: the argument is the global `g_default_option`. -/
def get_default_option (g_default_option : Option) : Option :=
  g_default_option

/-- `set_default_option(opt)`: the first argument is the global
`g_default_option` before the call; the result is the return code and the
global after the call. -/
def set_default_option (g_default_option : Option) (opt : Option) : Int × Option :=
  if opt.num_threads ≤ 0 then
    (-1, g_default_option)
  else
    (0, opt)

/-! ## Base layer (`layer.cpp`, lines 60-178) -/

/-- A device handle (`const VulkanDevice*`). -/
abbrev VulkanDevice : Type := Nat

/-- The pipeline object made by `new Pipeline(vkdev)`. -/
structure Pipeline where
  vkdev : VulkanDevice
  deriving DecidableEq, Repr

/-- Modelled from the spec: the device buffer `VkMat` (declared in `mat.h`):
extents, element size, channel stride, the handles of its two allocators, and
the handle of its device storage (`none` when the buffer has no storage). -/
structure VkMat where
  w : Int
  h : Int
  c : Int
  elemsize : Nat
  cstep : Nat
  allocator : Nat
  staging_allocator : Nat
  buffer : Fallible Nat
  deriving DecidableEq, Repr

/-- Modelled from the spec: the default-constructed device buffer `VkMat()`. -/
def VkMat.nil : VkMat :=
  { w := 0, h := 0, c := 0, elemsize := 0, cstep := 0, allocator := 0,
    staging_allocator := 0, buffer := none }

/-- Modelled from the spec: `VkMat::empty()`: an empty buffer has no storage. -/
def VkMat.empty (m : VkMat) : Bool := m.buffer.isNone || m.cstep * m.c.toNat == 0

/-- Modelled from the spec: `VkMat::create_like(m, allocator, staging_allocator)`:
a fresh device buffer of the shape of `m`. `granted` is the answer of the
allocator: the handle of the new storage, or `none` when it refuses. -/
def VkMat.create_like (m : VkMat) (allocator staging_allocator : Nat) (granted : Fallible Nat) :
    VkMat :=
  { w := m.w, h := m.h, c := m.c, elemsize := m.elemsize, cstep := m.cstep,
    allocator := allocator, staging_allocator := staging_allocator,
    buffer := if 0 < m.cstep * m.c.toNat then granted else none }

/-- The device allocators, seen from one call: the answer to the request made
for output `i`. -/
abbrev VkAllocatorOracle : Type := Nat → Fallible Nat

/-- A command appended to the recorder `VkCompute`. -/
inductive VkCommand where
  | prepare_transfer_barrier (m : VkMat)
  | clone (src dst : VkMat)
  deriving DecidableEq, Repr

/-- The base class `Layer`: its data members and the virtual `forward_inplace`
methods, host and device, which a derived class may replace. The device
methods return their code, the buffers and the recorder. -/
structure Layer (F : Type) where
  one_blob_only : Bool
  support_inplace : Bool
  support_vulkan : Bool
  vkdev : Fallible VulkanDevice
  pipeline : Fallible Pipeline
  forward_inplace_blobs : List (Mat F) → Option → Int × List (Mat F)
  forward_inplace_blob : Mat F → Option → Int × Mat F
  forward_inplace_vkblobs :
    List VkMat → List VkCommand → Option → Int × List VkMat × List VkCommand
  forward_inplace_vkblob : VkMat → List VkCommand → Option → Int × VkMat × List VkCommand

section BaseLayer

variable {F : Type}

/-- `Layer::forward_inplace(std::vector<Mat>&, const Option&)` of the base class. -/
def Layer.base_forward_inplace_blobs (bottom_top_blobs : List (Mat F)) (_opt : Option) :
    Int × List (Mat F) :=
  (-1, bottom_top_blobs)

/-- `Layer::forward_inplace(Mat&, const Option&)` of the base class. -/
def Layer.base_forward_inplace_blob (bottom_top_blob : Mat F) (_opt : Option) : Int × Mat F :=
  (-1, bottom_top_blob)

/-- `Layer::forward_inplace(std::vector<VkMat>&, VkCompute&, const Option&)` of
the base class. -/
def Layer.base_forward_inplace_vkblobs (bottom_top_blobs : List VkMat) (cmd : List VkCommand)
    (_opt : Option) : Int × List VkMat × List VkCommand :=
  (-1, bottom_top_blobs, cmd)

/-- `Layer::forward_inplace(VkMat&, VkCompute&, const Option&)` of the base
class. -/
def Layer.base_forward_inplace_vkblob (bottom_top_blob : VkMat) (cmd : List VkCommand)
    (_opt : Option) : Int × VkMat × List VkCommand :=
  (-1, bottom_top_blob, cmd)

/-- The constructor `Layer::Layer()`; `vkdev` is the uninitialised member. -/
def Layer.new (vkdev : Fallible VulkanDevice) : Layer F :=
  { one_blob_only := false, support_inplace := false, support_vulkan := false,
    vkdev := vkdev, pipeline := none,
    forward_inplace_blobs := Layer.base_forward_inplace_blobs,
    forward_inplace_blob := Layer.base_forward_inplace_blob,
    forward_inplace_vkblobs := Layer.base_forward_inplace_vkblobs,
    forward_inplace_vkblob := Layer.base_forward_inplace_vkblob }

/-- The clone loop of the many-blob `Layer::forward` from index `i` on, `n`
iterations left. `false` is the early `return -100`; the second component is
`top_blobs` at that moment. -/
def Layer.forward_loop (bottom_blobs : List (Mat F)) (opt : Option) :
    Nat → Nat → List (Mat F) → Bool × List (Mat F)
  | 0, _, top_blobs => (true, top_blobs)
  | n + 1, i, top_blobs =>
    let top_blobs := top_blobs.set i ((bottom_blobs.getD i Mat.nil).clone (opt.blob_allocator i))
    if (top_blobs.getD i Mat.nil).empty then
      (false, top_blobs)
    else
      Layer.forward_loop bottom_blobs opt n (i + 1) top_blobs

/-- `Layer::forward(const std::vector<Mat>&, std::vector<Mat>&, const Option&)`:
the return code and `top_blobs` after the call. -/
def Layer.forward_blobs (self : Layer F) (bottom_blobs top_blobs : List (Mat F))
    (opt : Option) : Int × List (Mat F) :=
  if !self.support_inplace then
    (-1, top_blobs)
  else
    let top_blobs := bottom_blobs
    match Layer.forward_loop bottom_blobs opt top_blobs.length 0 top_blobs with
    | (false, top_blobs) => (-100, top_blobs)
    | (true, top_blobs) => self.forward_inplace_blobs top_blobs opt

/-- `Layer::forward(const Mat&, Mat&, const Option&)`: the return code and
`top_blob` after the call. -/
def Layer.forward_blob (self : Layer F) (bottom_blob top_blob : Mat F) (opt : Option) :
    Int × Mat F :=
  if !self.support_inplace then
    (-1, top_blob)
  else
    let top_blob := bottom_blob.clone (opt.blob_allocator 0)
    if top_blob.empty then
      (-100, top_blob)
    else
      self.forward_inplace_blob top_blob opt

/-- Modelled from the spec: `std::vector<VkMat>::resize(n)`: the first `n`
elements are kept, missing ones are default-constructed. -/
def vkblobs_resize (blobs : List VkMat) (n : Nat) : List VkMat :=
  blobs.take n ++ List.replicate (n - blobs.length) VkMat.nil

/-- The two commands the device `forward` records for one input and its
output. -/
def Layer.vk_clone_commands (bottom_blob top_blob : VkMat) : List VkCommand :=
  [VkCommand.prepare_transfer_barrier bottom_blob, VkCommand.clone bottom_blob top_blob]

/-- The output the device `forward` creates for input `i`. -/
def Layer.vk_created (bottom_blobs : List VkMat) (device_alloc : VkAllocatorOracle) (i : Nat) :
    VkMat :=
  VkMat.create_like (bottom_blobs.getD i VkMat.nil) (bottom_blobs.getD i VkMat.nil).allocator
    (bottom_blobs.getD i VkMat.nil).staging_allocator (device_alloc i)

/-- The commands for the inputs `i`, `i + 1`, ..., `i + n - 1` in that order:
for each input the barrier on it, then its clone into its output. -/
def Layer.vk_commands (bottom_blobs : List VkMat) (device_alloc : VkAllocatorOracle) :
    Nat → Nat → List VkCommand
  | _, 0 => []
  | i, n + 1 =>
    Layer.vk_clone_commands (bottom_blobs.getD i VkMat.nil)
        (Layer.vk_created bottom_blobs device_alloc i)
      ++ Layer.vk_commands bottom_blobs device_alloc (i + 1) n

/-- The loop of the many-blob device `Layer::forward` (lines 141-149) from
index `i` on, `n` iterations left. `false` is the early `return -100`; then
come `top_blobs` and the recorder at that moment. -/
def Layer.forward_vk_loop (bottom_blobs : List VkMat) (device_alloc : VkAllocatorOracle) :
    Nat → Nat → List VkMat → List VkCommand → Bool × List VkMat × List VkCommand
  | 0, _, top_blobs, cmd => (true, top_blobs, cmd)
  | n + 1, i, top_blobs, cmd =>
    let bottom_blob := bottom_blobs.getD i VkMat.nil
    let top_blobs := top_blobs.set i
      (VkMat.create_like bottom_blob bottom_blob.allocator bottom_blob.staging_allocator
        (device_alloc i))
    if (top_blobs.getD i VkMat.nil).empty then
      (false, top_blobs, cmd)
    else
      Layer.forward_vk_loop bottom_blobs device_alloc n (i + 1) top_blobs
        (cmd ++ Layer.vk_clone_commands bottom_blob (top_blobs.getD i VkMat.nil))

/-- `Layer::forward(const std::vector<VkMat>&, std::vector<VkMat>&, VkCompute&,
const Option&)`: the return code, `top_blobs` and the recorder after the call. -/
def Layer.forward_vkblobs (self : Layer F) (device_alloc : VkAllocatorOracle)
    (bottom_blobs top_blobs : List VkMat) (cmd : List VkCommand) (opt : Option) :
    Int × List VkMat × List VkCommand :=
  if !self.support_inplace then
    (-1, top_blobs, cmd)
  else
    let top_blobs := vkblobs_resize top_blobs bottom_blobs.length
    match Layer.forward_vk_loop bottom_blobs device_alloc top_blobs.length 0 top_blobs cmd with
    | (false, top_blobs, cmd) => (-100, top_blobs, cmd)
    | (true, top_blobs, cmd) => self.forward_inplace_vkblobs top_blobs cmd opt

/-- `Layer::forward(const VkMat&, VkMat&, VkCompute&, const Option&)`: the
return code, `top_blob` and the recorder after the call. -/
def Layer.forward_vkblob (self : Layer F) (device_alloc : VkAllocatorOracle)
    (bottom_blob top_blob : VkMat) (cmd : List VkCommand) (opt : Option) :
    Int × VkMat × List VkCommand :=
  if !self.support_inplace then
    (-1, top_blob, cmd)
  else
    let top_blob := VkMat.create_like bottom_blob bottom_blob.allocator
      bottom_blob.staging_allocator (device_alloc 0)
    if top_blob.empty then
      (-100, top_blob, cmd)
    else
      self.forward_inplace_vkblob top_blob
        (cmd ++ Layer.vk_clone_commands bottom_blob top_blob) opt

end BaseLayer

/-! ## Registry and factory (`layer.cpp`, lines 180-246) -/

/-- One row of `layer_registry`: the type name and the creator function
pointer, which may be null. A creator returns a `Layer*`. -/
structure layer_registry_entry (F : Type) where
  name : String
  creator : Fallible (Unit → Fallible (Layer F))

/-- Ghost log of the factory: creator `index` was invoked, a pipeline was
made for a device. -/
inductive FactoryEvent where
  | creator_call (index : Nat)
  | new_pipeline (vkdev : VulkanDevice)
  deriving DecidableEq, Repr

section Registry

variable {F : Type}

/-- The scan of `layer_to_index` over the rows from index `i` on. -/
def layer_to_index_from (type : String) : List (layer_registry_entry F) → Nat → Int
  | [], _ => -1
  | e :: rest, i => if type = e.name then (i : Int) else layer_to_index_from type rest (i + 1)

/-- `layer_to_index(const char* type)` over the table `layer_registry`. -/
def layer_to_index (layer_registry : List (layer_registry_entry F)) (type : String) : Int :=
  layer_to_index_from type layer_registry 0

/-- `create_layer(int index)`: the returned pointer and the ghost log. -/
def create_layer_index (layer_registry : List (layer_registry_entry F)) (index : Int) :
    Fallible (Layer F) × List FactoryEvent :=
  if index < 0 ∨ index ≥ (layer_registry.length : Int) then
    (none, [])
  else
    match layer_registry.get? index.toNat with
    | none => (none, [])
    | some e =>
      match e.creator with
      | none => (none, [])
      | some layer_creator => (layer_creator (), [FactoryEvent.creator_call index.toNat])

/-- `create_layer(const char* type)`. -/
def create_layer_type (layer_registry : List (layer_registry_entry F)) (type : String) :
    Fallible (Layer F) × List FactoryEvent :=
  let index := layer_to_index layer_registry type
  if index = -1 then
    (none, [])
  else
    create_layer_index layer_registry index

/-- `create_layer(int index, const VulkanDevice* vkdev)`. -/
def create_layer_index_vkdev (layer_registry : List (layer_registry_entry F)) (index : Int)
    (vkdev : VulkanDevice) : Fallible (Layer F) × List FactoryEvent :=
  match create_layer_index layer_registry index with
  | (none, log) => (none, log)
  | (some layer, log) =>
    (some { layer with vkdev := some vkdev, pipeline := some (Pipeline.mk vkdev) },
      log ++ [FactoryEvent.new_pipeline vkdev])

/-- `create_layer(const char* type, const VulkanDevice* vkdev)`. -/
def create_layer_type_vkdev (layer_registry : List (layer_registry_entry F)) (type : String)
    (vkdev : VulkanDevice) : Fallible (Layer F) × List FactoryEvent :=
  let index := layer_to_index layer_registry type
  if index = -1 then
    (none, [])
  else
    create_layer_index_vkdev layer_registry index vkdev

end Registry

/-! ## Collaborators of InnerProduct -/

/-- A value stored in a parameter dictionary. -/
inductive ParamValue (F : Type) where
  | int (i : Int)
  | float (f : F)
  deriving DecidableEq, Repr

/-- Modelled from the spec: the parameter dictionary `ParamDict` (declared in
`paramdict.h`): a key-indexed map of typed values, the int8-inference flag and
the first workgroup limit of the device. -/
structure ParamDict (F : Type) where
  params : Int → Fallible (ParamValue F)
  use_int8_inference : Bool
  max_workgroup_size : Int

/-- Modelled from the spec: a freshly constructed `ParamDict`, no key set. -/
def ParamDict.new {F : Type} : ParamDict F :=
  { params := fun _ => none, use_int8_inference := false, max_workgroup_size := 0 }

/-- Modelled from the spec: `ParamDict::set(id, value)`. -/
def ParamDict.set {F : Type} (pd : ParamDict F) (id : Int) (v : ParamValue F) : ParamDict F :=
  { pd with params := fun k => if k = id then some v else pd.params k }

/-- Modelled from the spec: `ParamDict::get(id, def)` for an `int`: the integer
stored under the key, and the default when the key holds no integer. -/
def ParamDict.get {F : Type} (pd : ParamDict F) (id : Int) (dflt : Int) : Int :=
  match pd.params id with
  | some (ParamValue.int i) => i
  | _ => dflt

/-- Modelled from the spec: the sequential weight reader `ModelBin` (declared
in `modelbin.h`). `load earlier w type` is the buffer returned by
`load(w, type)` after the requests `earlier` were made to the same reader;
`vk_model_loader` tells whether the upload hook is set. -/
structure ModelBin (F : Type) where
  load : List (Int × Int) → Int → Int → Mat F
  vk_model_loader : Bool

/-- Modelled from the spec: `ModelBinFromMatArray(weights)`: the reader that
hands out the buffers of an array one after the other. -/
def ModelBinFromMatArray {F : Type} (weights : List (Mat F)) : ModelBin F :=
  { load := fun earlier _ _ => weights.getD earlier.length Mat.nil,
    vk_model_loader := false }

/-- The virtual methods of a layer used as a sub-unit (Quantize, Dequantize),
over the state `σ` of that layer. Each returns its code and what it changed. -/
structure SubLayer (F σ : Type) where
  load_param : σ → ParamDict F → Int × σ
  load_model : σ → ModelBin F → Int × σ
  forward : σ → Mat F → Mat F → Option → Int × Mat F
  forward_inplace : σ → Mat F → Option → Int × Mat F

/-- The layer types InnerProduct asks the factory for. -/
inductive LayerType where
  | Quantize
  | Dequantize
  deriving DecidableEq, Repr

/-- Ghost log of InnerProduct: reads issued to the weight reader, factory
calls, calls into the sub-units, and the dot product of output index `p`. -/
inductive Event where
  | mb_load (w : Int) (type : Int)
  | create_layer (layer_type : LayerType)
  | quantize_load_param
  | quantize_forward
  | dot_product (p : Nat)
  | dequantize_load_param
  | dequantize_load_model
  | dequantize_forward_inplace
  | vk_upload
  deriving DecidableEq, Repr

/-- The requests to the weight reader recorded in a ghost log, in order. -/
def reads_of (log : List Event) : List (Int × Int) :=
  log.filterMap fun e =>
    match e with
    | Event.mb_load w type => some (w, type)
    | _ => none

/-- The OpenMP runtime behind `#pragma omp parallel for num_threads(t)`. The
code hands `opt.num_threads` to the clause unchecked, and OpenMP asks for a
positive value there. `returns t` tells whether a parallel region entered with
`t` requested threads comes back at all, and `order t n` is the order in which
the iterations of a loop of `n` complete. For a positive `t` the region
returns and every iteration runs exactly once; for any other `t` nothing is
promised: the region may not return, or may run any iterations. -/
structure OmpRuntime where
  returns : Int → Bool
  order : Int → Nat → List Nat
  valid : ∀ t n, 0 < t → returns t = true ∧ (order t n).Perm (List.range n)

/-- A parallel loop `for (int p = 0; p < n; p++)` whose iteration `p` computes a
value from read-only data and stores it in slot `p` of `top_blob`. A faulting
iteration makes the loop fault, and so does a region that does not return. -/
def omp_parallel_for {F : Type} (omp : OmpRuntime) (num_threads : Int) (n : Nat)
    (compute : Nat → Fallible (Cell F)) (top_blob : Mat F) : Fallible (Mat F) :=
  if omp.returns num_threads then
    (omp.order num_threads n).foldlM (fun top p => (compute p).bind (top.write p)) top_blob
  else
    none

/-- A signed 32-bit `int` after wrap-around. -/
def wrap_int32 (x : Int) : Int := (x + 2147483648) % 4294967296 - 2147483648

/-- A `signed char` value. -/
def wrap_int8 (x : Int) : Int := (x + 128) % 256 - 128

/-- Read `((const signed char*)m)[i]`. -/
def Mat.int8At {F : Type} (m : Mat F) (i : Nat) : Fallible Int :=
  (m.intAt i).map wrap_int8

/-! ## InnerProduct (`layer/innerproduct.cpp`) -/

/-- The data members of `InnerProduct` that the CPU paths use; `σq` and `σd`
are the states of the Quantize and Dequantize sub-units. -/
structure InnerProduct (F σq σd : Type) where
  one_blob_only : Bool
  support_inplace : Bool
  num_output : Int
  bias_term : Int
  weight_data_size : Int
  int8_scale_term : Int
  use_int8_inference : Bool
  local_size_x : Int
  local_size_y : Int
  local_size_z : Int
  specializations : List Int
  binding_count : Int
  weight_data : Mat F
  bias_data : Mat F
  weight_data_int8_scale : F
  bottom_blob_int8_scale : F
  quantize : Fallible σq
  dequantize : Fallible σd

/-- What `InnerProduct::load_model` leaves behind when it returns: the code,
the layer and the ghost log. -/
structure LoadResult (F σq σd : Type) where
  code : Int
  layer : InnerProduct F σq σd
  log : List Event

/-- What `InnerProduct::forward` leaves behind when it returns: the code,
`top_blob`, the sub-units (whose parameters the call reloads) and the ghost
log. -/
structure ForwardResult (F σq σd : Type) where
  code : Int
  top_blob : Mat F
  quantize : Fallible σq
  dequantize : Fallible σd
  log : List Event

section InnerProductModel

variable {F σq σd : Type}

/-- The loop of `load_param` (lines 53-56): halve `local_size_x` with C
division while `num_output < local_size_x`. `none` when the loop has not
ended after `fuel` tests of its condition. -/
def InnerProduct.local_size_loop (num_output : Int) : Nat → Int → Fallible Int
  | 0, _ => none
  | fuel + 1, local_size_x =>
    if num_output < local_size_x then
      InnerProduct.local_size_loop num_output fuel (Int.tdiv local_size_x 2)
    else
      some local_size_x

/-- `InnerProduct::load_param(const ParamDict& pd)`: the return code and the
layer after the call; `none` when the loop has not ended within `fuel`. -/
def InnerProduct.load_param (fuel : Nat) (self : InnerProduct F σq σd) (pd : ParamDict F) :
    Fallible (Int × InnerProduct F σq σd) :=
  let num_output := pd.get 0 0
  let bias_term := pd.get 1 0
  let weight_data_size := pd.get 2 0
  let int8_scale_term := pd.get 8 0
  let use_int8_inference := if int8_scale_term = 0 then false else pd.use_int8_inference
  match InnerProduct.local_size_loop num_output fuel pd.max_workgroup_size with
  | none => none
  | some local_size_x =>
    some (0, { self with
      num_output := num_output, bias_term := bias_term,
      weight_data_size := weight_data_size, int8_scale_term := int8_scale_term,
      use_int8_inference := use_int8_inference,
      local_size_x := local_size_x, local_size_y := 1, local_size_z := 1,
      specializations := [bias_term], binding_count := 4 })

/-- The offset of element `i` of channel `q` in the weight slice of output
`p` (lines 192 and 238): `size * channels * p + size * q + i`. -/
def InnerProduct.weight_offset (size channels p q i : Nat) : Nat :=
  size * channels * p + size * q + i

/-- Lines 124-150 of `load_model`: the upload block, which returns nothing and
reads nothing from the reader, then `return 0`. The device buffers are not
modelled. -/
def InnerProduct.load_model_upload (self : InnerProduct F σq σd) (mb : ModelBin F)
    (log : List Event) : Fallible (LoadResult F σq σd) :=
  if mb.vk_model_loader then
    some { code := 0, layer := self, log := log ++ [Event.vk_upload] }
  else
    some { code := 0, layer := self, log := log }

/-- Lines 92-122 of `load_model`: the element-size check, the creation of the
sub-units and the quantization of float weights. `new_quantize` and
`new_dequantize` are what `create_layer` returns for the two sub-units,
`default_opt` is the default option `quantize->forward` is called with. -/
def InnerProduct.load_model_quantize (vq : SubLayer F σq)
    (new_quantize : Fallible σq) (new_dequantize : Fallible σd) (default_opt : Option)
    (self : InnerProduct F σq σd) (mb : ModelBin F) (log : List Event) :
    Fallible (LoadResult F σq σd) :=
  let weight_data_is_int8 := self.weight_data.elemsize == 1
  let weight_data_is_float32 := self.weight_data.elemsize == 4
  if weight_data_is_int8 && !self.use_int8_inference then
    some { code := -1, layer := self, log := log }
  else
    let created : InnerProduct F σq σd × List Event :=
      if self.use_int8_inference then
        ({ self with quantize := new_quantize, dequantize := new_dequantize },
          log ++ [Event.create_layer LayerType.Quantize,
                  Event.create_layer LayerType.Dequantize])
      else
        (self, log)
    let self := created.1
    let log := created.2
    if weight_data_is_float32 && self.use_int8_inference then
      match self.quantize with
      | none => none
      | some q =>
        let pd : ParamDict F :=
          ParamDict.new.set 0 (ParamValue.float self.weight_data_int8_scale)
        let q := (vq.load_param q pd).2
        let int8_weight_data := (vq.forward q self.weight_data Mat.nil default_opt).2
        let self := { self with quantize := some q }
        let log := log ++ [Event.quantize_load_param, Event.quantize_forward]
        if int8_weight_data.empty then
          some { code := -100, layer := self, log := log }
        else
          InnerProduct.load_model_upload { self with weight_data := int8_weight_data } mb log
    else
      InnerProduct.load_model_upload self mb log

/-- Lines 86-90 of `load_model`: the two scale reads. Element 0 of each
returned buffer is read without a check, which faults on a buffer that does
not hold a float there. `earlier` are the requests already made. -/
def InnerProduct.load_model_scales (vq : SubLayer F σq)
    (new_quantize : Fallible σq) (new_dequantize : Fallible σd) (default_opt : Option)
    (self : InnerProduct F σq σd) (mb : ModelBin F) (earlier : List (Int × Int))
    (log : List Event) : Fallible (LoadResult F σq σd) :=
  if self.int8_scale_term ≠ 0 then
    match (mb.load earlier 1 1).floatAt 0 with
    | none => none
    | some weight_scale =>
      match (mb.load (earlier ++ [(1, 1)]) 1 1).floatAt 0 with
      | none => none
      | some bottom_scale =>
        InnerProduct.load_model_quantize vq new_quantize new_dequantize default_opt
          { self with weight_data_int8_scale := weight_scale,
                      bottom_blob_int8_scale := bottom_scale }
          mb (log ++ [Event.mb_load 1 1, Event.mb_load 1 1])
  else
    InnerProduct.load_model_quantize vq new_quantize new_dequantize default_opt self mb log

/-- `InnerProduct::load_model(const ModelBin& mb)`. -/
def InnerProduct.load_model (vq : SubLayer F σq)
    (new_quantize : Fallible σq) (new_dequantize : Fallible σd) (default_opt : Option)
    (self : InnerProduct F σq σd) (mb : ModelBin F) : Fallible (LoadResult F σq σd) :=
  let self := { self with weight_data := mb.load [] self.weight_data_size 0 }
  let log := [Event.mb_load self.weight_data_size 0]
  let earlier := [(self.weight_data_size, (0 : Int))]
  if self.weight_data.empty then
    some { code := -100, layer := self, log := log }
  else if self.bias_term ≠ 0 then
    let self := { self with bias_data := mb.load earlier self.num_output 1 }
    let log := log ++ [Event.mb_load self.num_output 1]
    if self.bias_data.empty then
      some { code := -100, layer := self, log := log }
    else
      InnerProduct.load_model_scales vq new_quantize new_dequantize default_opt self mb
        (earlier ++ [(self.num_output, 1)]) log
  else
    InnerProduct.load_model_scales vq new_quantize new_dequantize default_opt self mb earlier log

/-- The reader that answers the request made right after the weight read of
`weight_data_size` elements with the buffer `bias`, and every other request
as `mb` does. -/
def ModelBin.with_second_read (mb : ModelBin F) (weight_data_size : Int) (bias : Mat F) :
    ModelBin F :=
  { mb with
    load := fun earlier w type =>
      if earlier = [(weight_data_size, 0)] then bias else mb.load earlier w type }

/-- The requests `load_model` has made to the reader when it reaches the scale
reads: the weight read, and the bias read when `bias_term` is set. -/
def InnerProduct.reads_before_scales (self : InnerProduct F σq σd) : List (Int × Int) :=
  if self.bias_term ≠ 0 then
    [(self.weight_data_size, 0), (self.num_output, 1)]
  else
    [(self.weight_data_size, 0)]

variable [Zero F] [One F] [Add F] [Mul F] [Div F]

/-- The innermost loop of the float path (lines 241-244) for output index `p`
and channel `q`, started with the running `sum`. -/
def InnerProduct.float_channel (self : InnerProduct F σq σd) (bottom_blob : Mat F)
    (size channels p q : Nat) (sum : F) : Fallible F :=
  (List.range size).foldlM
    (fun sum i =>
      (bottom_blob.floatAt (bottom_blob.cstep * q + i)).bind fun mi =>
      (self.weight_data.floatAt (size * channels * p + size * q + i)).bind fun wi =>
      some (sum + mi * wi))
    sum

/-- The body of the float loop (lines 230-245) for output index `p`: the value
stored in `top_blob[p]`. -/
def InnerProduct.float_output (self : InnerProduct F σq σd) (bottom_blob : Mat F)
    (size channels p : Nat) : Fallible F :=
  (if self.bias_term ≠ 0 then self.bias_data.floatAt p else some 0).bind fun sum =>
  (List.range channels).foldlM
    (fun sum q => InnerProduct.float_channel self bottom_blob size channels p q sum)
    sum

/-- The innermost loop of the int8 path (lines 195-198), with a 32-bit `sum`. -/
def InnerProduct.int8_channel (self : InnerProduct F σq σd) (bottom_blob_int8 : Mat F)
    (size channels p q : Nat) (sum : Int) : Fallible Int :=
  (List.range size).foldlM
    (fun sum i =>
      (bottom_blob_int8.int8At (bottom_blob_int8.cstep * q + i)).bind fun mi =>
      (self.weight_data.int8At (size * channels * p + size * q + i)).bind fun wi =>
      some (wrap_int32 (sum + mi * wi)))
    sum

/-- The body of the int8 loop (lines 186-199) for output index `p`: the value
stored in `out[p]`. -/
def InnerProduct.int8_output (self : InnerProduct F σq σd) (bottom_blob_int8 : Mat F)
    (size channels p : Nat) : Fallible Int :=
  (List.range channels).foldlM
    (fun sum q => InnerProduct.int8_channel self bottom_blob_int8 size channels p q sum)
    0

/-- `InnerProduct::forward(const Mat&, Mat&, const Option&)`. Loop bounds that
are not positive run no iteration, so `size`, `channels` and the number of
outputs are taken as naturals; index arithmetic is taken without overflow.
`opt.num_threads` goes to the parallel loops as it is, without a check. -/
def InnerProduct.forward (omp : OmpRuntime) (vq : SubLayer F σq) (vd : SubLayer F σd)
    (self : InnerProduct F σq σd) (bottom_blob _top_blob : Mat F) (opt : Option) :
    Fallible (ForwardResult F σq σd) :=
  let w := bottom_blob.w
  let h := bottom_blob.h
  let channels := bottom_blob.c
  let elemsize := bottom_blob.elemsize
  let size := w * h
  let top_blob : Mat F := Mat.create self.num_output elemsize (opt.blob_allocator 0)
  if top_blob.empty then
    some { code := -100, top_blob := top_blob, quantize := self.quantize,
           dequantize := self.dequantize, log := [] }
  else if self.use_int8_inference then
    let bottom_blob_int8 : Mat F := Mat.create3 w h channels 1 (opt.workspace_allocator 0)
    if bottom_blob_int8.empty then
      some { code := -100, top_blob := top_blob, quantize := self.quantize,
             dequantize := self.dequantize, log := [] }
    else
      match self.quantize with
      | none => none
      | some q =>
        let pd : ParamDict F :=
          ParamDict.new.set 0 (ParamValue.float self.bottom_blob_int8_scale)
        let q := (vq.load_param q pd).2
        let bottom_blob_int8 := (vq.forward q bottom_blob bottom_blob_int8 opt).2
        match omp_parallel_for omp opt.num_threads self.num_output.toNat
            (fun p => (InnerProduct.int8_output self bottom_blob_int8 size.toNat
              channels.toNat p).map Cell.int) top_blob with
        | none => none
        | some top_blob =>
          let top_rescale : F := 1 / (self.bottom_blob_int8_scale * self.weight_data_int8_scale)
          let pd : ParamDict F :=
            ((ParamDict.new.set 0 (ParamValue.float top_rescale)).set 1
              (ParamValue.int self.bias_term)).set 2 (ParamValue.int self.num_output)
          match self.dequantize with
          | none => none
          | some d =>
            let d := (vd.load_param d pd).2
            let d := (vd.load_model d (ModelBinFromMatArray [self.bias_data])).2
            let top_blob := (vd.forward_inplace d top_blob opt).2
            some { code := 0, top_blob := top_blob, quantize := some q, dequantize := some d,
                   log := [Event.quantize_load_param, Event.quantize_forward]
                     ++ (omp.order opt.num_threads self.num_output.toNat).map Event.dot_product
                     ++ [Event.dequantize_load_param, Event.dequantize_load_model,
                         Event.dequantize_forward_inplace] }
  else
    match omp_parallel_for omp opt.num_threads self.num_output.toNat
        (fun p => (InnerProduct.float_output self bottom_blob size.toNat
          channels.toNat p).map Cell.flt) top_blob with
    | none => none
    | some top_blob =>
      some { code := 0, top_blob := top_blob, quantize := self.quantize,
             dequantize := self.dequantize,
             log := (omp.order opt.num_threads self.num_output.toNat).map Event.dot_product }

/-- What the caller of `forward` observes: the return code and the output
buffer. -/
def ForwardResult.observed (r : ForwardResult F σq σd) : Int × Mat F :=
  (r.code, r.top_blob)

end InnerProductModel

end ncnn

/-! ## pnnx: the AvgPool2d rewriter (`tools/pnnx/src/pass_ncnn/nn_AvgPool2d.cpp`) -/

namespace pnnx

/-- Modelled from the spec: the pnnx `Parameter` (declared in `ir.h`): the type
tag (0 is None, 2 is `int`) and the members `write` reads or sets: the bool
`b`, the int `i` and the int array `ai`. -/
structure Parameter where
  type : Int
  b : Bool
  i : Int
  ai : List Int
  deriving DecidableEq, Repr

/-- Modelled from the spec: the constructor `Parameter(int)`. -/
def Parameter.of_int (v : Int) : Parameter :=
  { type := 2, b := false, i := v, ai := [] }

/-- A `std::map<std::string, Parameter>`. -/
abbrev ParameterMap : Type := String → Fallible Parameter

/-- The assignment `m[key] = v`. -/
def ParameterMap.assign (m : ParameterMap) (key : String) (v : Parameter) : ParameterMap :=
  fun k => if k = key then some v else m k

namespace ncnn

/-- `nn_AvgPool2d::write(captured_params, captured_attrs, op)`: the argument
`params` is `op->params` before the call, the result is `op->params` after
it. `none` when `at` finds no key or an index is outside an array. -/
def nn_AvgPool2d.write (captured_params : ParameterMap) (params : ParameterMap) :
    Fallible ParameterMap :=
  (captured_params "divisor_override").bind fun divisor_override =>
  if divisor_override.type ≠ 0 then
    some params
  else
    let params := params.assign "0" (Parameter.of_int 1)
    (captured_params "kernel_size").bind fun kernel_size =>
    (kernel_size.ai.get? 1).bind fun kernel_w =>
    let params := params.assign "1" (Parameter.of_int kernel_w)
    (kernel_size.ai.get? 0).bind fun kernel_h =>
    let params := params.assign "11" (Parameter.of_int kernel_h)
    (captured_params "stride").bind fun stride =>
    (stride.ai.get? 1).bind fun stride_w =>
    let params := params.assign "2" (Parameter.of_int stride_w)
    (stride.ai.get? 0).bind fun stride_h =>
    let params := params.assign "12" (Parameter.of_int stride_h)
    (captured_params "padding").bind fun padding =>
    (padding.ai.get? 1).bind fun pad_w =>
    let params := params.assign "3" (Parameter.of_int pad_w)
    (padding.ai.get? 0).bind fun pad_h =>
    let params := params.assign "13" (Parameter.of_int pad_h)
    (captured_params "ceil_mode").bind fun ceil_mode =>
    let params := params.assign "5" (Parameter.of_int (if ceil_mode.b then 0 else 1))
    (captured_params "count_include_pad").bind fun count_include_pad =>
    let params := params.assign "6" (Parameter.of_int (if count_include_pad.b then 1 else 0))
    some params

/-- Captured parameters of an `nn.AvgPool2d` with kernel 3x2, stride 2x1,
padding 1x0, `ceil_mode` true, `count_include_pad` false; `divisor_override`
has the given type tag. -/
def sample_captured (divisor_type : Int) : ParameterMap :=
  fun k =>
    if k = "kernel_size" then some { type := 5, b := false, i := 0, ai := [3, 2] }
    else if k = "stride" then some { type := 5, b := false, i := 0, ai := [2, 1] }
    else if k = "padding" then some { type := 5, b := false, i := 0, ai := [1, 0] }
    else if k = "ceil_mode" then some { type := 1, b := true, i := 0, ai := [] }
    else if k = "count_include_pad" then some { type := 1, b := false, i := 0, ai := [] }
    else if k = "divisor_override" then
      some { type := divisor_type, b := false, i := 4, ai := [] }
    else none

/-- An operator parameter map that already holds key "9". -/
def sample_op_params : ParameterMap :=
  fun k => if k = "9" then some (Parameter.of_int 7) else none

end ncnn

end pnnx

namespace ncnn

/-! ## Concrete inputs used by the witnesses -/

/-- An option with `n` threads whose allocators grant every request. -/
def sample_option (n : Int) : Option :=
  { lightmode := true, num_threads := n,
    blob_allocator := fun _ => true, workspace_allocator := fun _ => true,
    vulkan_compute := true,
    blob_vkallocator := fun _ => true, workspace_vkallocator := fun _ => true,
    staging_vkallocator := fun _ => true }

/-- A one-dimensional buffer holding the given numbers as `float` cells. -/
def sample_vec (xs : List ℚ) : Mat ℚ :=
  { w := xs.length, h := 1, c := 1, elemsize := 4, cstep := xs.length,
    data := some (xs.map Cell.flt) }

/-- An option with `n` threads whose blob allocator grants the requests that
`blob` tells and whose workspace allocator grants those that `workspace`
tells. -/
def sample_option_alloc (n : Int) (blob workspace : Bool) : Option :=
  { sample_option n with
    blob_allocator := fun _ => blob, workspace_allocator := fun _ => workspace }

/-- A one-dimensional buffer holding the given integers as `signed char`
cells. -/
def sample_int8_vec (xs : List Int) : Mat ℚ :=
  { w := xs.length, h := 1, c := 1, elemsize := 1, cstep := xs.length,
    data := some (xs.map Cell.int) }

/-- A reader that holds six float weights and nothing else: the first read
returns them, every later read returns an empty buffer. -/
def sample_reader_weights_only : ModelBin ℚ :=
  { load := fun earlier _ _ =>
      match earlier with
      | [] => { w := 6, h := 1, c := 1, elemsize := 4, cstep := 6,
                data := some ([1, 2, 3, 4, 5, 6].map Cell.flt) }
      | _ => Mat.nil,
    vk_model_loader := false }

/-- A reader that holds six int8 weights, then three float bias values, then
float scales: the first read returns the weights with element size 1, the
second the bias, every later one a one-element float buffer. -/
def sample_reader_int8 : ModelBin ℚ :=
  { load := fun earlier _ _ =>
      match earlier with
      | [] => { w := 6, h := 1, c := 1, elemsize := 1, cstep := 6,
                data := some ([1, 2, 3, 4, 5, 6].map Cell.int) }
      | [_] => { w := 3, h := 1, c := 1, elemsize := 4, cstep := 3,
                 data := some ([0, 0, 0].map Cell.flt) }
      | _ => { w := 1, h := 1, c := 1, elemsize := 4, cstep := 1,
               data := some [Cell.flt 2] },
    vk_model_loader := false }

/-- The input of the end-to-end scenario: two channels of one element each,
both 10, with the channel stride 4 that 16-byte alignment gives a `float`
buffer. -/
def sample_input : Mat ℚ :=
  { w := 1, h := 1, c := 2, elemsize := 4, cstep := 4,
    data := some [Cell.flt 10, Cell.uninit, Cell.uninit, Cell.uninit,
                  Cell.flt 10, Cell.uninit, Cell.uninit, Cell.uninit] }

/-- A runtime that runs the iterations in index order for one thread and in
reverse order for more, and that does not return from a region entered with a
negative thread count. -/
def sample_omp : OmpRuntime :=
  { returns := fun t => decide (0 ≤ t),
    order := fun t n => if t ≤ 1 then List.range n else (List.range n).reverse,
    valid := fun t n ht => by
      refine ⟨decide_eq_true (le_of_lt ht), ?_⟩
      by_cases h : t ≤ 1
      · simp [h]
      · simp only [h, if_false]
        exact List.reverse_perm _ }

/-- A quantize sub-unit without state: it stores the floor of every float of
the input, as `signed char` cells in the layout of the input. -/
def sample_quantize : SubLayer ℚ Unit :=
  { load_param := fun s _ => (0, s),
    load_model := fun s _ => (0, s),
    forward := fun _ bottom _ _ =>
      (0, { bottom with
            elemsize := 1,
            data := bottom.data.map (List.map fun cell =>
              match cell with
              | Cell.flt x => Cell.int ⌊x⌋
              | _ => Cell.int 0) }),
    forward_inplace := fun _ m _ => (0, m) }

/-- A dequantize sub-unit whose state is its scale (key 0 of its parameters):
it turns every integer cell into that integer times the scale. -/
def sample_dequantize : SubLayer ℚ ℚ :=
  { load_param := fun s pd =>
      (0, match pd.params 0 with
          | some (ParamValue.float f) => f
          | _ => s),
    load_model := fun s _ => (0, s),
    forward := fun _ _ top _ => (0, top),
    forward_inplace := fun scale m _ =>
      (0, { m with
            data := m.data.map (List.map fun cell =>
              match cell with
              | Cell.int n => Cell.flt ((n : ℚ) * scale)
              | other => other) }) }

/-- The scenario layer set up for int8 inference, with int8 weights 1 to 6,
both scales 1 and both sub-units present. -/
def sample_int8_inner_product : InnerProduct ℚ Unit ℚ :=
  { one_blob_only := true, support_inplace := false,
    num_output := 3, bias_term := 0, weight_data_size := 6, int8_scale_term := 1,
    use_int8_inference := true,
    local_size_x := 1, local_size_y := 1, local_size_z := 1,
    specializations := [0], binding_count := 4,
    weight_data := sample_int8_vec [1, 2, 3, 4, 5, 6],
    bias_data := Mat.nil,
    weight_data_int8_scale := 1, bottom_blob_int8_scale := 1,
    quantize := some (), dequantize := some 1 }

/-- The zero input: two channels of one element each, both 0. -/
def sample_zero_input : Mat ℚ :=
  { w := 1, h := 1, c := 2, elemsize := 4, cstep := 4,
    data := some [Cell.flt 0, Cell.uninit, Cell.uninit, Cell.uninit,
                  Cell.flt 0, Cell.uninit, Cell.uninit, Cell.uninit] }

/-- The layer of the end-to-end scenario: three outputs, weights 1 to 6, bias
`[0, 0, 0]`, float inference. -/
def sample_inner_product : InnerProduct ℚ Unit ℚ :=
  { one_blob_only := true, support_inplace := false,
    num_output := 3, bias_term := 1, weight_data_size := 6, int8_scale_term := 0,
    use_int8_inference := false,
    local_size_x := 1, local_size_y := 1, local_size_z := 1,
    specializations := [1], binding_count := 4,
    weight_data := sample_vec [1, 2, 3, 4, 5, 6],
    bias_data := sample_vec [0, 0, 0],
    weight_data_int8_scale := 1, bottom_blob_int8_scale := 1,
    quantize := none, dequantize := none }

/-- A base layer that supports in-place execution and whose device
`forward_inplace` succeeds without touching anything. -/
def sample_inplace_layer : Layer ℚ :=
  { (Layer.new none : Layer ℚ) with
    support_inplace := true,
    forward_inplace_vkblobs := fun blobs cmd _ => (0, blobs, cmd) }

/-- An option with one thread whose blob allocator refuses its second request
(request 1) and grants every other one. -/
def sample_option_second_refused : Option :=
  { sample_option 1 with blob_allocator := fun k => k != 1 }

/-- A device buffer of `w` floats with storage handle `buffer`, from
allocator 1 and staging allocator 2. -/
def sample_vkmat (w : Nat) (buffer : Nat) : VkMat :=
  { w := w, h := 1, c := 1, elemsize := 4, cstep := w, allocator := 1,
    staging_allocator := 2, buffer := some buffer }

/-- Device allocators that grant every request, with storage handle
`100 + i` for output `i`. -/
def sample_device_alloc : VkAllocatorOracle := fun i => some (100 + i)

/-- Device allocators that refuse the request for output 1. -/
def sample_device_alloc_second_refused : VkAllocatorOracle :=
  fun i => if i = 1 then none else some (100 + i)

/-- A dequantize sub-unit whose `forward_inplace` fails with -100 and leaves
the buffer as it is. -/
def sample_failing_dequantize : SubLayer ℚ ℚ :=
  { sample_dequantize with forward_inplace := fun _ m _ => (-100, m) }

/-- An int8 input of one channel with 131072 elements, all -128. -/
def sample_overflow_input : Mat ℚ :=
  { w := 131072, h := 1, c := 1, elemsize := 1, cstep := 131072,
    data := some (List.replicate 131072 (Cell.int (-128))) }

/-- An int8 layer with one output over 131072 weights, all -128. -/
def sample_overflow_layer : InnerProduct ℚ Unit ℚ :=
  { sample_int8_inner_product with
    num_output := 1, weight_data_size := 131072,
    weight_data :=
      { w := 131072, h := 1, c := 1, elemsize := 1, cstep := 131072,
        data := some (List.replicate 131072 (Cell.int (-128))) } }

/-- A dictionary with `num_output` 3, `bias_term` 1, `weight_data_size` 6, no
int8 scale term, and a workgroup limit of 4. -/
def sample_param_dict : ParamDict ℚ :=
  { params := fun k =>
      if k = 0 then some (ParamValue.int 3)
      else if k = 1 then some (ParamValue.int 1)
      else if k = 2 then some (ParamValue.int 6)
      else none,
    use_int8_inference := false,
    max_workgroup_size := 4 }

/-- A reader that returns six float weights and then a bias buffer of two
elements. -/
def sample_reader_short_bias : ModelBin ℚ :=
  sample_reader_weights_only.with_second_read 6 (sample_vec [0, 0])

/-- The int8 workspace of the scenario: two channels of one `signed char`,
both 10, with the channel stride 16 that 16-byte alignment gives. -/
def sample_int8_input : Mat ℚ :=
  { w := 1, h := 1, c := 2, elemsize := 1, cstep := 16,
    data := some ([Cell.int 10] ++ List.replicate 15 Cell.uninit
      ++ [Cell.int 10] ++ List.replicate 15 Cell.uninit) }

/-- A dictionary with `num_output` -1 and a workgroup limit of 256. -/
def sample_negative_dict : ParamDict ℚ :=
  { params := fun k => if k = 0 then some (ParamValue.int (-1)) else none,
    use_int8_inference := false,
    max_workgroup_size := 256 }

/-- A two-row registry: a creator that builds a base layer, and a row whose
creator is null. -/
def sample_registry : List (layer_registry_entry ℚ) :=
  [ { name := "InnerProduct", creator := some (fun _ => some (Layer.new none)) },
    { name := "Quantize", creator := none } ]

/-! ## A model of `float` values with infinities and NaN -/

/-- The values of a C `float` as far as the special values matter: a finite
value, kept exact (no rounding, no overflow to infinity, the sign of zero not
tracked), plus infinity, minus infinity and NaN. -/
inductive ExtFloat where
  | fin (x : ℚ)
  | pinf
  | ninf
  | nan
  deriving DecidableEq

/-- IEEE 754 addition on the special values: NaN absorbs, infinities of
opposite sign give NaN, an infinity absorbs every finite value. -/
def ExtFloat.add : ExtFloat → ExtFloat → ExtFloat
  | .nan, _ => .nan
  | _, .nan => .nan
  | .fin a, .fin b => .fin (a + b)
  | .pinf, .ninf => .nan
  | .ninf, .pinf => .nan
  | .pinf, _ => .pinf
  | _, .pinf => .pinf
  | .ninf, _ => .ninf
  | _, .ninf => .ninf

/-- IEEE 754 multiplication on the special values: NaN absorbs, zero times an
infinity is NaN, and otherwise the signs multiply. -/
def ExtFloat.mul : ExtFloat → ExtFloat → ExtFloat
  | .nan, _ => .nan
  | _, .nan => .nan
  | .fin a, .fin b => .fin (a * b)
  | .fin a, .pinf => if a = 0 then .nan else if 0 < a then .pinf else .ninf
  | .fin a, .ninf => if a = 0 then .nan else if 0 < a then .ninf else .pinf
  | .pinf, .fin b => if b = 0 then .nan else if 0 < b then .pinf else .ninf
  | .ninf, .fin b => if b = 0 then .nan else if 0 < b then .ninf else .pinf
  | .pinf, .pinf => .pinf
  | .pinf, .ninf => .ninf
  | .ninf, .pinf => .ninf
  | .ninf, .ninf => .pinf

/-- The reciprocal: one over zero is infinity, one over an infinity is zero. -/
def ExtFloat.inv : ExtFloat → ExtFloat
  | .fin a => if a = 0 then .pinf else .fin (1 / a)
  | .pinf => .fin 0
  | .ninf => .fin 0
  | .nan => .nan

instance ExtFloat.instZero : Zero ExtFloat := ⟨ExtFloat.fin 0⟩

instance ExtFloat.instOne : One ExtFloat := ⟨ExtFloat.fin 1⟩

instance ExtFloat.instAdd : Add ExtFloat := ⟨ExtFloat.add⟩

instance ExtFloat.instMul : Mul ExtFloat := ⟨ExtFloat.mul⟩

instance ExtFloat.instDiv : Div ExtFloat := ⟨fun a b => ExtFloat.mul a (ExtFloat.inv b)⟩

/-- A one-dimensional buffer holding the given values as `float` cells. -/
def sample_ext_vec (xs : List ExtFloat) : Mat ExtFloat :=
  { w := xs.length, h := 1, c := 1, elemsize := 4, cstep := xs.length,
    data := some (xs.map Cell.flt) }

/-- The zero input over `ExtFloat`: two channels of one element each, both 0. -/
def sample_ext_zero_input : Mat ExtFloat :=
  { w := 1, h := 1, c := 2, elemsize := 4, cstep := 4,
    data := some [Cell.flt 0, Cell.uninit, Cell.uninit, Cell.uninit,
                  Cell.flt 0, Cell.uninit, Cell.uninit, Cell.uninit] }

/-- A sub-unit without state that does nothing and returns 0. -/
def sample_idle_sublayer {F : Type} : SubLayer F Unit :=
  { load_param := fun s _ => (0, s),
    load_model := fun s _ => (0, s),
    forward := fun _ _ top _ => (0, top),
    forward_inplace := fun _ m _ => (0, m) }

/-- A float layer with three outputs over two input elements, the bias term
set, and the given six weights and three bias values. -/
def sample_ext_inner_product (weights bias : List ExtFloat) : InnerProduct ExtFloat Unit Unit :=
  { one_blob_only := true, support_inplace := false,
    num_output := 3, bias_term := 1, weight_data_size := 6, int8_scale_term := 0,
    use_int8_inference := false,
    local_size_x := 1, local_size_y := 1, local_size_z := 1,
    specializations := [1], binding_count := 4,
    weight_data := sample_ext_vec weights,
    bias_data := sample_ext_vec bias,
    weight_data_int8_scale := 1, bottom_blob_int8_scale := 1,
    quantize := none, dequantize := none }

/-- A dequantize sub-unit whose `forward_inplace` stores the thread count of
the option it is given in every slot of the buffer. -/
def sample_thread_dequantize : SubLayer ℚ ℚ :=
  { sample_dequantize with
    forward_inplace := fun _ m o =>
      (0, { m with data := m.data.map (List.map fun _ => Cell.int o.num_threads) }) }

/-! ## Theorems: `layer.cpp` -/

section LayerTheorems

variable {F : Type}

/-- C1: `set_default_option` rejects a thread count that is not positive with
code -1 and leaves the default as it was; otherwise it returns 0 and the
default becomes the argument. -/
theorem C1_set_default_option_contract (d opt : Option) :
    (opt.num_threads ≤ 0 →
      (set_default_option d opt).1 = -1 ∧
      get_default_option (set_default_option d opt).2 = d) ∧
    (opt.num_threads > 0 →
      (set_default_option d opt).1 = 0 ∧
      get_default_option (set_default_option d opt).2 = opt) := by
  constructor
  · intro h
    simp [set_default_option, get_default_option, h]
  · intro h
    have h2 : ¬ opt.num_threads ≤ 0 := not_le.mpr h
    simp [set_default_option, get_default_option, h2]

/-- Witness of C1 at the default `sample_option 4`: the update to 0 threads is
refused, the update to 2 threads is taken. -/
theorem C1_set_default_option_contract_witness :
    ((set_default_option (sample_option 4) (sample_option 0)).1 = -1 ∧
      get_default_option (set_default_option (sample_option 4) (sample_option 0)).2
        = sample_option 4) ∧
    ((set_default_option (sample_option 4) (sample_option 2)).1 = 0 ∧
      get_default_option (set_default_option (sample_option 4) (sample_option 2)).2
        = sample_option 2) :=
  ⟨(C1_set_default_option_contract (sample_option 4) (sample_option 0)).1 (by decide),
   (C1_set_default_option_contract (sample_option 4) (sample_option 2)).2 (by decide)⟩

/-- C2 as stated fails: a base layer without in-place support, called with an
output argument that already holds three elements, returns -1 and the output
argument still holds them, so it is not empty after the call. -/
theorem C2_output_argument_not_emptied :
    (Layer.new none : Layer ℚ).support_inplace = false ∧
    Layer.forward_blob (Layer.new none) (sample_vec [1]) (sample_vec [7, 8, 9]) (sample_option 1)
      = (-1, sample_vec [7, 8, 9]) ∧
    (Layer.forward_blob (Layer.new none) (sample_vec [1]) (sample_vec [7, 8, 9])
      (sample_option 1)).2.empty = false ∧
    Layer.forward_blobs (Layer.new none) [sample_vec [1]] [sample_vec [7, 8, 9]] (sample_option 1)
      = (-1, [sample_vec [7, 8, 9]]) := by
  refine ⟨rfl, rfl, ?_, rfl⟩
  decide

/-- C2 (amended): for a layer whose `support_inplace` flag is false, both call
shapes of the base `forward` return -1 and leave the output argument exactly
as the caller passed it. -/
theorem C2_forward_unsupported_keeps_outputs (self : Layer F)
    (h : self.support_inplace = false)
    (bottom_blob top_blob : Mat F) (bottom_blobs top_blobs : List (Mat F)) (opt : Option) :
    self.forward_blob bottom_blob top_blob opt = (-1, top_blob) ∧
    self.forward_blobs bottom_blobs top_blobs opt = (-1, top_blobs) := by
  simp [Layer.forward_blob, Layer.forward_blobs, h]

/-- Witness of the amended C2 at the base layer and an empty output argument:
the output is empty after the call because it was empty before. -/
theorem C2_forward_unsupported_keeps_outputs_witness :
    Layer.forward_blob (Layer.new none) (sample_vec [1]) (Mat.nil : Mat ℚ) (sample_option 1)
      = (-1, Mat.nil) ∧
    Layer.forward_blobs (Layer.new none) [sample_vec [1]] ([] : List (Mat ℚ)) (sample_option 1)
      = (-1, []) :=
  C2_forward_unsupported_keeps_outputs (Layer.new none) rfl (sample_vec [1]) Mat.nil
    [sample_vec [1]] [] (sample_option 1)

/-- The scan never answers -1 for a name it found: found indices are
non-negative. -/
theorem layer_to_index_from_eq_neg_one (type : String) (l : List (layer_registry_entry F))
    (i : Nat) : layer_to_index_from type l i = -1 ↔ ∀ e ∈ l, e.name ≠ type := by
  induction l generalizing i with
  | nil => simp [layer_to_index_from]
  | cons e rest ih =>
    unfold layer_to_index_from
    by_cases h : type = e.name
    · simp only [h, if_true]
      constructor
      · intro hi
        omega
      · intro hall
        exact absurd rfl (hall e (List.mem_cons_self _ _))
    · simp only [h, if_false, ih, List.mem_cons, forall_eq_or_imp]
      constructor
      · intro hall
        exact ⟨fun heq => h heq.symm, hall⟩
      · intro hall
        exact hall.2

/-- When the scan from index `i` finds the name, its answer is `i + k` for the
first position `k` of the name in the scanned rows. -/
theorem layer_to_index_from_found (type : String) (l : List (layer_registry_entry F))
    (i : Nat) (h : layer_to_index_from type l i ≠ -1) :
    ∃ k : Nat, layer_to_index_from type l i = ((i + k : Nat) : Int) ∧ k < l.length ∧
      (∃ e, l.get? k = some e ∧ e.name = type) ∧
      (∀ j, j < k → ∀ e, l.get? j = some e → e.name ≠ type) := by
  induction l generalizing i with
  | nil => simp [layer_to_index_from] at h
  | cons e rest ih =>
    unfold layer_to_index_from at h ⊢
    by_cases hn : type = e.name
    · refine ⟨0, ?_, ?_, ⟨e, ?_, hn.symm⟩, ?_⟩
      · simp [hn]
      · simp
      · simp
      · intro j hj
        omega
    · simp only [hn, if_false] at h ⊢
      obtain ⟨k, hk1, hk2, ⟨e2, he2, hname⟩, hk4⟩ := ih (i + 1) h
      refine ⟨k + 1, ?_, ?_, ⟨e2, ?_, hname⟩, ?_⟩
      · rw [hk1]
        congr 1
        omega
      · simp
        omega
      · simpa using he2
      · intro j hj e3 he3
        cases j with
        | zero =>
          simp at he3
          subst he3
          exact fun heq => hn heq.symm
        | succ j2 =>
          simp at he3
          exact hk4 j2 (by omega) e3 (by simpa using he3)

/-- C3: `create_layer(index)` returns null without calling a creator when the
index is negative, past the table, or the row has no creator, and otherwise
exactly what the row's creator returns; `create_layer(name)` returns null for
a name that is in no row; the device-taking overloads return null in the same
cases, and whenever the plain overload returns null they return null too and
make no pipeline. -/
theorem C3_create_layer_not_found (layer_registry : List (layer_registry_entry F))
    (index : Int) (type : String) (vkdev : VulkanDevice) :
    ((index < 0 ∨ index ≥ (layer_registry.length : Int) ∨
        (∃ e, layer_registry.get? index.toNat = some e ∧ e.creator = none)) →
      create_layer_index layer_registry index = (none, []) ∧
      create_layer_index_vkdev layer_registry index vkdev = (none, [])) ∧
    (∀ e layer_creator, 0 ≤ index → layer_registry.get? index.toNat = some e →
        e.creator = some layer_creator →
      create_layer_index layer_registry index
        = (layer_creator (), [FactoryEvent.creator_call index.toNat])) ∧
    ((∀ e ∈ layer_registry, e.name ≠ type) →
      create_layer_type layer_registry type = (none, []) ∧
      create_layer_type_vkdev layer_registry type vkdev = (none, [])) ∧
    ((create_layer_index layer_registry index).1 = none →
      (create_layer_index_vkdev layer_registry index vkdev).1 = none ∧
      FactoryEvent.new_pipeline vkdev ∉ (create_layer_index_vkdev layer_registry index vkdev).2) ∧
    ((create_layer_type layer_registry type).1 = none →
      (create_layer_type_vkdev layer_registry type vkdev).1 = none ∧
      FactoryEvent.new_pipeline vkdev ∉ (create_layer_type_vkdev layer_registry type vkdev).2) := by
  have hmiss : ∀ idx : Int, (create_layer_index layer_registry idx).1 = none →
      (create_layer_index_vkdev layer_registry idx vkdev).1 = none ∧
      FactoryEvent.new_pipeline vkdev ∉ (create_layer_index_vkdev layer_registry idx vkdev).2 := by
    intro idx h
    unfold create_layer_index_vkdev
    unfold create_layer_index at h ⊢
    split at h
    · simp [*]
    · split at h
      · simp [*]
      · split at h
        · simp [*]
        · rename_i e heq layer_creator hc
          simp only [*] at h ⊢
          simp [h]
  have hfirst : (index < 0 ∨ index ≥ (layer_registry.length : Int) ∨
        (∃ e, layer_registry.get? index.toNat = some e ∧ e.creator = none)) →
      create_layer_index layer_registry index = (none, []) := by
    intro h
    unfold create_layer_index
    by_cases hr : index < 0 ∨ index ≥ (layer_registry.length : Int)
    · simp [hr]
    · rcases h with h | h | ⟨e, he, hc⟩
      · exact absurd (Or.inl h) hr
      · exact absurd (Or.inr h) hr
      · have he2 : layer_registry[index.toNat]? = some e := by simpa using he
        simp [hr, he2, hc]
  refine ⟨?_, ?_, ?_, hmiss index, ?_⟩
  · intro h
    have h1 := hfirst h
    refine ⟨h1, ?_⟩
    simp [create_layer_index_vkdev, h1]
  · intro e layer_creator h0 he hc
    have hlt : index.toNat < layer_registry.length := by
      have := List.get?_eq_some.mp he
      exact this.1
    have hr : ¬ (index < 0 ∨ index ≥ (layer_registry.length : Int)) := by
      omega
    have he2 : layer_registry[index.toNat]? = some e := by simpa using he
    simp [create_layer_index, hr, he2, hc]
  · intro h
    have hidx : layer_to_index layer_registry type = -1 :=
      (layer_to_index_from_eq_neg_one type layer_registry 0).mpr h
    simp [create_layer_type, create_layer_type_vkdev, hidx]
  · intro h
    unfold create_layer_type at h
    unfold create_layer_type_vkdev
    by_cases hidx : layer_to_index layer_registry type = -1
    · simp [hidx]
    · simp only [hidx, if_false] at h ⊢
      exact hmiss _ h

/-- Witness of C3 on `sample_registry`: index -1, index 2 (past the table) and
index 1 (null creator) give null with no creator call, index 0 gives the
creator's layer, and the unknown name "Pooling" gives null. -/
theorem C3_create_layer_not_found_witness :
    (create_layer_index sample_registry (-1) = (none, []) ∧
      create_layer_index_vkdev sample_registry (-1) 7 = (none, [])) ∧
    (create_layer_index sample_registry 2 = (none, []) ∧
      create_layer_index_vkdev sample_registry 2 7 = (none, [])) ∧
    (create_layer_index sample_registry 1 = (none, []) ∧
      create_layer_index_vkdev sample_registry 1 7 = (none, [])) ∧
    create_layer_index sample_registry 0
      = (some (Layer.new none), [FactoryEvent.creator_call 0]) ∧
    (create_layer_type sample_registry "Pooling" = (none, []) ∧
      create_layer_type_vkdev sample_registry "Pooling" 7 = (none, [])) :=
  ⟨(C3_create_layer_not_found sample_registry (-1) "Pooling" 7).1 (Or.inl (by decide)),
   (C3_create_layer_not_found sample_registry 2 "Pooling" 7).1 (Or.inr (Or.inl (by decide))),
   (C3_create_layer_not_found sample_registry 1 "Pooling" 7).1
     (Or.inr (Or.inr ⟨_, rfl, rfl⟩)),
   (C3_create_layer_not_found sample_registry 0 "Pooling" 7).2.1 _ _ (by decide) rfl rfl,
   (C3_create_layer_not_found sample_registry 0 "Pooling" 7).2.2.1 (by decide)⟩

/-- C4: `layer_to_index(name)` is -1 exactly when no row has the name;
otherwise it is the smallest index whose row has the name, that index lies
inside the table, and `create_layer(name)` is `create_layer` of that index. -/
theorem C4_layer_to_index_first_match (layer_registry : List (layer_registry_entry F))
    (type : String) :
    (layer_to_index layer_registry type = -1 ↔ ∀ e ∈ layer_registry, e.name ≠ type) ∧
    (layer_to_index layer_registry type ≠ -1 →
      ∃ i : Nat, layer_to_index layer_registry type = (i : Int) ∧
        i < layer_registry.length ∧
        (∃ e, layer_registry.get? i = some e ∧ e.name = type) ∧
        (∀ j, j < i → ∀ e, layer_registry.get? j = some e → e.name ≠ type) ∧
        create_layer_type layer_registry type = create_layer_index layer_registry (i : Int)) := by
  refine ⟨layer_to_index_from_eq_neg_one type layer_registry 0, ?_⟩
  intro h
  obtain ⟨k, hk1, hk2, hk3, hk4⟩ := layer_to_index_from_found type layer_registry 0 h
  have hk : layer_to_index layer_registry type = (k : Int) := by
    unfold layer_to_index
    rw [hk1]
    simp
  refine ⟨k, hk, hk2, hk3, hk4, ?_⟩
  unfold create_layer_type
  simp only [h, if_false]
  rw [hk]

/-- Witness of C4 on `sample_registry`: "Quantize" is found at index 1, which
is its first and only row, and "Pooling" is not found. -/
theorem C4_layer_to_index_first_match_witness :
    (layer_to_index sample_registry "Pooling" = -1 ↔
      ∀ e ∈ sample_registry, e.name ≠ "Pooling") ∧
    (∃ i : Nat, layer_to_index sample_registry "Quantize" = (i : Int) ∧
        i < sample_registry.length ∧
        (∃ e, sample_registry.get? i = some e ∧ e.name = "Quantize") ∧
        (∀ j, j < i → ∀ e, sample_registry.get? j = some e → e.name ≠ "Quantize") ∧
        create_layer_type sample_registry "Quantize"
          = create_layer_index sample_registry (i : Int)) :=
  ⟨(C4_layer_to_index_first_match sample_registry "Pooling").1,
   (C4_layer_to_index_first_match sample_registry "Quantize").2 (by decide)⟩

end LayerTheorems

/-! ## Lemmas on loops and buffers -/

section LoopLemmas

variable {F : Type}

/-- A bounded loop whose every step succeeds is the pure loop. -/
theorem foldlM_range_eq_foldl {α : Type} (f : α → Nat → Fallible α) (g : α → Nat → α) (n : Nat)
    (h : ∀ s i, i < n → f s i = some (g s i)) (s : α) :
    (List.range n).foldlM f s = some ((List.range n).foldl g s) := by
  induction n generalizing s with
  | zero => rfl
  | succ k ih =>
    have ih2 := ih (fun s i hi => h s i (Nat.lt_succ_of_lt hi)) s
    rw [List.range_succ, List.foldlM_append, ih2, List.foldl_append]
    simp [h _ k (Nat.lt_succ_self k)]

/-- An accumulating loop adds the sum of its terms to the start value. -/
theorem foldl_range_add {M : Type} [AddCommMonoid M] (t : Nat → M) (n : Nat) (s : M) :
    (List.range n).foldl (fun acc i => acc + t i) s = s + ∑ i in Finset.range n, t i := by
  induction n with
  | zero => simp
  | succ k ih =>
    rw [List.range_succ, List.foldl_append, ih, Finset.sum_range_succ]
    simp [add_assoc]

/-- A write inside the storage replaces one slot and nothing else. -/
theorem Mat.write_of_lt (top : Mat F) (cells : List (Cell F)) (hdata : top.data = some cells)
    (p : Nat) (hp : p < cells.length) (v : Cell F) :
    top.write p v = some { top with data := some (cells.set p v) } := by
  unfold Mat.write
  rw [hdata]
  simp [hp]

/-- A loop of slot writes, run in any order `l`: slot `k` ends with the value
computed for `k` when `k` is in `l`, and is untouched otherwise. -/
theorem foldlM_write_cells (compute : Nat → Fallible (Cell F)) (v : Nat → Cell F)
    (l : List Nat) (top : Mat F) (cells : List (Cell F)) (hdata : top.data = some cells)
    (hl : ∀ p ∈ l, p < cells.length ∧ compute p = some (v p)) :
    ∃ cells2 : List (Cell F),
      l.foldlM (fun top p => (compute p).bind (top.write p)) top
        = some { top with data := some cells2 } ∧
      cells2.length = cells.length ∧
      (∀ k ∈ l, cells2.get? k = some (v k)) ∧
      (∀ k, k ∉ l → cells2.get? k = cells.get? k) := by
  induction l generalizing top cells with
  | nil =>
    refine ⟨cells, ?_, rfl, ?_, ?_⟩
    · cases top
      simp only at hdata
      subst hdata
      rfl
    · intro k hk
      simp at hk
    · intro k _
      rfl
  | cons p rest ih =>
    obtain ⟨hp, hc⟩ := hl p (List.mem_cons_self _ _)
    have hstep : (compute p).bind (top.write p)
        = some { top with data := some (cells.set p (v p)) } := by
      rw [hc]
      exact Mat.write_of_lt top cells hdata p hp (v p)
    obtain ⟨cells2, h1, h2, h3, h4⟩ :=
      ih { top with data := some (cells.set p (v p)) } (cells.set p (v p)) rfl
        (fun k hk => by
          have := hl k (List.mem_cons_of_mem _ hk)
          simpa using this)
    refine ⟨cells2, ?_, ?_, ?_, ?_⟩
    · rw [List.foldlM_cons, hstep]
      exact h1
    · simpa using h2
    · intro k hk
      by_cases hr : k ∈ rest
      · exact h3 k hr
      · have hkp : k = p := by
          rcases List.mem_cons.mp hk with h | h
          · exact h
          · exact absurd h hr
        subst hkp
        rw [h4 k hr]
        simp [hp]
    · intro k hk
      have hne : k ≠ p := fun h => hk (h ▸ List.mem_cons_self _ _)
      have hr : k ∉ rest := fun h => hk (List.mem_cons_of_mem _ h)
      rw [h4 k hr]
      simp [List.getElem?_set, Ne.symm hne]

/-- A created one-dimensional buffer that is not empty has `w` unwritten
slots, and `w` is positive. -/
theorem Mat.create_data_of_not_empty (w : Int) (elemsize : Nat) (granted : Bool)
    (h : (Mat.create w elemsize granted : Mat F).empty = false) :
    (Mat.create w elemsize granted : Mat F).data = some (List.replicate w.toNat Cell.uninit) ∧
    0 < w.toNat := by
  by_cases hc : 0 < w.toNat ∧ granted = true
  · refine ⟨?_, hc.1⟩
    simp only [Mat.create, hc, and_self, if_true]
  · exfalso
    simp only [Mat.empty, Mat.create, hc, if_false] at h
    simp at h

/-- The parallel loop over `n` slots of a buffer with `n` slots, all of whose
iterations succeed, fills slot `p` with the value of iteration `p`, for every
positive thread count. -/
theorem omp_parallel_for_fills (omp : OmpRuntime) (num_threads : Int) (n : Nat)
    (compute : Nat → Fallible (Cell F)) (v : Nat → Cell F) (top : Mat F)
    (cells : List (Cell F)) (hthreads : 0 < num_threads)
    (hdata : top.data = some cells) (hlen : cells.length = n)
    (hc : ∀ p, p < n → compute p = some (v p)) :
    ∃ cells2 : List (Cell F),
      omp_parallel_for omp num_threads n compute top = some { top with data := some cells2 } ∧
      cells2.length = n ∧
      ∀ p, p < n → cells2.get? p = some (v p) := by
  obtain ⟨hret, hperm⟩ := omp.valid num_threads n hthreads
  unfold omp_parallel_for
  rw [hret, if_pos rfl]
  have hmem : ∀ p, p ∈ omp.order num_threads n ↔ p < n := by
    intro p
    rw [hperm.mem_iff]
    exact List.mem_range
  obtain ⟨cells2, h1, h2, h3, _⟩ :=
    foldlM_write_cells compute v (omp.order num_threads n) top cells hdata
      (fun p hp => ⟨by rw [hlen]; exact (hmem p).mp hp, hc p ((hmem p).mp hp)⟩)
  exact ⟨cells2, h1, h2.trans hlen, fun p hp => h3 p ((hmem p).mpr hp)⟩

/-- Two iterations of a loop of slot writes can be run in either order. -/
theorem write_step_comm (compute : Nat → Fallible (Cell F)) (x y : Nat) (top : Mat F) :
    ((compute x).bind (top.write x)).bind (fun t => (compute y).bind (t.write y))
      = ((compute y).bind (top.write y)).bind (fun t => (compute x).bind (t.write x)) := by
  by_cases hxy : x = y
  · subst hxy
    rfl
  · cases hx : compute x with
    | none =>
      cases hy : compute y with
      | none => rfl
      | some b =>
        simp only [Option.none_bind, Option.some_bind]
        cases top.write y b <;> rfl
    | some a =>
      cases hy : compute y with
      | none =>
        simp only [Option.none_bind, Option.some_bind]
        cases top.write x a <;> rfl
      | some b =>
        simp only [Option.some_bind]
        unfold Mat.write
        cases hd : top.data with
        | none => rfl
        | some cells =>
          by_cases h1 : x < cells.length <;> by_cases h2 : y < cells.length <;>
            simp [h1, h2, List.set_comm a b cells hxy]

/-- A loop of slot writes gives the same buffer, or faults alike, in every
order of its iterations. -/
theorem foldlM_write_perm (compute : Nat → Fallible (Cell F)) (l1 l2 : List Nat)
    (h : l1.Perm l2) (top : Mat F) :
    l1.foldlM (fun top p => (compute p).bind (top.write p)) top
      = l2.foldlM (fun top p => (compute p).bind (top.write p)) top := by
  induction h generalizing top with
  | nil => rfl
  | cons x _ ih =>
    simp only [List.foldlM_cons]
    cases (compute x).bind (top.write x) with
    | none => rfl
    | some t => exact ih t
  | swap x y l =>
    simp only [List.foldlM_cons]
    have hc := write_step_comm compute y x top
    cases h1 : (compute y).bind (top.write y) with
    | none =>
      rw [h1] at hc
      simp only [Option.none_bind] at hc
      cases h2 : (compute x).bind (top.write x) with
      | none => rfl
      | some t2 =>
        rw [h2] at hc
        simp only [Option.some_bind] at hc
        simp only [Option.bind_eq_bind, Option.none_bind, Option.some_bind]
        rw [← hc]
        rfl
    | some t1 =>
      rw [h1] at hc
      simp only [Option.some_bind] at hc
      cases h2 : (compute x).bind (top.write x) with
      | none =>
        rw [h2] at hc
        simp only [Option.none_bind] at hc
        simp only [Option.bind_eq_bind, Option.none_bind, Option.some_bind]
        rw [hc]
        rfl
      | some t2 =>
        rw [h2] at hc
        simp only [Option.some_bind] at hc
        simp only [Option.bind_eq_bind, Option.some_bind]
        rw [hc]
  | trans _ _ ih1 ih2 => exact (ih1 top).trans (ih2 top)

/-- The parallel loop gives the same result for every positive thread
count. -/
theorem omp_parallel_for_threads (omp : OmpRuntime) (t1 t2 : Int) (n : Nat)
    (h1 : 0 < t1) (h2 : 0 < t2) (compute : Nat → Fallible (Cell F)) (top : Mat F) :
    omp_parallel_for omp t1 n compute top = omp_parallel_for omp t2 n compute top := by
  obtain ⟨hret1, hperm1⟩ := omp.valid t1 n h1
  obtain ⟨hret2, hperm2⟩ := omp.valid t2 n h2
  unfold omp_parallel_for
  rw [hret1, hret2]
  simp only [if_true]
  exact foldlM_write_perm compute _ _ (hperm1.trans hperm2.symm) top

/-- A value inside the `int` range is not changed by the wrap-around. -/
theorem wrap_int32_of_range (v : Int) (h1 : -2147483648 ≤ v) (h2 : v < 2147483648) :
    wrap_int32 v = v := by
  unfold wrap_int32
  omega

/-- Wrapping an intermediate sum does not change the wrapped total. -/
theorem wrap_int32_wrap_add (x c : Int) :
    wrap_int32 (wrap_int32 x + c) = wrap_int32 (x + c) := by
  unfold wrap_int32
  omega

/-- A `signed char` lies between -128 and 127. -/
theorem wrap_int8_range (v : Int) : -128 ≤ wrap_int8 v ∧ wrap_int8 v ≤ 127 := by
  unfold wrap_int8
  omega

/-- What a `signed char` read returns lies between -128 and 127. -/
theorem Mat.int8At_range (m : Mat F) (i : Nat) (v : Int) (h : m.int8At i = some v) :
    -128 ≤ v ∧ v ≤ 127 := by
  unfold Mat.int8At at h
  cases hm : m.intAt i with
  | none => simp [hm] at h
  | some u =>
    simp only [hm, Option.map_some', Option.some.injEq] at h
    subst h
    exact wrap_int8_range u

/-- A `signed char` read of a buffer filled with one integer. -/
theorem Mat.int8At_replicate (m : Mat F) (n : Nat) (v : Int)
    (hdata : m.data = some (List.replicate n (Cell.int v))) (i : Nat) (hi : i < n) :
    m.int8At i = some (wrap_int8 v) := by
  simp [Mat.int8At, Mat.intAt, Mat.cell, hdata, List.getElem?_replicate, hi, Cell.asInt]

/-- The sum of `n` terms of size at most `T` has size at most `n * T`. -/
theorem abs_sum_range_le (g : Nat → Int) (T : Int) (n : Nat) (h : ∀ i, i < n → |g i| ≤ T) :
    |∑ i in Finset.range n, g i| ≤ n * T := by
  induction n with
  | zero => simp
  | succ k ih =>
    rw [Finset.sum_range_succ]
    have h1 := ih (fun i hi => h i (Nat.lt_succ_of_lt hi))
    have h2 := h k (Nat.lt_succ_self k)
    have h3 := abs_add (∑ i in Finset.range k, g i) (g k)
    push_cast
    linarith

/-- An accumulating loop whose step is exact while the sum stays below a limit
`L`, run on terms of size at most `T` from a start with enough room, computes
the exact sum. -/
theorem foldlM_range_exact (f : Int → Nat → Fallible Int) (g : Nat → Int) (T L : Int) :
    ∀ (n : Nat) (s0 : Int),
      (∀ s i, i < n → |s| + T ≤ L → f s i = some (s + g i)) →
      (∀ i, i < n → |g i| ≤ T) → |s0| + n * T ≤ L →
      (List.range n).foldlM f s0 = some (s0 + ∑ i in Finset.range n, g i) := by
  intro n
  induction n with
  | zero =>
    intro s0 _ _ _
    simp
  | succ k ih =>
    intro s0 hf hg hs
    have hT : 0 ≤ T := le_trans (abs_nonneg _) (hg k (Nat.lt_succ_self k))
    have hs2 : |s0| + (k : Int) * T ≤ L := by
      push_cast at hs
      linarith
    have ih2 := ih s0 (fun s i hi => hf s i (Nat.lt_succ_of_lt hi))
      (fun i hi => hg i (Nat.lt_succ_of_lt hi)) hs2
    have hb := abs_sum_range_le g T k (fun i hi => hg i (Nat.lt_succ_of_lt hi))
    have hb2 := abs_add s0 (∑ i in Finset.range k, g i)
    have hstep := hf (s0 + ∑ i in Finset.range k, g i) k (Nat.lt_succ_self k) (by
      push_cast at hs
      linarith)
    rw [List.range_succ, List.foldlM_append, ih2]
    simp only [Option.bind_eq_bind, Option.some_bind, List.foldlM_cons, List.foldlM_nil]
    rw [hstep, Finset.sum_range_succ]
    simp [add_assoc]

/-- A loop that adds the same term `c` with wrap-around `n` times to a start
inside the `int` range ends at the wrapped total. -/
theorem foldl_range_wrap_const (c : Int) (n : Nat) (s0 : Int) (hs : wrap_int32 s0 = s0) :
    (List.range n).foldl (fun s _ => wrap_int32 (s + c)) s0 = wrap_int32 (s0 + n * c) := by
  induction n with
  | zero => simp [hs]
  | succ k ih =>
    rw [List.range_succ, List.foldl_append, ih]
    simp only [List.foldl_cons, List.foldl_nil]
    rw [wrap_int32_wrap_add]
    congr 1
    push_cast
    ring

end LoopLemmas

/-! ## Theorems: `layer/innerproduct.cpp` -/

section InnerProductTheorems

variable {F σq σd : Type}

/-- The weight offset of output `p`, channel `q`, element `i` lies inside a
buffer of `n * channels * size` elements. -/
theorem weight_offset_lt (n channels size p q i : Nat) (hp : p < n) (hq : q < channels)
    (hi : i < size) : size * channels * p + size * q + i < n * channels * size := by
  have h1 : size * q + i < size * channels := by
    calc size * q + i < size * q + size := by omega
      _ = size * (q + 1) := by ring
      _ ≤ size * channels := Nat.mul_le_mul_left _ hq
  have h2 : size * channels * p + size * channels ≤ size * channels * n := by
    calc size * channels * p + size * channels = size * channels * (p + 1) := by ring
      _ ≤ size * channels * n := Nat.mul_le_mul_left _ hp
  calc size * channels * p + size * q + i
      = size * channels * p + (size * q + i) := by ring
    _ < size * channels * p + size * channels := by omega
    _ ≤ size * channels * n := h2
    _ = n * channels * size := by ring

/-- The innermost float loop adds the products of one channel to `sum`. -/
theorem float_channel_sum [Semiring F] [Div F] (self : InnerProduct F σq σd)
    (bottom_blob : Mat F) (size channels p q : Nat) (x wt : Nat → F)
    (hx : ∀ i, i < size → bottom_blob.floatAt (bottom_blob.cstep * q + i) = some (x i))
    (hw : ∀ i, i < size →
      self.weight_data.floatAt (size * channels * p + size * q + i) = some (wt i))
    (sum : F) :
    InnerProduct.float_channel self bottom_blob size channels p q sum
      = some (sum + ∑ i in Finset.range size, x i * wt i) := by
  unfold InnerProduct.float_channel
  rw [foldlM_range_eq_foldl _ (fun acc i => acc + x i * wt i) size ?_ sum, foldl_range_add]
  intro s i hi
  simp [hx i hi, hw i hi]

/-- The body of the float loop computes the bias (or zero) plus the dot
product of the whole input with the weight slice of output `p`. -/
theorem float_output_sum [Semiring F] [Div F] (self : InnerProduct F σq σd)
    (bottom_blob : Mat F) (size channels p : Nat) (x : Nat → Nat → F) (wt b : Nat → F)
    (hx : ∀ q i, q < channels → i < size →
      bottom_blob.floatAt (bottom_blob.cstep * q + i) = some (x q i))
    (hw : ∀ q i, q < channels → i < size →
      self.weight_data.floatAt (size * channels * p + size * q + i)
        = some (wt (size * channels * p + size * q + i)))
    (hb : self.bias_term ≠ 0 → self.bias_data.floatAt p = some (b p)) :
    InnerProduct.float_output self bottom_blob size channels p
      = some ((if self.bias_term ≠ 0 then b p else 0)
          + ∑ q in Finset.range channels, ∑ i in Finset.range size,
              x q i * wt (size * channels * p + size * q + i)) := by
  unfold InnerProduct.float_output
  have hstart : (if self.bias_term ≠ 0 then self.bias_data.floatAt p else some 0)
      = some (if self.bias_term ≠ 0 then b p else 0) := by
    by_cases hbt : self.bias_term ≠ 0
    · simp only [hbt, if_true, hb hbt, ne_eq, not_false_eq_true]
    · simp only [hbt, if_false]
  rw [hstart, Option.some_bind,
    foldlM_range_eq_foldl _
      (fun acc q => acc + ∑ i in Finset.range size,
        x q i * wt (size * channels * p + size * q + i)) channels ?_ _,
    foldl_range_add]
  intro s q hq
  exact float_channel_sum self bottom_blob size channels p q (x q)
    (fun i => wt (size * channels * p + size * q + i)) (hx q · hq) (hw q · hq) s

/-- The float path of `forward` with a positive thread count: when the body
of the loop gives `v p` for every output index `p`, the call returns 0 and the
output holds `v p` in slot `p`. No law of the float operations is used. -/
theorem forward_float_of_outputs [Zero F] [One F] [Add F] [Mul F] [Div F] (omp : OmpRuntime)
    (vq : SubLayer F σq) (vd : SubLayer F σd) (self : InnerProduct F σq σd)
    (bottom_blob top_blob : Mat F) (opt : Option) (v : Nat → F)
    (hint8 : self.use_int8_inference = false)
    (halloc : (Mat.create self.num_output bottom_blob.elemsize (opt.blob_allocator 0) :
      Mat F).empty = false)
    (hthreads : 0 < opt.num_threads)
    (hv : ∀ p, p < self.num_output.toNat →
      InnerProduct.float_output self bottom_blob (bottom_blob.w * bottom_blob.h).toNat
        bottom_blob.c.toNat p = some (v p)) :
    ∃ r : ForwardResult F σq σd,
      InnerProduct.forward omp vq vd self bottom_blob top_blob opt = some r ∧
      r.code = 0 ∧
      r.top_blob.w = self.num_output ∧
      r.top_blob.data.map List.length = some self.num_output.toNat ∧
      ∀ p, p < self.num_output.toNat → r.top_blob.floatAt p = some (v p) := by
  obtain ⟨hdata, _⟩ := Mat.create_data_of_not_empty _ _ _ halloc
  obtain ⟨cells2, hloop, hlen, hcells⟩ :=
    omp_parallel_for_fills omp opt.num_threads self.num_output.toNat
      (fun p => (InnerProduct.float_output self bottom_blob
        (bottom_blob.w * bottom_blob.h).toNat bottom_blob.c.toNat p).map Cell.flt)
      (fun p => Cell.flt (v p))
      (Mat.create self.num_output bottom_blob.elemsize (opt.blob_allocator 0))
      (List.replicate self.num_output.toNat Cell.uninit) hthreads hdata
      (List.length_replicate _ _)
      (fun p hp => by
        beta_reduce
        rw [hv p hp]
        rfl)
  refine ⟨{ code := 0,
             top_blob := { (Mat.create self.num_output bottom_blob.elemsize
               (opt.blob_allocator 0) : Mat F) with data := some cells2 },
             quantize := self.quantize, dequantize := self.dequantize,
             log := (omp.order opt.num_threads self.num_output.toNat).map Event.dot_product },
    ?_, rfl, rfl, ?_, ?_⟩
  · unfold InnerProduct.forward
    simp only [halloc, hint8, hloop, Bool.false_eq_true, if_false]
  · simp [hlen]
  · intro p hp
    simp only [Mat.floatAt, Mat.cell, hcells p hp]
    rfl

/-- The float path of `forward`, in exact arithmetic, on buffers that hold the
elements it reads, with a positive thread count. -/
theorem forward_float_spec [Semiring F] [Div F] (omp : OmpRuntime)
    (vq : SubLayer F σq) (vd : SubLayer F σd) (self : InnerProduct F σq σd)
    (bottom_blob top_blob : Mat F) (opt : Option) (x : Nat → Nat → F) (wt b : Nat → F)
    (hint8 : self.use_int8_inference = false)
    (halloc : (Mat.create self.num_output bottom_blob.elemsize (opt.blob_allocator 0) :
      Mat F).empty = false)
    (hthreads : 0 < opt.num_threads)
    (hx : ∀ q i, q < bottom_blob.c.toNat → i < (bottom_blob.w * bottom_blob.h).toNat →
      bottom_blob.floatAt (bottom_blob.cstep * q + i) = some (x q i))
    (hw : ∀ k, k < self.num_output.toNat * bottom_blob.c.toNat
        * (bottom_blob.w * bottom_blob.h).toNat →
      self.weight_data.floatAt k = some (wt k))
    (hb : self.bias_term ≠ 0 → ∀ p, p < self.num_output.toNat →
      self.bias_data.floatAt p = some (b p)) :
    ∃ r : ForwardResult F σq σd,
      InnerProduct.forward omp vq vd self bottom_blob top_blob opt = some r ∧
      r.code = 0 ∧
      r.top_blob.w = self.num_output ∧
      r.top_blob.data.map List.length = some self.num_output.toNat ∧
      ∀ p, p < self.num_output.toNat →
        r.top_blob.floatAt p
          = some ((if self.bias_term ≠ 0 then b p else 0)
              + ∑ q in Finset.range bottom_blob.c.toNat,
                  ∑ i in Finset.range (bottom_blob.w * bottom_blob.h).toNat,
                    x q i * wt ((bottom_blob.w * bottom_blob.h).toNat * bottom_blob.c.toNat * p
                      + (bottom_blob.w * bottom_blob.h).toNat * q + i)) :=
  forward_float_of_outputs omp vq vd self bottom_blob top_blob opt
    (fun p => (if self.bias_term ≠ 0 then b p else 0)
      + ∑ q in Finset.range bottom_blob.c.toNat,
          ∑ i in Finset.range (bottom_blob.w * bottom_blob.h).toNat,
            x q i * wt ((bottom_blob.w * bottom_blob.h).toNat * bottom_blob.c.toNat * p
              + (bottom_blob.w * bottom_blob.h).toNat * q + i))
    hint8 halloc hthreads
    (fun p hp => float_output_sum self bottom_blob _ _ p x wt b hx
      (fun q i hq hi => hw _ (weight_offset_lt _ _ _ p q i hp hq hi))
      (fun hbt => hb hbt p hp))

/-- C5: on the float path (`use_int8_inference` false, output allocation
succeeds), with an option that holds a positive thread count, an input that
holds `x q i` at element `i` of channel `q`, weights `wt` and bias `b`, over
exact arithmetic: `forward` returns 0, the output has width `num_output`, and
output `p` is the bias `b p` (or 0 without bias term) plus the sum over
`q < channels`, `i < size` of `x q i * wt (size * channels * p + size * q + i)`. -/
theorem C5_forward_float_dot_product [Semiring F] [Div F] (omp : OmpRuntime)
    (vq : SubLayer F σq) (vd : SubLayer F σd) (self : InnerProduct F σq σd)
    (bottom_blob top_blob : Mat F) (opt : Option) (x : Nat → Nat → F) (wt b : Nat → F)
    (hint8 : self.use_int8_inference = false)
    (halloc : (Mat.create self.num_output bottom_blob.elemsize (opt.blob_allocator 0) :
      Mat F).empty = false)
    (hthreads : 0 < opt.num_threads)
    (hx : ∀ q i, q < bottom_blob.c.toNat → i < (bottom_blob.w * bottom_blob.h).toNat →
      bottom_blob.floatAt (bottom_blob.cstep * q + i) = some (x q i))
    (hw : ∀ k, k < self.num_output.toNat * bottom_blob.c.toNat
        * (bottom_blob.w * bottom_blob.h).toNat →
      self.weight_data.floatAt k = some (wt k))
    (hb : self.bias_term ≠ 0 → ∀ p, p < self.num_output.toNat →
      self.bias_data.floatAt p = some (b p)) :
    ∃ r : ForwardResult F σq σd,
      InnerProduct.forward omp vq vd self bottom_blob top_blob opt = some r ∧
      r.code = 0 ∧
      r.top_blob.w = self.num_output ∧
      r.top_blob.data.map List.length = some self.num_output.toNat ∧
      ∀ p, p < self.num_output.toNat →
        r.top_blob.floatAt p
          = some ((if self.bias_term ≠ 0 then b p else 0)
              + ∑ q in Finset.range bottom_blob.c.toNat,
                  ∑ i in Finset.range (bottom_blob.w * bottom_blob.h).toNat,
                    x q i * wt ((bottom_blob.w * bottom_blob.h).toNat * bottom_blob.c.toNat * p
                      + (bottom_blob.w * bottom_blob.h).toNat * q + i)) :=
  forward_float_spec omp vq vd self bottom_blob top_blob opt x wt b hint8 halloc hthreads
    hx hw hb

/-- Witness of C5, the end-to-end scenario: three outputs, two channels of one
element, weights 1 to 6, bias `[0, 0, 0]`, input `[10, 10]`, two threads; the
output is `[30, 70, 110]`. -/
theorem C5_forward_float_dot_product_witness :
    ∃ r : ForwardResult ℚ Unit ℚ,
      InnerProduct.forward sample_omp sample_quantize sample_dequantize sample_inner_product
        sample_input Mat.nil (sample_option 2) = some r ∧
      r.code = 0 ∧ r.top_blob.w = 3 ∧
      r.top_blob.floatAt 0 = some 30 ∧
      r.top_blob.floatAt 1 = some 70 ∧
      r.top_blob.floatAt 2 = some 110 := by
  obtain ⟨r, h1, h2, h3, _, h5⟩ :=
    C5_forward_float_dot_product sample_omp sample_quantize sample_dequantize
      sample_inner_product sample_input Mat.nil (sample_option 2)
      (fun _ _ => 10) (fun k => [1, 2, 3, 4, 5, 6].getD k 0) (fun _ => 0)
      rfl (by decide) (by decide)
      (by
        intro q i hq hi
        have hq2 : q < 2 := hq
        have hi2 : i < 1 := hi
        interval_cases q <;> interval_cases i <;> rfl)
      (by
        intro k hk
        have hk2 : k < 6 := hk
        interval_cases k <;> rfl)
      (by
        intro _ p hp
        have hp2 : p < 3 := hp
        interval_cases p <;> rfl)
  have e2 : Int.toNat 2 = 2 := rfl
  refine ⟨r, h1, h2, h3, ?_, ?_, ?_⟩
  · rw [h5 0 (by decide)]
    norm_num [sample_inner_product, sample_input, e2, Finset.sum_range_succ]
  · rw [h5 1 (by decide)]
    norm_num [sample_inner_product, sample_input, e2, Finset.sum_range_succ]
  · rw [h5 2 (by decide)]
    norm_num [sample_inner_product, sample_input, e2, Finset.sum_range_succ]

/-- A loop that leaves its accumulator alone returns the start value. -/
theorem foldl_range_const {α : Type} (n : Nat) (s : α) :
    (List.range n).foldl (fun acc _ => acc) s = s := by
  induction n with
  | zero => rfl
  | succ k ih =>
    rw [List.range_succ, List.foldl_append, ih]
    rfl

/-- The innermost float loop on a channel of zeros leaves `sum` as it is, when
zero times each weight it reads is zero and adding zero changes nothing. -/
theorem float_channel_zero_input [Zero F] [One F] [Add F] [Mul F] [Div F]
    (self : InnerProduct F σq σd) (bottom_blob : Mat F) (size channels p q : Nat)
    (wt : Nat → F)
    (hx : ∀ i, i < size → bottom_blob.floatAt (bottom_blob.cstep * q + i) = some 0)
    (hw : ∀ i, i < size →
      self.weight_data.floatAt (size * channels * p + size * q + i) = some (wt i))
    (hfinite : ∀ i, i < size → (0 : F) * wt i = 0)
    (hadd : ∀ s : F, s + 0 = s) (sum : F) :
    InnerProduct.float_channel self bottom_blob size channels p q sum = some sum := by
  unfold InnerProduct.float_channel
  rw [foldlM_range_eq_foldl _ (fun acc _ => acc) size ?_ sum, foldl_range_const]
  intro s i hi
  simp only [hx i hi, hw i hi, Option.some_bind, hfinite i hi, hadd]

/-- The body of the float loop on an input of zeros gives the bias (or zero),
when zero times each weight it reads is zero and adding zero changes
nothing. -/
theorem float_output_zero_input [Zero F] [One F] [Add F] [Mul F] [Div F]
    (self : InnerProduct F σq σd) (bottom_blob : Mat F) (size channels p : Nat)
    (wt b : Nat → F)
    (hx : ∀ q i, q < channels → i < size →
      bottom_blob.floatAt (bottom_blob.cstep * q + i) = some 0)
    (hw : ∀ q i, q < channels → i < size →
      self.weight_data.floatAt (size * channels * p + size * q + i)
        = some (wt (size * channels * p + size * q + i)))
    (hb : self.bias_term ≠ 0 → self.bias_data.floatAt p = some (b p))
    (hfinite : ∀ q i, q < channels → i < size →
      (0 : F) * wt (size * channels * p + size * q + i) = 0)
    (hadd : ∀ s : F, s + 0 = s) :
    InnerProduct.float_output self bottom_blob size channels p
      = some (if self.bias_term ≠ 0 then b p else 0) := by
  unfold InnerProduct.float_output
  have hstart : (if self.bias_term ≠ 0 then self.bias_data.floatAt p else some 0)
      = some (if self.bias_term ≠ 0 then b p else 0) := by
    by_cases hbt : self.bias_term ≠ 0
    · simp only [hbt, if_true, hb hbt, ne_eq, not_false_eq_true]
    · simp only [hbt, if_false]
  rw [hstart, Option.some_bind,
    foldlM_range_eq_foldl _ (fun acc _ => acc) channels ?_ _, foldl_range_const]
  intro s q hq
  exact float_channel_zero_input self bottom_blob size channels p q
    (fun i => wt (size * channels * p + size * q + i)) (hx q · hq) (hw q · hq)
    (hfinite q · hq) hadd s

/-- Adding zero leaves every `ExtFloat` value as it is. -/
theorem ExtFloat.add_zero_eq (s : ExtFloat) : s + 0 = s := by
  cases s with
  | fin x =>
    show ExtFloat.fin (x + 0) = ExtFloat.fin x
    rw [add_zero]
  | pinf => rfl
  | ninf => rfl
  | nan => rfl

/-- Zero times a finite `ExtFloat` value is zero. -/
theorem ExtFloat.zero_mul_fin (x : ℚ) : (0 : ExtFloat) * ExtFloat.fin x = 0 := by
  show ExtFloat.fin (0 * x) = ExtFloat.fin 0
  rw [zero_mul]

/-- C6 as stated fails on float values: on the zero input, with the bias term
set, bias `[5, 6, 7]` and a weight buffer whose first element is infinity,
`forward` returns 0 and output 0 is NaN (`5 + 0 * inf`), not the bias 5. -/
theorem C6_zero_input_infinite_weight :
    (InnerProduct.forward sample_omp sample_idle_sublayer sample_idle_sublayer
        (sample_ext_inner_product
          [ExtFloat.pinf, ExtFloat.fin 2, ExtFloat.fin 3, ExtFloat.fin 4, ExtFloat.fin 5,
            ExtFloat.fin 6]
          [ExtFloat.fin 5, ExtFloat.fin 6, ExtFloat.fin 7])
        sample_ext_zero_input Mat.nil (sample_option 1)).map
        (fun r => (r.code, r.top_blob.floatAt 0)) = some (0, some ExtFloat.nan) ∧
    (sample_ext_inner_product
        [ExtFloat.pinf, ExtFloat.fin 2, ExtFloat.fin 3, ExtFloat.fin 4, ExtFloat.fin 5,
          ExtFloat.fin 6]
        [ExtFloat.fin 5, ExtFloat.fin 6, ExtFloat.fin 7]).bias_data.floatAt 0
      = some (ExtFloat.fin 5) ∧
    sample_ext_zero_input.floatAt (sample_ext_zero_input.cstep * 0 + 0) = some 0 ∧
    sample_ext_zero_input.floatAt (sample_ext_zero_input.cstep * 1 + 0) = some 0 := by
  refine ⟨?_, ?_, ?_, ?_⟩
  · decide
  · rfl
  · rfl
  · rfl

/-- C6 (amended): on the float path, with a positive thread count, an input
whose elements are all zero, any bias, and weights that are finite, so that
zero times each weight is zero, in float arithmetic where adding zero changes
nothing: with the bias term the output is the bias vector, without it every
output element is zero. -/
theorem C6_forward_zero_input_finite_weights [Zero F] [One F] [Add F] [Mul F] [Div F]
    (omp : OmpRuntime) (vq : SubLayer F σq) (vd : SubLayer F σd)
    (self : InnerProduct F σq σd) (bottom_blob top_blob : Mat F) (opt : Option)
    (wt b : Nat → F)
    (hint8 : self.use_int8_inference = false)
    (halloc : (Mat.create self.num_output bottom_blob.elemsize (opt.blob_allocator 0) :
      Mat F).empty = false)
    (hthreads : 0 < opt.num_threads)
    (hx : ∀ q i, q < bottom_blob.c.toNat → i < (bottom_blob.w * bottom_blob.h).toNat →
      bottom_blob.floatAt (bottom_blob.cstep * q + i) = some 0)
    (hw : ∀ k, k < self.num_output.toNat * bottom_blob.c.toNat
        * (bottom_blob.w * bottom_blob.h).toNat →
      self.weight_data.floatAt k = some (wt k))
    (hb : self.bias_term ≠ 0 → ∀ p, p < self.num_output.toNat →
      self.bias_data.floatAt p = some (b p))
    (hfinite : ∀ k, k < self.num_output.toNat * bottom_blob.c.toNat
        * (bottom_blob.w * bottom_blob.h).toNat → (0 : F) * wt k = 0)
    (hadd : ∀ s : F, s + 0 = s) :
    ∃ r : ForwardResult F σq σd,
      InnerProduct.forward omp vq vd self bottom_blob top_blob opt = some r ∧
      r.code = 0 ∧
      (self.bias_term ≠ 0 →
        ∀ p, p < self.num_output.toNat → r.top_blob.floatAt p = self.bias_data.floatAt p) ∧
      (self.bias_term = 0 →
        ∀ p, p < self.num_output.toNat → r.top_blob.floatAt p = some 0) := by
  obtain ⟨r, h1, h2, _, _, h5⟩ :=
    forward_float_of_outputs omp vq vd self bottom_blob top_blob opt
      (fun p => if self.bias_term ≠ 0 then b p else 0) hint8 halloc hthreads
      (fun p hp => float_output_zero_input self bottom_blob _ _ p wt b hx
        (fun q i hq hi => hw _ (weight_offset_lt _ _ _ p q i hp hq hi))
        (fun hbt => hb hbt p hp)
        (fun q i hq hi => hfinite _ (weight_offset_lt _ _ _ p q i hp hq hi)) hadd)
  refine ⟨r, h1, h2, ?_, ?_⟩
  · intro hbt p hp
    rw [h5 p hp, hb hbt p hp]
    simp only [hbt, ne_eq, not_false_eq_true, if_true]
  · intro hbt p hp
    rw [h5 p hp]
    simp only [hbt, ne_eq, not_true_eq_false, if_false]

/-- Witness of the amended C6 on float values with infinities and NaN: the
layer with finite weights 1 to 6 and bias `[5, 6, 7]` on the zero input gives
`[5, 6, 7]`. -/
theorem C6_forward_zero_input_finite_weights_witness :
    ∃ r : ForwardResult ExtFloat Unit Unit,
      InnerProduct.forward sample_omp sample_idle_sublayer sample_idle_sublayer
        (sample_ext_inner_product
          [ExtFloat.fin 1, ExtFloat.fin 2, ExtFloat.fin 3, ExtFloat.fin 4, ExtFloat.fin 5,
            ExtFloat.fin 6]
          [ExtFloat.fin 5, ExtFloat.fin 6, ExtFloat.fin 7])
        sample_ext_zero_input Mat.nil (sample_option 2) = some r ∧
      r.code = 0 ∧
      r.top_blob.floatAt 0 = some (ExtFloat.fin 5) ∧
      r.top_blob.floatAt 1 = some (ExtFloat.fin 6) ∧
      r.top_blob.floatAt 2 = some (ExtFloat.fin 7) := by
  obtain ⟨r, h1, h2, h3, _⟩ :=
    C6_forward_zero_input_finite_weights sample_omp sample_idle_sublayer
      sample_idle_sublayer
      (sample_ext_inner_product
        [ExtFloat.fin 1, ExtFloat.fin 2, ExtFloat.fin 3, ExtFloat.fin 4, ExtFloat.fin 5,
          ExtFloat.fin 6]
        [ExtFloat.fin 5, ExtFloat.fin 6, ExtFloat.fin 7])
      sample_ext_zero_input Mat.nil (sample_option 2)
      (fun k => ExtFloat.fin ((k : ℚ) + 1))
      (fun p => ExtFloat.fin ((p : ℚ) + 5))
      rfl (by decide) (by decide)
      (by
        intro q i hq hi
        have hq2 : q < 2 := hq
        have hi2 : i < 1 := hi
        interval_cases q <;> interval_cases i <;> rfl)
      (by
        intro k hk
        have hk2 : k < 6 := hk
        interval_cases k <;>
          simp [sample_ext_inner_product, sample_ext_vec, Mat.floatAt, Mat.cell, Cell.asFloat] <;>
          norm_num)
      (by
        intro _ p hp
        have hp2 : p < 3 := hp
        interval_cases p <;>
          simp [sample_ext_inner_product, sample_ext_vec, Mat.floatAt, Mat.cell, Cell.asFloat] <;>
          norm_num)
      (fun k _ => ExtFloat.zero_mul_fin _)
      ExtFloat.add_zero_eq
  exact ⟨r, h1, h2, h3 (by decide) 0 (by decide), h3 (by decide) 1 (by decide),
    h3 (by decide) 2 (by decide)⟩

/-- C7 as stated fails twice. The float scenario returns 0 with one thread
and, on a runtime that does not return from a region entered with a negative
thread count, does not return with the option changed to -1 threads only. And
on the int8 path a layer state whose dequantize sub-unit stores the thread
count it is given returns different buffers for one and for four threads. -/
theorem C7_forward_depends_on_thread_count :
    (InnerProduct.forward sample_omp sample_quantize sample_dequantize sample_inner_product
        sample_input Mat.nil (sample_option 1)).map (fun r => r.code) = some 0 ∧
    InnerProduct.forward sample_omp sample_quantize sample_dequantize sample_inner_product
        sample_input Mat.nil { sample_option 1 with num_threads := -1 } = none ∧
    (InnerProduct.forward sample_omp sample_quantize sample_thread_dequantize
        sample_int8_inner_product sample_input Mat.nil (sample_option 1)).map
        (fun r => (r.code, r.top_blob.intAt 0)) = some (0, some 1) ∧
    (InnerProduct.forward sample_omp sample_quantize sample_thread_dequantize
        sample_int8_inner_product sample_input Mat.nil
        { sample_option 1 with num_threads := 4 }).map
        (fun r => (r.code, r.top_blob.intAt 0)) = some (0, some 4) := by
  refine ⟨?_, ?_, ?_, ?_⟩
  · rfl
  · rfl
  · rfl
  · rfl

/-- C7 (amended): `forward` does not depend on a positive thread count. For
two options that differ only in `num_threads`, both counts positive, the two
calls return the same code and the same output buffer, or fault alike: on the
float path always, and on the int8 path when the `forward` of the quantize
sub-unit and the `forward_inplace` of the dequantize sub-unit give the same
result under the two options. The float operations need no law, so the
summation order inside one output index is the same in both calls. -/
theorem C7_forward_positive_thread_count_independent
    [Zero F] [One F] [Add F] [Mul F] [Div F]
    (omp : OmpRuntime) (vq : SubLayer F σq) (vd : SubLayer F σd)
    (self : InnerProduct F σq σd) (bottom_blob top_blob : Mat F) (opt : Option) (n : Int)
    (hthreads : 0 < opt.num_threads) (hn : 0 < n)
    (hsub : self.use_int8_inference = true →
      (∀ s a b, vq.forward s a b { opt with num_threads := n } = vq.forward s a b opt) ∧
      (∀ s a,
        vd.forward_inplace s a { opt with num_threads := n } = vd.forward_inplace s a opt)) :
    (InnerProduct.forward omp vq vd self bottom_blob top_blob
        { opt with num_threads := n }).map ForwardResult.observed
      = (InnerProduct.forward omp vq vd self bottom_blob top_blob opt).map
          ForwardResult.observed := by
  have hpar : ∀ (compute : Nat → Fallible (Cell F)) (top : Mat F),
      omp_parallel_for omp n self.num_output.toNat compute top
        = omp_parallel_for omp opt.num_threads self.num_output.toNat compute top :=
    fun compute top => omp_parallel_for_threads omp n opt.num_threads _ hn hthreads compute top
  cases hint : self.use_int8_inference with
  | false =>
    unfold InnerProduct.forward
    simp only [hint, hpar, Bool.false_eq_true, if_false]
    split_ifs
    · rfl
    · generalize omp_parallel_for omp opt.num_threads self.num_output.toNat _
        (Mat.create self.num_output bottom_blob.elemsize (opt.blob_allocator 0)) = res
      cases res <;> rfl
  | true =>
    obtain ⟨hq, hd⟩ := hsub hint
    unfold InnerProduct.forward
    simp only [hint, hq, hd, hpar, if_true]
    split_ifs
    · rfl
    · rfl
    · cases self.quantize with
      | none => rfl
      | some q =>
        simp only []
        generalize omp_parallel_for omp opt.num_threads self.num_output.toNat _
          (Mat.create self.num_output bottom_blob.elemsize (opt.blob_allocator 0)) = res
        cases res with
        | none => rfl
        | some t => cases self.dequantize <;> rfl

/-- Witness of the amended C7 on the int8 path: the scenario layer set up for
int8 inference, whose sample sub-units ignore the thread count, gives the same
observation with four threads (iterations in reverse order) as with one. -/
theorem C7_forward_positive_thread_count_independent_witness :
    (InnerProduct.forward sample_omp sample_quantize sample_dequantize
        sample_int8_inner_product sample_input Mat.nil
        { sample_option 1 with num_threads := 4 }).map ForwardResult.observed
      = (InnerProduct.forward sample_omp sample_quantize sample_dequantize
          sample_int8_inner_product sample_input Mat.nil (sample_option 1)).map
            ForwardResult.observed :=
  C7_forward_positive_thread_count_independent sample_omp sample_quantize sample_dequantize
    sample_int8_inner_product sample_input Mat.nil (sample_option 1) 4
    (by decide) (by decide) (fun _ => ⟨fun _ _ _ => rfl, fun _ _ => rfl⟩)

/-- The two reads that `load_model` does check: an empty weight buffer, and an
empty bias buffer when `bias_term` is set, make it return -100 right after
that read. -/
theorem load_model_checked_reads (vq : SubLayer F σq)
    (new_quantize : Fallible σq) (new_dequantize : Fallible σd) (default_opt : Option)
    (self : InnerProduct F σq σd) (mb : ModelBin F) :
    ((mb.load [] self.weight_data_size 0).empty = true →
      ∃ r : LoadResult F σq σd,
        InnerProduct.load_model vq new_quantize new_dequantize default_opt self mb = some r ∧
        r.code = -100 ∧ r.log = [Event.mb_load self.weight_data_size 0]) ∧
    ((mb.load [] self.weight_data_size 0).empty = false → self.bias_term ≠ 0 →
      (mb.load [(self.weight_data_size, 0)] self.num_output 1).empty = true →
      ∃ r : LoadResult F σq σd,
        InnerProduct.load_model vq new_quantize new_dequantize default_opt self mb = some r ∧
        r.code = -100 ∧
        r.log = [Event.mb_load self.weight_data_size 0, Event.mb_load self.num_output 1]) := by
  constructor
  · intro h
    unfold InnerProduct.load_model
    simp only [h, if_true]
    exact ⟨_, rfl, rfl, rfl⟩
  · intro h1 h2 h3
    unfold InnerProduct.load_model
    simp only [h1, h2, h3, Bool.false_eq_true, if_false, if_true, ne_eq, not_false_eq_true]
    exact ⟨_, rfl, rfl, rfl⟩

/-- C8 fails on the code: with `int8_scale_term` set and a reader that returns
the weights and then an empty buffer for the first scale read, `load_model`
reads element 0 of that empty buffer. The call faults; it does not return
-100. -/
theorem C8_load_model_empty_scale_read_faults :
    sample_int8_inner_product.int8_scale_term ≠ 0 ∧
    (sample_reader_weights_only.load [] sample_int8_inner_product.weight_data_size 0).empty
      = false ∧
    (sample_reader_weights_only.load [(sample_int8_inner_product.weight_data_size, 0)] 1 1).empty
      = true ∧
    InnerProduct.load_model sample_quantize (some ()) (some 1) (sample_option 1)
      sample_int8_inner_product sample_reader_weights_only = none := by
  refine ⟨by decide, by decide, by decide, rfl⟩

/-- C9: when the weight read and the bias read are not empty, the two scale
reads return buffers that hold a float, the loaded weights have element size 1
and `use_int8_inference` is false, `load_model` returns -1, which is neither
-100 nor 0, after having only read from the reader: it has created no
sub-unit and called none. -/
theorem C9_load_model_int8_weights_rejected (vq : SubLayer F σq)
    (new_quantize : Fallible σq) (new_dequantize : Fallible σd) (default_opt : Option)
    (self : InnerProduct F σq σd) (mb : ModelBin F)
    (huse : self.use_int8_inference = false)
    (hweight : (mb.load [] self.weight_data_size 0).empty = false)
    (helem : (mb.load [] self.weight_data_size 0).elemsize = 1)
    (hbias : self.bias_term ≠ 0 →
      (mb.load [(self.weight_data_size, 0)] self.num_output 1).empty = false)
    (hscale : self.int8_scale_term ≠ 0 →
      ∃ s1 s2,
        (mb.load self.reads_before_scales 1 1).floatAt 0 = some s1 ∧
        (mb.load (self.reads_before_scales ++ [(1, 1)]) 1 1).floatAt 0 = some s2) :
    ∃ r : LoadResult F σq σd,
      InnerProduct.load_model vq new_quantize new_dequantize default_opt self mb = some r ∧
      r.code = -1 ∧ r.code ≠ -100 ∧ r.code ≠ 0 ∧
      (∀ e ∈ r.log, ∃ w type, e = Event.mb_load w type) ∧
      r.layer.quantize = self.quantize ∧
      r.layer.dequantize = self.dequantize := by
  have hq : ∀ (s : InnerProduct F σq σd) (log : List Event),
      s.use_int8_inference = false → s.weight_data.elemsize = 1 →
      InnerProduct.load_model_quantize vq new_quantize new_dequantize default_opt s mb log
        = some { code := -1, layer := s, log := log } := by
    intro s log h1 h2
    simp [InnerProduct.load_model_quantize, h1, h2]
  have hs : ∀ (s : InnerProduct F σq σd) (earlier : List (Int × Int)) (log : List Event),
      s.use_int8_inference = false → s.weight_data.elemsize = 1 →
      s.int8_scale_term = self.int8_scale_term →
      s.quantize = self.quantize → s.dequantize = self.dequantize →
      earlier = self.reads_before_scales →
      (∀ e ∈ log, ∃ w type, e = Event.mb_load w type) →
      ∃ r : LoadResult F σq σd,
        InnerProduct.load_model_scales vq new_quantize new_dequantize default_opt s mb
          earlier log = some r ∧
        r.code = -1 ∧ r.code ≠ -100 ∧ r.code ≠ 0 ∧
        (∀ e ∈ r.log, ∃ w type, e = Event.mb_load w type) ∧
        r.layer.quantize = self.quantize ∧
        r.layer.dequantize = self.dequantize := by
    intro s earlier log h1 h2 h3 h4 h5 hearlier hlog
    unfold InnerProduct.load_model_scales
    by_cases hterm : s.int8_scale_term ≠ 0
    · obtain ⟨s1, s2, hs1, hs2⟩ := hscale (h3 ▸ hterm)
      rw [← hearlier] at hs1 hs2
      simp only [hterm, if_true, hs1, hs2, ne_eq, not_false_eq_true]
      have hstep := hq { s with weight_data_int8_scale := s1, bottom_blob_int8_scale := s2 }
        (log ++ [Event.mb_load 1 1, Event.mb_load 1 1]) h1 h2
      rw [hstep]
      refine ⟨_, rfl, rfl, ?_, ?_, ?_, h4, h5⟩
      · show (-1 : Int) ≠ -100
        decide
      · show (-1 : Int) ≠ 0
        decide
      · intro e he
        simp only [List.mem_append, List.mem_cons, List.mem_singleton] at he
        rcases he with he | he | he | he
        · exact hlog e he
        · exact ⟨1, 1, he⟩
        · exact ⟨1, 1, he⟩
        · simp at he
    · simp only [hterm, if_false]
      rw [hq s log h1 h2]
      refine ⟨_, rfl, rfl, ?_, ?_, hlog, h4, h5⟩
      · show (-1 : Int) ≠ -100
        decide
      · show (-1 : Int) ≠ 0
        decide
  unfold InnerProduct.load_model
  simp only [hweight, Bool.false_eq_true, if_false]
  by_cases hbt : self.bias_term ≠ 0
  · simp only [hbt, if_true, hbias hbt, Bool.false_eq_true, if_false, ne_eq, not_false_eq_true]
    refine hs { self with
        weight_data := mb.load [] self.weight_data_size 0,
        bias_data := mb.load [(self.weight_data_size, 0)] self.num_output 1 }
      _ _ huse helem rfl rfl rfl ?_ ?_
    · simp [InnerProduct.reads_before_scales, hbt]
    · intro e he
      simp only [List.mem_append, List.mem_singleton, List.mem_cons, List.not_mem_nil,
        or_false] at he
      rcases he with he | he
      · exact ⟨_, _, he⟩
      · exact ⟨_, _, he⟩
  · simp only [hbt, if_false]
    refine hs { self with weight_data := mb.load [] self.weight_data_size 0 }
      _ _ huse helem rfl rfl rfl ?_ ?_
    · simp [InnerProduct.reads_before_scales, hbt]
    · intro e he
      simp only [List.mem_singleton] at he
      exact ⟨_, _, he⟩

/-- Witness of C9: the float scenario layer with `int8_scale_term` set, on a
reader that returns int8 weights, a bias and two scales, gets -1 back after
four reads. -/
theorem C9_load_model_int8_weights_rejected_witness :
    ∃ r : LoadResult ℚ Unit ℚ,
      InnerProduct.load_model sample_quantize (some ()) (some 1) (sample_option 1)
        { sample_inner_product with int8_scale_term := 1 } sample_reader_int8 = some r ∧
      r.code = -1 ∧ r.code ≠ -100 ∧ r.code ≠ 0 ∧
      (∀ e ∈ r.log, ∃ w type, e = Event.mb_load w type) ∧
      r.layer.quantize = none ∧
      r.layer.dequantize = none :=
  C9_load_model_int8_weights_rejected sample_quantize (some ()) (some 1) (sample_option 1)
    { sample_inner_product with int8_scale_term := 1 } sample_reader_int8
    rfl (by decide) rfl (fun _ => by decide) (fun _ => ⟨2, 2, rfl, rfl⟩)

/-- C10: when the created output buffer is empty, and on the int8 path when
the created workspace buffer is empty, `forward` returns -100 and has run no
quantize, dot-product or dequantize step. -/
theorem C10_forward_allocation_failure [Zero F] [One F] [Add F] [Mul F] [Div F]
    (omp : OmpRuntime) (vq : SubLayer F σq) (vd : SubLayer F σd)
    (self : InnerProduct F σq σd) (bottom_blob top_blob : Mat F) (opt : Option) :
    ((Mat.create self.num_output bottom_blob.elemsize (opt.blob_allocator 0) :
        Mat F).empty = true →
      ∃ r : ForwardResult F σq σd,
        InnerProduct.forward omp vq vd self bottom_blob top_blob opt = some r ∧
        r.code = -100 ∧ r.log = [] ∧
        r.quantize = self.quantize ∧ r.dequantize = self.dequantize) ∧
    ((Mat.create self.num_output bottom_blob.elemsize (opt.blob_allocator 0) :
        Mat F).empty = false →
      self.use_int8_inference = true →
      (Mat.create3 bottom_blob.w bottom_blob.h bottom_blob.c 1 (opt.workspace_allocator 0) :
        Mat F).empty = true →
      ∃ r : ForwardResult F σq σd,
        InnerProduct.forward omp vq vd self bottom_blob top_blob opt = some r ∧
        r.code = -100 ∧ r.log = [] ∧
        r.quantize = self.quantize ∧ r.dequantize = self.dequantize) := by
  constructor
  · intro h
    unfold InnerProduct.forward
    simp only [h, if_true]
    exact ⟨_, rfl, rfl, rfl, rfl, rfl⟩
  · intro h1 h2 h3
    unfold InnerProduct.forward
    simp only [h1, h2, h3, Bool.false_eq_true, if_false, if_true]
    exact ⟨_, rfl, rfl, rfl, rfl, rfl⟩

/-- Witness of C10: the float scenario layer with a blob allocator that
refuses, and the int8 scenario layer with a workspace allocator that refuses,
both return -100 with an empty log. -/
theorem C10_forward_allocation_failure_witness :
    (∃ r : ForwardResult ℚ Unit ℚ,
      InnerProduct.forward sample_omp sample_quantize sample_dequantize sample_inner_product
        sample_input Mat.nil (sample_option_alloc 2 false true) = some r ∧
      r.code = -100 ∧ r.log = [] ∧
      r.quantize = sample_inner_product.quantize ∧
      r.dequantize = sample_inner_product.dequantize) ∧
    (∃ r : ForwardResult ℚ Unit ℚ,
      InnerProduct.forward sample_omp sample_quantize sample_dequantize
        sample_int8_inner_product sample_input Mat.nil (sample_option_alloc 2 true false)
        = some r ∧
      r.code = -100 ∧ r.log = [] ∧
      r.quantize = sample_int8_inner_product.quantize ∧
      r.dequantize = sample_int8_inner_product.dequantize) :=
  ⟨(C10_forward_allocation_failure sample_omp sample_quantize sample_dequantize
      sample_inner_product sample_input Mat.nil (sample_option_alloc 2 false true)).1
      (by decide),
   (C10_forward_allocation_failure sample_omp sample_quantize sample_dequantize
      sample_int8_inner_product sample_input Mat.nil (sample_option_alloc 2 true false)).2
      (by decide) rfl (by decide)⟩

/-- C12 fails on the code. A dequantize sub-unit whose `forward_inplace`
returns -100 on every call does not keep `InnerProduct::forward` from
returning 0; and when `create_layer` returns null for both sub-units while the
weights are already int8, `load_model` returns 0 with both sub-unit pointers
null. -/
theorem C12_sub_unit_errors_swallowed :
    (∀ s m o, (sample_failing_dequantize.forward_inplace s m o).1 = -100) ∧
    (InnerProduct.forward sample_omp sample_quantize sample_failing_dequantize
        sample_int8_inner_product sample_input Mat.nil (sample_option 1)).map
        (fun r => r.code) = some 0 ∧
    (InnerProduct.load_model sample_quantize none none (sample_option 1)
        sample_int8_inner_product sample_reader_int8).map
        (fun r => (r.code, r.layer.quantize, r.layer.dequantize)) = some (0, none, none) := by
  refine ⟨fun _ _ _ => rfl, ?_, ?_⟩
  · rfl
  · rfl

/-- The innermost int8 loop is exact when the running sum has room for `size`
more products of two `signed char` values. -/
theorem int8_channel_exact [Zero F] [One F] [Add F] [Mul F] [Div F]
    (self : InnerProduct F σq σd) (bottom_blob_int8 : Mat F) (size channels p q : Nat)
    (x wt : Nat → Int)
    (hx : ∀ i, i < size →
      bottom_blob_int8.int8At (bottom_blob_int8.cstep * q + i) = some (x i))
    (hw : ∀ i, i < size →
      self.weight_data.int8At (size * channels * p + size * q + i) = some (wt i))
    (sum : Int) (hroom : |sum| + (size : Int) * 16384 ≤ 2147483647) :
    InnerProduct.int8_channel self bottom_blob_int8 size channels p q sum
      = some (sum + ∑ i in Finset.range size, x i * wt i) := by
  have hg : ∀ i, i < size → |x i * wt i| ≤ 16384 := by
    intro i hi
    obtain ⟨a1, a2⟩ := Mat.int8At_range _ _ _ (hx i hi)
    obtain ⟨b1, b2⟩ := Mat.int8At_range _ _ _ (hw i hi)
    rw [abs_le]
    constructor <;> nlinarith
  unfold InnerProduct.int8_channel
  apply foldlM_range_exact _ (fun i => x i * wt i) 16384 2147483647 size sum _ hg hroom
  intro s i hi hs
  have hb := abs_add s (x i * wt i)
  have hgi := hg i hi
  have hle := abs_le.mp (le_trans hb (by linarith : |s| + |x i * wt i| ≤ 2147483647))
  simp only [hx i hi, hw i hi, Option.some_bind]
  rw [wrap_int32_of_range _ (by linarith [hle.1]) (by linarith [hle.2])]

/-- The body of the int8 loop is exact when `channels * size` products of two
`signed char` values fit the `int` range. -/
theorem int8_output_exact [Zero F] [One F] [Add F] [Mul F] [Div F]
    (self : InnerProduct F σq σd) (bottom_blob_int8 : Mat F) (size channels p : Nat)
    (x : Nat → Nat → Int) (wt : Nat → Int)
    (hx : ∀ q i, q < channels → i < size →
      bottom_blob_int8.int8At (bottom_blob_int8.cstep * q + i) = some (x q i))
    (hw : ∀ q i, q < channels → i < size →
      self.weight_data.int8At (size * channels * p + size * q + i)
        = some (wt (size * channels * p + size * q + i)))
    (hsmall : channels * size * 16384 < 2147483648) :
    InnerProduct.int8_output self bottom_blob_int8 size channels p
      = some (∑ q in Finset.range channels, ∑ i in Finset.range size,
          x q i * wt (size * channels * p + size * q + i)) := by
  have hterm : ∀ q i, q < channels → i < size →
      |x q i * wt (size * channels * p + size * q + i)| ≤ 16384 := by
    intro q i hq hi
    obtain ⟨a1, a2⟩ := Mat.int8At_range _ _ _ (hx q i hq hi)
    obtain ⟨b1, b2⟩ := Mat.int8At_range _ _ _ (hw q i hq hi)
    rw [abs_le]
    constructor <;> nlinarith
  have hsmall2 : (channels : Int) * ((size : Int) * 16384) ≤ 2147483647 := by
    have : ((channels * size * 16384 : Nat) : Int) < 2147483648 := by exact_mod_cast hsmall
    push_cast at this
    linarith
  unfold InnerProduct.int8_output
  have h := foldlM_range_exact
    (fun sum q => InnerProduct.int8_channel self bottom_blob_int8 size channels p q sum)
    (fun q => ∑ i in Finset.range size, x q i * wt (size * channels * p + size * q + i))
    ((size : Int) * 16384) 2147483647 channels 0
    (fun s q hq hs => int8_channel_exact self bottom_blob_int8 size channels p q (x q)
      (fun i => wt (size * channels * p + size * q + i)) (hx q · hq) (hw q · hq) s hs)
    (fun q hq => by
      have := abs_sum_range_le
        (fun i => x q i * wt (size * channels * p + size * q + i)) 16384 size
        (fun i hi => hterm q i hq hi)
      simpa using this)
    (by simpa using hsmall2)
  rw [h]
  simp

/-- C13 as stated fails: with one channel of 131072 elements, every input and
every weight equal to -128, the exact sum of the products is 2147483648 and the
32-bit accumulator stored for output 0 is -2147483648. -/
theorem C13_int8_accumulator_wraps :
    InnerProduct.int8_output sample_overflow_layer sample_overflow_input 131072 1 0
      = some (-2147483648) ∧
    (∑ _q in Finset.range 1, ∑ _i in Finset.range 131072, (-128 : Int) * (-128))
      = 2147483648 := by
  constructor
  · have hx : ∀ i, i < 131072 →
        sample_overflow_input.int8At (sample_overflow_input.cstep * 0 + i)
          = some (wrap_int8 (-128)) := by
      intro i hi
      exact Mat.int8At_replicate sample_overflow_input 131072 (-128) rfl _
        (by
          show 131072 * 0 + i < 131072
          omega)
    have hw : ∀ i, i < 131072 →
        sample_overflow_layer.weight_data.int8At (131072 * 1 * 0 + 131072 * 0 + i)
          = some (wrap_int8 (-128)) := by
      intro i hi
      exact Mat.int8At_replicate sample_overflow_layer.weight_data 131072 (-128) rfl _
        (by omega)
    have hchan : InnerProduct.int8_channel sample_overflow_layer sample_overflow_input
        131072 1 0 0 0 = some (-2147483648) := by
      unfold InnerProduct.int8_channel
      rw [foldlM_range_eq_foldl _
        (fun s _ => wrap_int32 (s + wrap_int8 (-128) * wrap_int8 (-128))) 131072
        (fun s i hi => by simp only [hx i hi, hw i hi, Option.some_bind]) 0,
        foldl_range_wrap_const _ _ _ (by decide)]
      decide
    unfold InnerProduct.int8_output
    rw [show List.range 1 = [0] from rfl]
    simp only [List.foldlM_cons, List.foldlM_nil]
    rw [hchan]
    rfl
  · simp

/-- C13 (amended): when `channels * size * 16384 < 2^31`, that is for at most
131071 products, the 32-bit accumulators that the int8 loop, run with a
positive thread count, stores are the exact integer sums over `q < channels`,
`i < size` of `input[q][i] * weight[size*channels*p + size*q + i]`. -/
theorem C13_int8_accumulator_exact_when_small [Zero F] [One F] [Add F] [Mul F] [Div F]
    (omp : OmpRuntime) (self : InnerProduct F σq σd) (bottom_blob_int8 top_blob : Mat F)
    (num_threads : Int) (cells : List (Cell F)) (n size channels : Nat)
    (x : Nat → Nat → Int) (wt : Nat → Int)
    (hthreads : 0 < num_threads)
    (hdata : top_blob.data = some cells) (hlen : cells.length = n)
    (hx : ∀ q i, q < channels → i < size →
      bottom_blob_int8.int8At (bottom_blob_int8.cstep * q + i) = some (x q i))
    (hw : ∀ k, k < n * channels * size → self.weight_data.int8At k = some (wt k))
    (hsmall : channels * size * 16384 < 2147483648) :
    ∃ cells2 : List (Cell F),
      omp_parallel_for omp num_threads n
          (fun p => (InnerProduct.int8_output self bottom_blob_int8 size channels p).map
            Cell.int) top_blob
        = some { top_blob with data := some cells2 } ∧
      ∀ p, p < n →
        cells2.get? p
          = some (Cell.int (∑ q in Finset.range channels, ∑ i in Finset.range size,
              x q i * wt (size * channels * p + size * q + i))) := by
  obtain ⟨cells2, h1, _, h3⟩ :=
    omp_parallel_for_fills omp num_threads n
      (fun p => (InnerProduct.int8_output self bottom_blob_int8 size channels p).map Cell.int)
      (fun p => Cell.int (∑ q in Finset.range channels, ∑ i in Finset.range size,
          x q i * wt (size * channels * p + size * q + i)))
      top_blob cells hthreads hdata hlen
      (fun p hp => by
        beta_reduce
        rw [int8_output_exact self bottom_blob_int8 size channels p x wt hx
          (fun q i hq hi => hw _ (weight_offset_lt _ _ _ p q i hp hq hi)) hsmall]
        rfl)
  exact ⟨cells2, h1, h3⟩

/-- Witness of the amended C13: the int8 scenario (inputs 10 and 10, weights 1
to 6) with four threads stores the exact sums 30, 70, 110. -/
theorem C13_int8_accumulator_exact_when_small_witness :
    ∃ cells2 : List (Cell ℚ),
      omp_parallel_for sample_omp 4 3
          (fun p => (InnerProduct.int8_output sample_int8_inner_product sample_int8_input
            1 2 p).map Cell.int) (Mat.create 3 4 true)
        = some { (Mat.create 3 4 true : Mat ℚ) with data := some cells2 } ∧
      cells2.get? 0 = some (Cell.int 30) ∧
      cells2.get? 1 = some (Cell.int 70) ∧
      cells2.get? 2 = some (Cell.int 110) := by
  obtain ⟨cells2, h1, h2⟩ :=
    C13_int8_accumulator_exact_when_small sample_omp sample_int8_inner_product
      sample_int8_input (Mat.create 3 4 true) 4 (List.replicate 3 Cell.uninit) 3 1 2
      (fun _ _ => 10) (fun k => [1, 2, 3, 4, 5, 6].getD k 0) (by decide) rfl rfl
      (by
        intro q i hq hi
        interval_cases q <;> interval_cases i <;> rfl)
      (by
        intro k hk
        have hk2 : k < 6 := hk
        interval_cases k <;> rfl)
      (by decide)
  refine ⟨cells2, h1, ?_, ?_, ?_⟩
  · rw [h2 0 (by decide)]
    norm_num [Finset.sum_range_succ]
  · rw [h2 1 (by decide)]
    norm_num [Finset.sum_range_succ]
  · rw [h2 2 (by decide)]
    norm_num [Finset.sum_range_succ]

/-- The code and the stored bias of the last stages of `load_model` do not
depend on the bias buffer or on what the reader would answer. -/
theorem load_model_quantize_bias (vq : SubLayer F σq)
    (new_quantize : Fallible σq) (new_dequantize : Fallible σd) (default_opt : Option)
    (s : InnerProduct F σq σd) (bias : Mat F) (mb1 mb2 : ModelBin F) (log : List Event)
    (hvk : mb1.vk_model_loader = mb2.vk_model_loader) :
    (InnerProduct.load_model_quantize vq new_quantize new_dequantize default_opt
        { s with bias_data := bias } mb2 log).map (fun r => r.code)
      = (InnerProduct.load_model_quantize vq new_quantize new_dequantize default_opt
          s mb1 log).map (fun r => r.code) ∧
    (∀ r, InnerProduct.load_model_quantize vq new_quantize new_dequantize default_opt
        s mb1 log = some r → r.layer.bias_data = s.bias_data) := by
  cases hu : s.use_int8_inference <;> cases h1 : (s.weight_data.elemsize == 1) <;>
    cases h4 : (s.weight_data.elemsize == 4) <;> cases hvk2 : mb2.vk_model_loader <;>
    cases hq : new_quantize <;>
    simp only [InnerProduct.load_model_quantize, InnerProduct.load_model_upload, hu, h1, h4,
      hvk, hvk2, hq, Bool.false_eq_true, Bool.and_false, Bool.and_true, Bool.false_and,
      Bool.true_and, Bool.not_false, Bool.not_true, if_false, if_true, Option.map_some',
      Option.map_none', Option.some.injEq, true_and, and_true] <;>
    (try split_ifs) <;>
    (try simp only [Option.map_some', Option.map_none', Option.some.injEq, true_and]) <;>
    (try (intro r hr; subst hr; rfl)) <;>
    (intro r hr; simp at hr)

/-- The code and the stored bias of `load_model` from the scale reads on do
not depend on the bias buffer, for two readers that agree on the scale reads
and on the upload hook. -/
theorem load_model_scales_bias (vq : SubLayer F σq)
    (new_quantize : Fallible σq) (new_dequantize : Fallible σd) (default_opt : Option)
    (s : InnerProduct F σq σd) (bias : Mat F) (mb1 mb2 : ModelBin F)
    (earlier : List (Int × Int)) (log : List Event)
    (hvk : mb1.vk_model_loader = mb2.vk_model_loader)
    (h1 : mb2.load earlier 1 1 = mb1.load earlier 1 1)
    (h2 : mb2.load (earlier ++ [(1, 1)]) 1 1 = mb1.load (earlier ++ [(1, 1)]) 1 1) :
    (InnerProduct.load_model_scales vq new_quantize new_dequantize default_opt
        { s with bias_data := bias } mb2 earlier log).map (fun r => r.code)
      = (InnerProduct.load_model_scales vq new_quantize new_dequantize default_opt
          s mb1 earlier log).map (fun r => r.code) ∧
    (∀ r, InnerProduct.load_model_scales vq new_quantize new_dequantize default_opt
        s mb1 earlier log = some r → r.layer.bias_data = s.bias_data) := by
  unfold InnerProduct.load_model_scales
  simp only [h1, h2]
  by_cases hterm : s.int8_scale_term ≠ 0
  · simp only [hterm, if_true, ne_eq, not_false_eq_true]
    cases (mb1.load earlier 1 1).floatAt 0 with
    | none => exact ⟨rfl, fun r hr => by simp at hr⟩
    | some a =>
      cases (mb1.load (earlier ++ [(1, 1)]) 1 1).floatAt 0 with
      | none => exact ⟨rfl, fun r hr => by simp at hr⟩
      | some b =>
        exact load_model_quantize_bias vq new_quantize new_dequantize default_opt
          { s with weight_data_int8_scale := a, bottom_blob_int8_scale := b } bias mb1 mb2
          _ hvk
  · simp only [hterm, if_false]
    exact load_model_quantize_bias vq new_quantize new_dequantize default_opt s bias mb1 mb2
      _ hvk

/-- `load_param` is its loop followed by the assignments and `return 0`. -/
theorem load_param_eq_map (fuel : Nat) (self : InnerProduct F σq σd) (pd : ParamDict F) :
    InnerProduct.load_param fuel self pd
      = (InnerProduct.local_size_loop (pd.get 0 0) fuel pd.max_workgroup_size).map
          (fun local_size_x =>
            ((0 : Int), { self with
              num_output := pd.get 0 0, bias_term := pd.get 1 0,
              weight_data_size := pd.get 2 0, int8_scale_term := pd.get 8 0,
              use_int8_inference := if pd.get 8 0 = 0 then false else pd.use_int8_inference,
              local_size_x := local_size_x, local_size_y := 1, local_size_z := 1,
              specializations := [pd.get 1 0], binding_count := 4 })) := by
  unfold InnerProduct.load_param
  dsimp only
  cases InnerProduct.local_size_loop (pd.get 0 0) fuel pd.max_workgroup_size <;> rfl

/-- C14 as stated fails: `load_param` returns 0 for `num_output` 3 with the
bias term, and `load_model` then returns 0 on a reader whose bias read gives
a buffer of two elements; the layer keeps `num_output` 3 and a bias of
width 2. -/
theorem C14_bias_length_mismatch_accepted :
    (InnerProduct.load_param 10 sample_inner_product sample_param_dict).map
        (fun c => (c.1, c.2.num_output, c.2.bias_term)) = some (0, 3, 1) ∧
    ((InnerProduct.load_param 10 sample_inner_product sample_param_dict).bind
        (fun c => InnerProduct.load_model sample_quantize (some ()) (some 1) (sample_option 1)
          c.2 sample_reader_short_bias)).map
        (fun r => (r.code, r.layer.num_output, r.layer.bias_data.w)) = some (0, 3, 2) := by
  constructor
  · rfl
  · rfl

/-- C14 (amended): the bias length is not checked. `load_param` returns 0
whenever it returns. With the bias term set and a weight read that is not
empty, `load_model` returns -100 after the bias request for `num_output`
elements when the bias read is empty; when it is not empty, the returned
buffer is stored as the bias whatever its length, and replacing it by any
other buffer that is not empty leaves the return code as it is. -/
theorem C14_bias_length_not_checked (vq : SubLayer F σq)
    (new_quantize : Fallible σq) (new_dequantize : Fallible σd) (default_opt : Option)
    (self : InnerProduct F σq σd) (mb : ModelBin F) (bias : Mat F) (fuel : Nat)
    (pd : ParamDict F)
    (hbt : self.bias_term ≠ 0)
    (hweight : (mb.load [] self.weight_data_size 0).empty = false) :
    (∀ c, InnerProduct.load_param fuel self pd = some c → c.1 = 0) ∧
    ((mb.load [(self.weight_data_size, 0)] self.num_output 1).empty = true →
      ∃ r : LoadResult F σq σd,
        InnerProduct.load_model vq new_quantize new_dequantize default_opt self mb = some r ∧
        r.code = -100 ∧
        r.log = [Event.mb_load self.weight_data_size 0, Event.mb_load self.num_output 1]) ∧
    ((mb.load [(self.weight_data_size, 0)] self.num_output 1).empty = false →
      (∀ r, InnerProduct.load_model vq new_quantize new_dequantize default_opt self mb
          = some r →
        r.layer.bias_data = mb.load [(self.weight_data_size, 0)] self.num_output 1) ∧
      (bias.empty = false →
        (InnerProduct.load_model vq new_quantize new_dequantize default_opt self
            (mb.with_second_read self.weight_data_size bias)).map (fun r => r.code)
          = (InnerProduct.load_model vq new_quantize new_dequantize default_opt self mb).map
              (fun r => r.code))) := by
  refine ⟨?_, ?_, ?_⟩
  · intro c hc
    rw [load_param_eq_map] at hc
    cases hloop : InnerProduct.local_size_loop (pd.get 0 0) fuel pd.max_workgroup_size with
    | none => simp [hloop] at hc
    | some x =>
      simp only [hloop, Option.map_some', Option.some.injEq] at hc
      subst hc
      rfl
  · intro hb
    unfold InnerProduct.load_model
    simp only [hweight, hbt, hb, Bool.false_eq_true, if_false, if_true, ne_eq,
      not_false_eq_true]
    exact ⟨_, rfl, rfl, rfl⟩
  · intro hb
    constructor
    · intro r hr
      unfold InnerProduct.load_model at hr
      simp only [hweight, hbt, hb, Bool.false_eq_true, if_false, if_true, ne_eq,
        not_false_eq_true] at hr
      exact (load_model_scales_bias vq new_quantize new_dequantize default_opt _
        bias mb mb _ _ rfl rfl rfl).2 r hr
    · intro hbias
      have hw2 : (mb.with_second_read self.weight_data_size bias).load []
          self.weight_data_size 0 = mb.load [] self.weight_data_size 0 := by
        simp [ModelBin.with_second_read]
      have hb2 : (mb.with_second_read self.weight_data_size bias).load
          [(self.weight_data_size, 0)] self.num_output 1 = bias := by
        simp [ModelBin.with_second_read]
      unfold InnerProduct.load_model
      simp only [hw2, hb2, hweight, hbt, hb, hbias, Bool.false_eq_true, if_false, if_true,
        ne_eq, not_false_eq_true]
      exact (load_model_scales_bias vq new_quantize new_dequantize default_opt
        { self with
          weight_data := mb.load [] self.weight_data_size 0,
          bias_data := mb.load [(self.weight_data_size, 0)] self.num_output 1 }
        bias mb (mb.with_second_read self.weight_data_size bias) _ _ rfl
        (by simp [ModelBin.with_second_read])
        (by simp [ModelBin.with_second_read])).1

/-- Witness of the amended C14 on the scenario layer: `load_param` returns 0,
and `load_model` returns the same code on a reader whose bias has two elements
as on one whose bias has three. -/
theorem C14_bias_length_not_checked_witness :
    (∃ c, InnerProduct.load_param 10 sample_inner_product sample_param_dict = some c ∧
      c.1 = 0) ∧
    (InnerProduct.load_model sample_quantize (some ()) (some 1) (sample_option 1)
        sample_inner_product
        (sample_reader_short_bias.with_second_read 6 (sample_vec [0, 0, 0]))).map
        (fun r => r.code)
      = (InnerProduct.load_model sample_quantize (some ()) (some 1) (sample_option 1)
          sample_inner_product sample_reader_short_bias).map (fun r => r.code) := by
  have hc : InnerProduct.load_param 10 sample_inner_product sample_param_dict
      = some (0, { sample_inner_product with
          num_output := 3, bias_term := 1, weight_data_size := 6, int8_scale_term := 0,
          use_int8_inference := false, local_size_x := 2, local_size_y := 1,
          local_size_z := 1, specializations := [1], binding_count := 4 }) := rfl
  exact ⟨⟨_, hc, (C14_bias_length_not_checked sample_quantize (some ()) (some 1)
      (sample_option 1) sample_inner_product sample_reader_short_bias (sample_vec [0, 0, 0])
      10 sample_param_dict (by decide) (by decide)).1 _ hc⟩,
    ((C14_bias_length_not_checked sample_quantize (some ()) (some 1) (sample_option 1)
      sample_inner_product sample_reader_short_bias (sample_vec [0, 0, 0]) 10
      sample_param_dict (by decide) (by decide)).2.2 (by decide)).2 (by decide)⟩

/-- Two weight offsets with in-range channel and element indices are equal
only for equal index triples. -/
theorem weight_offset_injective (channels size p q i p2 q2 i2 : Nat)
    (hq : q < channels) (hi : i < size) (hq2 : q2 < channels) (hi2 : i2 < size)
    (h : InnerProduct.weight_offset size channels p q i
      = InnerProduct.weight_offset size channels p2 q2 i2) :
    p = p2 ∧ q = q2 ∧ i = i2 := by
  unfold InnerProduct.weight_offset at h
  have hs : 0 < size := by omega
  have hc : 0 < channels := by omega
  have e1 : size * channels * p + size * q + i = size * (channels * p + q) + i := by ring
  have e2 : size * channels * p2 + size * q2 + i2 = size * (channels * p2 + q2) + i2 := by ring
  rw [e1, e2] at h
  have hmod := congrArg (fun v => v % size) h
  simp only [Nat.mul_add_mod, Nat.mod_eq_of_lt hi, Nat.mod_eq_of_lt hi2] at hmod
  have hdiv := congrArg (fun v => v / size) h
  simp only [Nat.mul_add_div hs, Nat.div_eq_of_lt hi, Nat.div_eq_of_lt hi2,
    Nat.add_zero] at hdiv
  have hmod2 := congrArg (fun v => v % channels) hdiv
  simp only [Nat.mul_add_mod, Nat.mod_eq_of_lt hq, Nat.mod_eq_of_lt hq2] at hmod2
  have hdiv2 := congrArg (fun v => v / channels) hdiv
  simp only [Nat.mul_add_div hc, Nat.div_eq_of_lt hq, Nat.div_eq_of_lt hq2,
    Nat.add_zero] at hdiv2
  exact ⟨hdiv2, hmod2, hmod⟩

/-- Every offset below `n * channels * size` is the weight offset of an index
triple in range. -/
theorem weight_offset_surjective (n channels size k : Nat) (hk : k < n * channels * size) :
    ∃ p q i, p < n ∧ q < channels ∧ i < size ∧
      InnerProduct.weight_offset size channels p q i = k := by
  have hs : 0 < size := by
    rcases Nat.eq_zero_or_pos size with h | h
    · subst h
      simp at hk
    · exact h
  have hc : 0 < channels := by
    rcases Nat.eq_zero_or_pos channels with h | h
    · subst h
      simp at hk
    · exact h
  have hm : k / size < n * channels := by
    apply Nat.div_lt_of_lt_mul
    calc k < n * channels * size := hk
      _ = size * (n * channels) := by ring
  have hp : k / size / channels < n := by
    apply Nat.div_lt_of_lt_mul
    calc k / size < n * channels := hm
      _ = channels * n := by ring
  refine ⟨k / size / channels, k / size % channels, k % size, hp, Nat.mod_lt _ hc,
    Nat.mod_lt _ hs, ?_⟩
  unfold InnerProduct.weight_offset
  calc size * channels * (k / size / channels) + size * (k / size % channels) + k % size
      = size * (channels * (k / size / channels) + k / size % channels) + k % size := by ring
    _ = size * (k / size) + k % size := by rw [Nat.div_add_mod]
    _ = k := Nat.div_add_mod k size

/-- C15: the weight offsets of `forward`. The map from `(p, q, i)` with
`p < num_output`, `q < channels`, `i < size` to
`size * channels * p + size * q + i` takes its values below
`num_output * channels * size`, takes different values on different triples
and reaches every value below that bound; both loops read the weight at that
offset; so on a weight buffer of exactly `num_output * channels * size`
elements and a bias of `num_output` elements every read of `forward` is inside
its buffer and every weight element is read for exactly one triple. -/
theorem C15_weight_offsets_bijective [Zero F] [One F] [Add F] [Mul F] [Div F]
    (n channels size : Nat) :
    (∀ p q i, p < n → q < channels → i < size →
      InnerProduct.weight_offset size channels p q i < n * channels * size) ∧
    (∀ p q i p2 q2 i2, q < channels → i < size → q2 < channels → i2 < size →
      InnerProduct.weight_offset size channels p q i
        = InnerProduct.weight_offset size channels p2 q2 i2 →
      p = p2 ∧ q = q2 ∧ i = i2) ∧
    (∀ k, k < n * channels * size →
      ∃ p q i, p < n ∧ q < channels ∧ i < size ∧
        InnerProduct.weight_offset size channels p q i = k) ∧
    (∀ (self : InnerProduct F σq σd) (bottom_blob : Mat F) (p q : Nat) (sum : F),
      InnerProduct.float_channel self bottom_blob size channels p q sum
        = (List.range size).foldlM
            (fun sum i =>
              (bottom_blob.floatAt (bottom_blob.cstep * q + i)).bind fun mi =>
              (self.weight_data.floatAt
                (InnerProduct.weight_offset size channels p q i)).bind fun wi =>
              some (sum + mi * wi))
            sum) ∧
    (∀ (self : InnerProduct F σq σd) (bottom_blob_int8 : Mat F) (p q : Nat) (sum : Int),
      InnerProduct.int8_channel self bottom_blob_int8 size channels p q sum
        = (List.range size).foldlM
            (fun sum i =>
              (bottom_blob_int8.int8At (bottom_blob_int8.cstep * q + i)).bind fun mi =>
              (self.weight_data.int8At
                (InnerProduct.weight_offset size channels p q i)).bind fun wi =>
              some (wrap_int32 (sum + mi * wi)))
            sum) ∧
    (∀ (self : InnerProduct F σq σd) (cells bias_cells : List (Cell F)),
      self.weight_data.data = some cells → cells.length = n * channels * size →
      self.bias_data.data = some bias_cells → bias_cells.length = n →
      ∀ p q i, p < n → q < channels → i < size →
        (∃ v, self.weight_data.cell (InnerProduct.weight_offset size channels p q i) = some v) ∧
        (∃ v, self.bias_data.cell p = some v)) := by
  refine ⟨fun p q i hp hq hi => weight_offset_lt n channels size p q i hp hq hi,
    fun p q i p2 q2 i2 hq hi hq2 hi2 h =>
      weight_offset_injective channels size p q i p2 q2 i2 hq hi hq2 hi2 h,
    fun k hk => weight_offset_surjective n channels size k hk,
    fun _ _ _ _ _ => rfl, fun _ _ _ _ _ => rfl, ?_⟩
  intro self cells bias_cells hw hwl hb hbl p q i hp hq hi
  have hlt := weight_offset_lt n channels size p q i hp hq hi
  constructor
  · refine ⟨cells.get ⟨InnerProduct.weight_offset size channels p q i, ?_⟩, ?_⟩
    · rw [hwl]
      exact hlt
    · simp only [Mat.cell, hw]
      exact List.get?_eq_get _
  · refine ⟨bias_cells.get ⟨p, by rw [hbl]; exact hp⟩, ?_⟩
    simp only [Mat.cell, hb]
    exact List.get?_eq_get _

/-- Witness of C15 for three outputs, two channels and one element: the offset
of `(2, 1, 0)` is 5, below 6, and offset 4 is reached. -/
theorem C15_weight_offsets_bijective_witness :
    InnerProduct.weight_offset 1 2 2 1 0 < 3 * 2 * 1 ∧
    ∃ p q i, p < 3 ∧ q < 2 ∧ i < 1 ∧ InnerProduct.weight_offset 1 2 p q i = 4 :=
  ⟨(@C15_weight_offsets_bijective ℚ Unit Unit _ _ _ _ _ 3 2 1).1 2 1 0
      (by decide) (by decide) (by decide),
   (@C15_weight_offsets_bijective ℚ Unit Unit _ _ _ _ _ 3 2 1).2.2.1 4 (by decide)⟩

/-- The last stages of `load_model` issue no read and keep the two scales;
they return unless a needed quantize sub-unit is null. -/
theorem load_model_quantize_reads (vq : SubLayer F σq)
    (new_quantize : Fallible σq) (new_dequantize : Fallible σd) (default_opt : Option)
    (s : InnerProduct F σq σd) (mb : ModelBin F) (log : List Event) :
    (∀ r, InnerProduct.load_model_quantize vq new_quantize new_dequantize default_opt
        s mb log = some r →
      reads_of r.log = reads_of log ∧
      r.layer.weight_data_int8_scale = s.weight_data_int8_scale ∧
      r.layer.bottom_blob_int8_scale = s.bottom_blob_int8_scale) ∧
    ((s.use_int8_inference = true → ∃ q, new_quantize = some q) →
      ∃ r, InnerProduct.load_model_quantize vq new_quantize new_dequantize default_opt
        s mb log = some r) := by
  constructor
  · cases hu : s.use_int8_inference <;> cases h1 : (s.weight_data.elemsize == 1) <;>
      cases h4 : (s.weight_data.elemsize == 4) <;> cases hvk2 : mb.vk_model_loader <;>
      cases hq : new_quantize <;>
      simp only [InnerProduct.load_model_quantize, InnerProduct.load_model_upload, hu, h1, h4,
        hvk2, hq, Bool.false_eq_true, Bool.and_false, Bool.and_true, Bool.false_and,
        Bool.true_and, Bool.not_false, Bool.not_true, if_false, if_true] <;>
      (try split_ifs) <;>
      intro r hr <;>
      (try (simp at hr; done)) <;>
      (simp only [Option.some.injEq] at hr; subst hr; simp [reads_of, List.filterMap_append])
  · intro hq
    cases hu : s.use_int8_inference with
    | false =>
      cases h1 : (s.weight_data.elemsize == 1) <;>
        cases h4 : (s.weight_data.elemsize == 4) <;> cases hvk2 : mb.vk_model_loader <;>
        simp [InnerProduct.load_model_quantize, InnerProduct.load_model_upload, hu, h1, h4,
          hvk2]
    | true =>
      obtain ⟨q, hq2⟩ := hq hu
      cases h1 : (s.weight_data.elemsize == 1) <;>
        cases h4 : (s.weight_data.elemsize == 4) <;> cases hvk2 : mb.vk_model_loader <;>
        simp only [InnerProduct.load_model_quantize, InnerProduct.load_model_upload, hu, h1,
          h4, hvk2, hq2, Bool.false_eq_true, Bool.and_false, Bool.and_true, Bool.false_and,
          Bool.true_and, Bool.not_false, Bool.not_true, if_false, if_true] <;>
        (try split_ifs) <;>
        exact ⟨_, rfl⟩

/-- From the scale reads on, `load_model` issues the two scale reads exactly
when `int8_scale_term` is set, stores element 0 of the first as the weight
scale and of the second as the input scale, and issues no other read. -/
theorem load_model_scales_reads (vq : SubLayer F σq)
    (new_quantize : Fallible σq) (new_dequantize : Fallible σd) (default_opt : Option)
    (s : InnerProduct F σq σd) (mb : ModelBin F) (earlier : List (Int × Int))
    (log : List Event) :
    (∀ r, InnerProduct.load_model_scales vq new_quantize new_dequantize default_opt
        s mb earlier log = some r →
      reads_of r.log
        = reads_of log ++ (if s.int8_scale_term ≠ 0 then [(1, 1), (1, 1)] else []) ∧
      (s.int8_scale_term ≠ 0 →
        (mb.load earlier 1 1).floatAt 0 = some r.layer.weight_data_int8_scale ∧
        (mb.load (earlier ++ [(1, 1)]) 1 1).floatAt 0
          = some r.layer.bottom_blob_int8_scale)) ∧
    ((s.int8_scale_term ≠ 0 →
        ∃ a b, (mb.load earlier 1 1).floatAt 0 = some a ∧
          (mb.load (earlier ++ [(1, 1)]) 1 1).floatAt 0 = some b) →
      (s.use_int8_inference = true → ∃ q, new_quantize = some q) →
      ∃ r, InnerProduct.load_model_scales vq new_quantize new_dequantize default_opt
        s mb earlier log = some r) := by
  unfold InnerProduct.load_model_scales
  by_cases hterm : s.int8_scale_term ≠ 0
  · simp only [hterm, if_true, ne_eq, not_false_eq_true, forall_true_left]
    constructor
    · intro r hr
      cases ha : (mb.load earlier 1 1).floatAt 0 with
      | none => simp [ha] at hr
      | some a =>
        cases hb : (mb.load (earlier ++ [(1, 1)]) 1 1).floatAt 0 with
        | none =>
          simp only [ha, hb] at hr
          simp at hr
        | some b =>
          simp only [ha, hb] at hr
          obtain ⟨e1, e2, e3⟩ :=
            (load_model_quantize_reads vq new_quantize new_dequantize default_opt
              { s with weight_data_int8_scale := a, bottom_blob_int8_scale := b } mb _).1 r hr
          refine ⟨?_, ?_, ?_⟩
          · rw [e1]
            simp [reads_of, List.filterMap_append]
          · rw [e2]
          · rw [e3]
    · intro hab hq
      obtain ⟨a, b, ha, hb⟩ := hab
      simp only [ha, hb]
      exact (load_model_quantize_reads vq new_quantize new_dequantize default_opt
        { s with weight_data_int8_scale := a, bottom_blob_int8_scale := b } mb _).2 hq
  · simp only [hterm, if_false, List.append_nil, false_implies, and_true, forall_true_left]
    constructor
    · intro r hr
      exact ((load_model_quantize_reads vq new_quantize new_dequantize default_opt
        s mb log).1 r hr).1
    · intro hq
      exact (load_model_quantize_reads vq new_quantize new_dequantize default_opt
        s mb log).2 hq

/-- C17: the reads `load_model` issues, for every call that returns: the
weight read of `weight_data_size` elements alone when it comes back empty;
else the weight read and the bias read of `num_output` elements alone when the
bias term is set and the bias comes back empty; else the weight read, the bias
read exactly when `bias_term` is set, then two one-element reads exactly when
`int8_scale_term` is set, whose element 0 is stored as the weight scale and as
the input scale in that order. The call returns in the first two cases, and
in the third when the scale buffers hold a float and a needed quantize
sub-unit exists. -/
theorem C17_load_model_read_order (vq : SubLayer F σq)
    (new_quantize : Fallible σq) (new_dequantize : Fallible σd) (default_opt : Option)
    (self : InnerProduct F σq σd) (mb : ModelBin F) :
    (∀ r, InnerProduct.load_model vq new_quantize new_dequantize default_opt self mb
        = some r →
      reads_of r.log
        = (if (mb.load [] self.weight_data_size 0).empty = true then
            [(self.weight_data_size, 0)]
          else if self.bias_term ≠ 0 ∧
              (mb.load [(self.weight_data_size, 0)] self.num_output 1).empty = true then
            [(self.weight_data_size, 0), (self.num_output, 1)]
          else
            self.reads_before_scales
              ++ (if self.int8_scale_term ≠ 0 then [(1, 1), (1, 1)] else [])) ∧
      ((mb.load [] self.weight_data_size 0).empty = false →
        (self.bias_term ≠ 0 →
          (mb.load [(self.weight_data_size, 0)] self.num_output 1).empty = false) →
        self.int8_scale_term ≠ 0 →
        (mb.load self.reads_before_scales 1 1).floatAt 0
          = some r.layer.weight_data_int8_scale ∧
        (mb.load (self.reads_before_scales ++ [(1, 1)]) 1 1).floatAt 0
          = some r.layer.bottom_blob_int8_scale)) ∧
    ((mb.load [] self.weight_data_size 0).empty = true →
      ∃ r, InnerProduct.load_model vq new_quantize new_dequantize default_opt self mb
        = some r) ∧
    ((mb.load [] self.weight_data_size 0).empty = false → self.bias_term ≠ 0 →
      (mb.load [(self.weight_data_size, 0)] self.num_output 1).empty = true →
      ∃ r, InnerProduct.load_model vq new_quantize new_dequantize default_opt self mb
        = some r) ∧
    ((mb.load [] self.weight_data_size 0).empty = false →
      (self.bias_term ≠ 0 →
        (mb.load [(self.weight_data_size, 0)] self.num_output 1).empty = false) →
      (self.int8_scale_term ≠ 0 →
        ∃ a b, (mb.load self.reads_before_scales 1 1).floatAt 0 = some a ∧
          (mb.load (self.reads_before_scales ++ [(1, 1)]) 1 1).floatAt 0 = some b) →
      (self.use_int8_inference = true → ∃ q, new_quantize = some q) →
      ∃ r, InnerProduct.load_model vq new_quantize new_dequantize default_opt self mb
        = some r) := by
  refine ⟨?_, ?_, ?_, ?_⟩
  · intro r hr
    unfold InnerProduct.load_model at hr
    cases hw : (mb.load [] self.weight_data_size 0).empty with
    | true =>
      simp only [hw, if_true, Option.some.injEq] at hr
      subst hr
      simp [reads_of]
    | false =>
      simp only [hw, Bool.false_eq_true, if_false] at hr
      by_cases hbt : self.bias_term ≠ 0
      · simp only [hbt, if_true, ne_eq, not_false_eq_true] at hr
        cases hb : (mb.load [(self.weight_data_size, 0)] self.num_output 1).empty with
        | true =>
          simp only [hb, if_true, Option.some.injEq] at hr
          subst hr
          simp [reads_of, hbt]
        | false =>
          simp only [hb, Bool.false_eq_true, if_false] at hr
          obtain ⟨e1, e2⟩ :=
            (load_model_scales_reads vq new_quantize new_dequantize default_opt _ mb _ _).1
              r hr
          have hrb : self.reads_before_scales
              = [(self.weight_data_size, 0), (self.num_output, 1)] := by
            simp [InnerProduct.reads_before_scales, hbt]
          refine ⟨?_, ?_⟩
          · rw [e1, hrb]
            simp [reads_of, hbt]
          · intro _ _ hterm
            rw [hrb]
            exact e2 hterm
      · simp only [hbt, if_false] at hr
        obtain ⟨e1, e2⟩ :=
          (load_model_scales_reads vq new_quantize new_dequantize default_opt _ mb _ _).1
            r hr
        have hrb : self.reads_before_scales = [(self.weight_data_size, 0)] := by
          simp [InnerProduct.reads_before_scales, hbt]
        refine ⟨?_, ?_⟩
        · rw [e1, hrb]
          simp [reads_of, hbt]
        · intro _ _ hterm
          rw [hrb]
          exact e2 hterm
  · intro hw
    unfold InnerProduct.load_model
    simp only [hw, if_true]
    exact ⟨_, rfl⟩
  · intro hw hbt hb
    unfold InnerProduct.load_model
    simp only [hw, hbt, hb, Bool.false_eq_true, if_false, if_true, ne_eq, not_false_eq_true]
    exact ⟨_, rfl⟩
  · intro hw hb hscale hq
    unfold InnerProduct.load_model
    simp only [hw, Bool.false_eq_true, if_false]
    by_cases hbt : self.bias_term ≠ 0
    · have hrb : self.reads_before_scales
          = [(self.weight_data_size, 0), (self.num_output, 1)] := by
        simp [InnerProduct.reads_before_scales, hbt]
      rw [hrb] at hscale
      simp only [hbt, hb hbt, if_true, Bool.false_eq_true, if_false, ne_eq,
        not_false_eq_true]
      exact (load_model_scales_reads vq new_quantize new_dequantize default_opt _ mb _ _).2
        hscale hq
    · have hrb : self.reads_before_scales = [(self.weight_data_size, 0)] := by
        simp [InnerProduct.reads_before_scales, hbt]
      rw [hrb] at hscale
      simp only [hbt, if_false]
      exact (load_model_scales_reads vq new_quantize new_dequantize default_opt _ mb _ _).2
        hscale hq

/-- Witness of C17: the int8 scenario layer (no bias term, int8 scale term
set) on the int8 reader issues the weight read and then two one-element
reads, and stores 0 and 2, element 0 of what the reader returned for them, as
weight scale and input scale. -/
theorem C17_load_model_read_order_witness :
    ∃ r : LoadResult ℚ Unit ℚ,
      InnerProduct.load_model sample_quantize (some ()) (some 1) (sample_option 1)
        sample_int8_inner_product sample_reader_int8 = some r ∧
      reads_of r.log = [(6, 0), (1, 1), (1, 1)] ∧
      r.layer.weight_data_int8_scale = 0 ∧
      r.layer.bottom_blob_int8_scale = 2 := by
  obtain ⟨r, hr⟩ :=
    (C17_load_model_read_order sample_quantize (some ()) (some 1) (sample_option 1)
      sample_int8_inner_product sample_reader_int8).2.2.2 (by decide)
      (fun h => absurd rfl h) (fun _ => ⟨0, 2, rfl, rfl⟩) (fun _ => ⟨(), rfl⟩)
  obtain ⟨h1, h2⟩ :=
    (C17_load_model_read_order sample_quantize (some ()) (some 1) (sample_option 1)
      sample_int8_inner_product sample_reader_int8).1 r hr
  obtain ⟨h3, h4⟩ := h2 (by decide) (fun h => absurd rfl h) (by decide)
  have e3 : some (0 : ℚ) = some r.layer.weight_data_int8_scale := h3
  have e4 : some (2 : ℚ) = some r.layer.bottom_blob_int8_scale := h4
  refine ⟨r, hr, ?_, (Option.some.inj e3).symm, (Option.some.inj e4).symm⟩
  rw [h1]
  rfl

/-- The loop of `load_param` with a negative `num_output` and a start that is
not negative never ends: every amount of fuel runs out. -/
theorem local_size_loop_diverges (num_output : Int) (hneg : num_output < 0) :
    ∀ (fuel : Nat) (x : Int), 0 ≤ x → InnerProduct.local_size_loop num_output fuel x = none := by
  intro fuel
  induction fuel with
  | zero =>
    intro x _
    rfl
  | succ k ih =>
    intro x hx
    unfold InnerProduct.local_size_loop
    have hlt : num_output < x := lt_of_lt_of_le hneg hx
    simp only [hlt, if_true]
    exact ih (Int.tdiv x 2) (Int.tdiv_nonneg hx (by decide))

/-- The loop of `load_param` with `num_output` not negative, from a start `a`
that is not negative: it ends after `k` halvings with `a / 2^k`, for the
least `k` that makes `a / 2^k` at most `num_output`; the end value is at
least 1 when `num_output` and `a` are. -/
theorem local_size_loop_terminates (num_output : Int) (hn : 0 ≤ num_output) :
    ∀ a : Nat, ∃ k : Nat,
      (∀ fuel, k < fuel →
        InnerProduct.local_size_loop num_output fuel (a : Int) = some ((a / 2 ^ k : Nat) : Int)) ∧
      ((a / 2 ^ k : Nat) : Int) ≤ num_output ∧
      (∀ j, j < k → num_output < ((a / 2 ^ j : Nat) : Int)) ∧
      (1 ≤ num_output → 1 ≤ a → 1 ≤ a / 2 ^ k) := by
  intro a
  induction a using Nat.strong_induction_on with
  | _ a ih =>
    by_cases hlt : num_output < (a : Int)
    · have ha : 1 ≤ a := by omega
      obtain ⟨k, h1, h2, h3, h4⟩ := ih (a / 2) (Nat.div_lt_self (by omega) (by decide))
      have hdiv : ∀ j, a / 2 / 2 ^ j = a / 2 ^ (j + 1) := by
        intro j
        rw [Nat.div_div_eq_div_mul, pow_succ, Nat.mul_comm]
      have htdiv : Int.tdiv (a : Int) 2 = ((a / 2 : Nat) : Int) := by
        rw [Int.tdiv_eq_ediv (by omega) (by decide)]
        norm_cast
      refine ⟨k + 1, ?_, ?_, ?_, ?_⟩
      · intro fuel hf
        cases fuel with
        | zero => omega
        | succ f =>
          unfold InnerProduct.local_size_loop
          simp only [hlt, if_true]
          rw [htdiv, h1 f (by omega), hdiv]
      · rw [← hdiv]
        exact h2
      · intro j hj
        cases j with
        | zero => simpa using hlt
        | succ j2 =>
          rw [← hdiv]
          exact h3 j2 (by omega)
      · intro hn1 _
        rw [← hdiv]
        apply h4 hn1
        have h2a : (2 : Int) ≤ a := by omega
        have : 2 ≤ a := by exact_mod_cast h2a
        omega
    · refine ⟨0, ?_, ?_, ?_, ?_⟩
      · intro fuel hf
        cases fuel with
        | zero => omega
        | succ f =>
          unfold InnerProduct.local_size_loop
          simp [hlt]
      · simpa using hlt
      · intro j hj
        omega
      · intro _ ha
        simpa using ha

/-- The result of `load_param` depends only on keys 0, 1, 2 and 8 of the
dictionary, its int8 flag and its workgroup limit; after a call that returns,
the code is 0 and `use_int8_inference` is set exactly when the flag is set and
key 8 is not zero. -/
theorem load_param_frame (fuel : Nat) (self : InnerProduct F σq σd) (pd1 pd2 : ParamDict F) :
    (pd1.get 0 0 = pd2.get 0 0 → pd1.get 1 0 = pd2.get 1 0 → pd1.get 2 0 = pd2.get 2 0 →
      pd1.get 8 0 = pd2.get 8 0 → pd1.use_int8_inference = pd2.use_int8_inference →
      pd1.max_workgroup_size = pd2.max_workgroup_size →
      InnerProduct.load_param fuel self pd1 = InnerProduct.load_param fuel self pd2) ∧
    (∀ c, InnerProduct.load_param fuel self pd1 = some c →
      c.1 = 0 ∧
      (c.2.use_int8_inference = true ↔ pd1.use_int8_inference = true ∧ pd1.get 8 0 ≠ 0)) := by
  constructor
  · intro h0 h1 h2 h8 hu hm
    rw [load_param_eq_map, load_param_eq_map, h0, h1, h2, h8, hu, hm]
  · intro c hc
    rw [load_param_eq_map] at hc
    cases hloop : InnerProduct.local_size_loop (pd1.get 0 0) fuel pd1.max_workgroup_size with
    | none => simp [hloop] at hc
    | some x =>
      simp only [hloop, Option.map_some', Option.some.injEq] at hc
      subst hc
      refine ⟨rfl, ?_⟩
      by_cases h8 : pd1.get 8 0 = 0
      · simp [h8]
      · simp [h8]

/-- C18 fails on the code: with key 0 (`num_output`) equal to -1 and a workgroup
limit of 256, `load_param` does not return, whatever the fuel; the loop halves
`local_size_x` down to 0 and -1 stays below it. -/
theorem C18_load_param_does_not_return :
    ∀ fuel : Nat,
      InnerProduct.load_param fuel sample_inner_product sample_negative_dict = none := by
  intro fuel
  rw [load_param_eq_map]
  have h : InnerProduct.local_size_loop (sample_negative_dict.get 0 0) fuel
      sample_negative_dict.max_workgroup_size = none :=
    local_size_loop_diverges _ (by decide) fuel _ (by decide)
  rw [h]
  rfl

/-- C19 fails on the code: for `num_output` -1 and a workgroup limit of 256 the
loop never ends: 256 is halved down to 0, and 0 is halved to 0 for ever. -/
theorem C19_local_size_loop_does_not_terminate :
    ∀ fuel : Nat, InnerProduct.local_size_loop (-1) fuel 256 = none :=
  fun fuel => local_size_loop_diverges (-1) (by decide) fuel 256 (by decide)

end InnerProductTheorems

/-! ## Theorems: the clone loops of the base `forward` -/

section ForwardLoopTheorems

variable {F : Type}

/-- The clone loop of the host `forward`, when `k` is the first index from `i`
on whose clone is empty: it stops at `k` with `false`; the outputs from `i`
to `k` are the clones and every other slot is as before. -/
theorem forward_loop_first_failure (bottom_blobs : List (Mat F)) (opt : Option) (k : Nat)
    (hk : ((bottom_blobs.getD k Mat.nil).clone (opt.blob_allocator k)).empty = true) :
    ∀ (n i : Nat) (tops : List (Mat F)), i ≤ k → k < i + n → k < tops.length →
      (∀ j, i ≤ j → j < k →
        ((bottom_blobs.getD j Mat.nil).clone (opt.blob_allocator j)).empty = false) →
      ∃ tops2 : List (Mat F),
        Layer.forward_loop bottom_blobs opt n i tops = (false, tops2) ∧
        tops2.length = tops.length ∧
        (∀ j, i ≤ j → j ≤ k →
          tops2.get? j = some ((bottom_blobs.getD j Mat.nil).clone (opt.blob_allocator j))) ∧
        (∀ j, j < i ∨ k < j → tops2.get? j = tops.get? j) := by
  intro n
  induction n with
  | zero =>
    intro i tops h1 h2
    omega
  | succ n ih =>
    intro i tops h1 h2 h3 h4
    have hi : i < tops.length := by omega
    have hget : (tops.set i ((bottom_blobs.getD i Mat.nil).clone (opt.blob_allocator i))).getD i
        Mat.nil = (bottom_blobs.getD i Mat.nil).clone (opt.blob_allocator i) := by
      simp [List.getD_eq_getElem?_getD, hi]
    unfold Layer.forward_loop
    simp only [hget]
    by_cases hik : i = k
    · subst hik
      simp only [hk, if_true]
      refine ⟨_, rfl, by simp, ?_, ?_⟩
      · intro j hj1 hj2
        have hji : j = i := by omega
        subst hji
        simp [hi]
      · intro j hj
        have hne : i ≠ j := by omega
        simp [List.getElem?_set, hne]
    · have hlt : i < k := by omega
      simp only [h4 i (le_refl i) hlt, Bool.false_eq_true, if_false]
      obtain ⟨tops2, e1, e2, e3, e4⟩ :=
        ih (i + 1) (tops.set i ((bottom_blobs.getD i Mat.nil).clone (opt.blob_allocator i)))
          (by omega) (by omega) (by simpa using h3)
          (fun j hj1 hj2 => h4 j (by omega) hj2)
      refine ⟨tops2, e1, by simpa using e2, ?_, ?_⟩
      · intro j hj1 hj2
        by_cases hji : j = i
        · subst hji
          rw [e4 j (Or.inl (by omega))]
          simp [hi]
        · exact e3 j (by omega) hj2
      · intro j hj
        have hne : i ≠ j := by omega
        rw [e4 j (by omega)]
        simp [List.getElem?_set, hne]

/-- The recorded commands come in pairs: for input `i + j` the barrier is at
position `2 * j` and the clone right after it. -/
theorem vk_commands_pairs (bottom_blobs : List VkMat) (device_alloc : VkAllocatorOracle) :
    ∀ (n i j : Nat), j < n →
      (Layer.vk_commands bottom_blobs device_alloc i n).length = 2 * n ∧
      (Layer.vk_commands bottom_blobs device_alloc i n).get? (2 * j)
        = some (VkCommand.prepare_transfer_barrier (bottom_blobs.getD (i + j) VkMat.nil)) ∧
      (Layer.vk_commands bottom_blobs device_alloc i n).get? (2 * j + 1)
        = some (VkCommand.clone (bottom_blobs.getD (i + j) VkMat.nil)
            (Layer.vk_created bottom_blobs device_alloc (i + j))) := by
  intro n
  induction n with
  | zero =>
    intro i j hj
    omega
  | succ n ih =>
    intro i j hj
    have hlen : ∀ m i2, (Layer.vk_commands bottom_blobs device_alloc i2 m).length = 2 * m := by
      intro m
      induction m with
      | zero =>
        intro i2
        rfl
      | succ m ihm =>
        intro i2
        simp only [Layer.vk_commands, Layer.vk_clone_commands, List.length_append,
          List.length_cons, List.length_nil, ihm]
        omega
    refine ⟨hlen _ _, ?_, ?_⟩
    · cases j with
      | zero => simp [Layer.vk_commands, Layer.vk_clone_commands]
      | succ j2 =>
        obtain ⟨_, h2, _⟩ := ih (i + 1) j2 (by omega)
        have e : 2 * (j2 + 1) = 2 * j2 + 2 := by ring
        have e2 : i + (j2 + 1) = i + 1 + j2 := by ring
        simp only [Layer.vk_commands, Layer.vk_clone_commands, e, e2]
        simpa using h2
    · cases j with
      | zero => simp [Layer.vk_commands, Layer.vk_clone_commands]
      | succ j2 =>
        obtain ⟨_, _, h3⟩ := ih (i + 1) j2 (by omega)
        have e : 2 * (j2 + 1) + 1 = 2 * j2 + 1 + 2 := by ring
        have e2 : i + (j2 + 1) = i + 1 + j2 := by ring
        simp only [Layer.vk_commands, Layer.vk_clone_commands, e, e2]
        simpa using h3

/-- The device loop when every allocation from `i` to `i + n - 1` succeeds: it
ends with `true`, has created the outputs of those indices and has appended
their commands in order. -/
theorem forward_vk_loop_all_created (bottom_blobs : List VkMat)
    (device_alloc : VkAllocatorOracle) :
    ∀ (n i : Nat) (tops : List VkMat) (cmd : List VkCommand), i + n ≤ tops.length →
      (∀ j, i ≤ j → j < i + n → (Layer.vk_created bottom_blobs device_alloc j).empty = false) →
      ∃ tops2 : List VkMat,
        Layer.forward_vk_loop bottom_blobs device_alloc n i tops cmd
          = (true, tops2, cmd ++ Layer.vk_commands bottom_blobs device_alloc i n) ∧
        tops2.length = tops.length ∧
        (∀ j, i ≤ j → j < i + n →
          tops2.get? j = some (Layer.vk_created bottom_blobs device_alloc j)) ∧
        (∀ j, j < i ∨ i + n ≤ j → tops2.get? j = tops.get? j) := by
  intro n
  induction n with
  | zero =>
    intro i tops cmd _ _
    refine ⟨tops, ?_, rfl, ?_, ?_⟩
    · simp [Layer.forward_vk_loop, Layer.vk_commands]
    · intro j h1 h2
      omega
    · intro j _
      rfl
  | succ n ih =>
    intro i tops cmd h1 h2
    have hi : i < tops.length := by omega
    have hget : (tops.set i (Layer.vk_created bottom_blobs device_alloc i)).getD i VkMat.nil
        = Layer.vk_created bottom_blobs device_alloc i := by
      simp [List.getD_eq_getElem?_getD, hi]
    have hne := h2 i (le_refl i) (by omega)
    obtain ⟨tops2, e1, e2, e3, e4⟩ :=
      ih (i + 1) (tops.set i (Layer.vk_created bottom_blobs device_alloc i))
        (cmd ++ Layer.vk_clone_commands (bottom_blobs.getD i VkMat.nil)
          (Layer.vk_created bottom_blobs device_alloc i))
        (by simp; omega) (fun j hj1 hj2 => h2 j (by omega) (by omega))
    refine ⟨tops2, ?_, by simpa using e2, ?_, ?_⟩
    · unfold Layer.forward_vk_loop
      simp only []
      rw [show VkMat.create_like (bottom_blobs.getD i VkMat.nil)
            (bottom_blobs.getD i VkMat.nil).allocator
            (bottom_blobs.getD i VkMat.nil).staging_allocator (device_alloc i)
          = Layer.vk_created bottom_blobs device_alloc i from rfl]
      simp only [hget, hne, Bool.false_eq_true, if_false]
      rw [e1]
      simp [Layer.vk_commands]
    · intro j hj1 hj2
      by_cases hji : j = i
      · subst hji
        rw [e4 j (Or.inl (by omega))]
        simp [hi]
      · exact e3 j (by omega) (by omega)
    · intro j hj
      have hne2 : i ≠ j := by omega
      rw [e4 j (by omega)]
      simp [List.getElem?_set, hne2]

/-- The device loop when `k` is the first index from `i` on whose allocation
fails: it stops at `k` with `false`, having appended the commands of the
indices before `k` only. -/
theorem forward_vk_loop_first_failure (bottom_blobs : List VkMat)
    (device_alloc : VkAllocatorOracle) (k : Nat)
    (hk : (Layer.vk_created bottom_blobs device_alloc k).empty = true) :
    ∀ (n i : Nat) (tops : List VkMat) (cmd : List VkCommand), i ≤ k → k < i + n →
      k < tops.length →
      (∀ j, i ≤ j → j < k → (Layer.vk_created bottom_blobs device_alloc j).empty = false) →
      ∃ tops2 : List VkMat,
        Layer.forward_vk_loop bottom_blobs device_alloc n i tops cmd
          = (false, tops2, cmd ++ Layer.vk_commands bottom_blobs device_alloc i (k - i)) ∧
        tops2.length = tops.length ∧
        (∀ j, i ≤ j → j ≤ k →
          tops2.get? j = some (Layer.vk_created bottom_blobs device_alloc j)) ∧
        (∀ j, j < i ∨ k < j → tops2.get? j = tops.get? j) := by
  intro n
  induction n with
  | zero =>
    intro i tops cmd h1 h2
    omega
  | succ n ih =>
    intro i tops cmd h1 h2 h3 h4
    have hi : i < tops.length := by omega
    have hget : (tops.set i (Layer.vk_created bottom_blobs device_alloc i)).getD i VkMat.nil
        = Layer.vk_created bottom_blobs device_alloc i := by
      simp [List.getD_eq_getElem?_getD, hi]
    have hcreated : VkMat.create_like (bottom_blobs.getD i VkMat.nil)
          (bottom_blobs.getD i VkMat.nil).allocator
          (bottom_blobs.getD i VkMat.nil).staging_allocator (device_alloc i)
        = Layer.vk_created bottom_blobs device_alloc i := rfl
    by_cases hik : i = k
    · subst hik
      refine ⟨tops.set i (Layer.vk_created bottom_blobs device_alloc i), ?_, by simp, ?_, ?_⟩
      · unfold Layer.forward_vk_loop
        simp only []
        rw [hcreated]
        simp only [hget, hk, if_true]
        simp [Layer.vk_commands]
      · intro j hj1 hj2
        have hji : j = i := by omega
        subst hji
        simp [hi]
      · intro j hj
        have hne2 : i ≠ j := by omega
        simp [List.getElem?_set, hne2]
    · have hlt : i < k := by omega
      have hne := h4 i (le_refl i) hlt
      obtain ⟨tops2, e1, e2, e3, e4⟩ :=
        ih (i + 1) (tops.set i (Layer.vk_created bottom_blobs device_alloc i))
          (cmd ++ Layer.vk_clone_commands (bottom_blobs.getD i VkMat.nil)
            (Layer.vk_created bottom_blobs device_alloc i))
          (by omega) (by omega) (by simpa using h3)
          (fun j hj1 hj2 => h4 j (by omega) hj2)
      refine ⟨tops2, ?_, by simpa using e2, ?_, ?_⟩
      · unfold Layer.forward_vk_loop
        simp only []
        rw [hcreated]
        simp only [hget, hne, Bool.false_eq_true, if_false]
        rw [e1]
        have hsub : k - i = (k - (i + 1)) + 1 := by omega
        rw [hsub]
        simp [Layer.vk_commands]
      · intro j hj1 hj2
        by_cases hji : j = i
        · subst hji
          rw [e4 j (Or.inl (by omega))]
          simp [hi]
        · exact e3 j (by omega) hj2
      · intro j hj
        have hne2 : i ≠ j := by omega
        rw [e4 j (by omega)]
        simp [List.getElem?_set, hne2]

/-- C11 as stated fails. The base many-blob `forward` with three inputs and an
allocator that refuses the second clone returns -100 with output 0 holding
the clone of input 0 and output 2 still holding input 2; and the int8 path of
`InnerProduct::forward` whose workspace allocation is refused returns -100
with an output buffer of three unwritten slots, which is not empty. -/
theorem C11_outputs_not_empty_after_failure :
    Layer.forward_blobs sample_inplace_layer
        [sample_vec [1], sample_vec [2], sample_vec [3]] [] sample_option_second_refused
      = (-100, [sample_vec [1], { sample_vec [2] with data := none }, sample_vec [3]]) ∧
    (sample_vec [1]).empty = false ∧ (sample_vec [3]).empty = false ∧
    (InnerProduct.forward sample_omp sample_quantize sample_dequantize
        sample_int8_inner_product sample_input Mat.nil (sample_option_alloc 2 true false)).map
        (fun r => (r.code, r.top_blob.empty, r.top_blob.data))
      = some (-100, false, some [Cell.uninit, Cell.uninit, Cell.uninit]) := by
  refine ⟨by decide, by decide, by decide, by decide⟩

/-- C11 (amended): what the outputs hold after a failed allocation. After the
base many-blob `forward` returns -100 because the clone of input `k` is the
first empty one, output `k` is that empty clone, every output before `k` is
the clone of its input and every output after `k` is still the input itself.
After `InnerProduct::forward` returns -100, no step has run and the output is
the freshly created buffer: empty, or on the int8 path with a refused
workspace, `num_output` unwritten slots. -/
theorem C11_outputs_after_failed_allocation [Zero F] [One F] [Add F] [Mul F] [Div F]
    {σq σd : Type} (self : Layer F) (bottom_blobs top_blobs : List (Mat F)) (opt : Option)
    (omp : OmpRuntime) (vq : SubLayer F σq) (vd : SubLayer F σd)
    (ip : InnerProduct F σq σd) (bottom_blob top_blob : Mat F) :
    (∀ k, self.support_inplace = true → k < bottom_blobs.length →
      ((bottom_blobs.getD k Mat.nil).clone (opt.blob_allocator k)).empty = true →
      (∀ j, j < k →
        ((bottom_blobs.getD j Mat.nil).clone (opt.blob_allocator j)).empty = false) →
      ∃ tops : List (Mat F),
        self.forward_blobs bottom_blobs top_blobs opt = (-100, tops) ∧
        tops.length = bottom_blobs.length ∧
        (∃ m, tops.get? k = some m ∧ m.empty = true) ∧
        (∀ j, j < k →
          tops.get? j = some ((bottom_blobs.getD j Mat.nil).clone (opt.blob_allocator j))) ∧
        (∀ j, k < j → tops.get? j = bottom_blobs.get? j)) ∧
    (∀ r, InnerProduct.forward omp vq vd ip bottom_blob top_blob opt = some r →
      r.code = -100 →
      r.log = [] ∧
      r.top_blob = Mat.create ip.num_output bottom_blob.elemsize (opt.blob_allocator 0) ∧
      (r.top_blob.empty = true ∨
        (ip.use_int8_inference = true ∧
          r.top_blob.data = some (List.replicate ip.num_output.toNat Cell.uninit)))) := by
  constructor
  · intro k hin hk hempty hbefore
    obtain ⟨tops, e1, e2, e3, e4⟩ :=
      forward_loop_first_failure bottom_blobs opt k hempty bottom_blobs.length 0 bottom_blobs
        (Nat.zero_le k) (by omega) hk (fun j _ hj => hbefore j hj)
    refine ⟨tops, ?_, e2, ⟨_, e3 k (Nat.zero_le k) (le_refl k), hempty⟩, ?_, ?_⟩
    · simp [Layer.forward_blobs, hin, e1]
    · intro j hj
      exact e3 j (Nat.zero_le j) (by omega)
    · intro j hj
      exact e4 j (Or.inr hj)
  · intro r hr hcode
    unfold InnerProduct.forward at hr
    cases h1 : (Mat.create ip.num_output bottom_blob.elemsize (opt.blob_allocator 0) :
        Mat F).empty with
    | true =>
      simp only [h1, if_true, Option.some.injEq] at hr
      subst hr
      exact ⟨rfl, rfl, Or.inl h1⟩
    | false =>
      obtain ⟨hdata, _⟩ := Mat.create_data_of_not_empty _ _ _ h1
      cases h2 : ip.use_int8_inference with
      | true =>
        cases h3 : (Mat.create3 bottom_blob.w bottom_blob.h bottom_blob.c 1
            (opt.workspace_allocator 0) : Mat F).empty with
        | true =>
          simp only [h1, h2, h3, Bool.false_eq_true, if_false, if_true,
            Option.some.injEq] at hr
          subst hr
          exact ⟨rfl, rfl, Or.inr ⟨rfl, hdata⟩⟩
        | false =>
          exfalso
          simp only [h1, h2, h3, Bool.false_eq_true, if_false, if_true] at hr
          split at hr
          · simp at hr
          · split at hr
            · simp at hr
            · split at hr
              · simp at hr
              · simp only [Option.some.injEq] at hr
                subst hr
                simp at hcode
      | false =>
        exfalso
        simp only [h1, h2, Bool.false_eq_true, if_false] at hr
        split at hr
        · simp at hr
        · simp only [Option.some.injEq] at hr
          subst hr
          simp at hcode

/-- Witness of the amended C11 on the inputs of the counterexample: output 1 is
empty, output 0 is the clone of input 0, output 2 is input 2; and the int8
call returns -100 with the created buffer of three unwritten slots. -/
theorem C11_outputs_after_failed_allocation_witness :
    (∃ tops : List (Mat ℚ),
      Layer.forward_blobs sample_inplace_layer
          [sample_vec [1], sample_vec [2], sample_vec [3]] [] sample_option_second_refused
        = (-100, tops) ∧
      tops.length = 3 ∧
      (∃ m, tops.get? 1 = some m ∧ m.empty = true) ∧
      tops.get? 0 = some (sample_vec [1]) ∧
      tops.get? 2 = some (sample_vec [3])) ∧
    (∃ r : ForwardResult ℚ Unit ℚ,
      InnerProduct.forward sample_omp sample_quantize sample_dequantize
        sample_int8_inner_product sample_input Mat.nil (sample_option_alloc 2 true false)
        = some r ∧
      r.code = -100 ∧
      r.log = [] ∧
      r.top_blob = Mat.create 3 4 true ∧
      r.top_blob.data = some (List.replicate 3 Cell.uninit)) := by
  constructor
  · obtain ⟨tops, h1, h2, h3, h4, h5⟩ :=
      (C11_outputs_after_failed_allocation sample_inplace_layer
        [sample_vec [1], sample_vec [2], sample_vec [3]] [] sample_option_second_refused
        sample_omp sample_quantize sample_dequantize sample_int8_inner_product sample_input
        Mat.nil).1 1 rfl (by decide) (by decide)
        (fun j hj => by
          have hj0 : j = 0 := by omega
          subst hj0
          decide)
    exact ⟨tops, h1, h2, h3, (h4 0 (by decide)).trans rfl, (h5 2 (by decide)).trans rfl⟩
  · have hr : InnerProduct.forward sample_omp sample_quantize sample_dequantize
        sample_int8_inner_product sample_input Mat.nil (sample_option_alloc 2 true false)
        = some { code := -100, top_blob := Mat.create 3 4 true, quantize := some (),
                 dequantize := some 1, log := [] } := rfl
    obtain ⟨h1, h2, _⟩ :=
      (C11_outputs_after_failed_allocation sample_inplace_layer
        [sample_vec [1], sample_vec [2], sample_vec [3]] [] (sample_option_alloc 2 true false)
        sample_omp sample_quantize sample_dequantize sample_int8_inner_product sample_input
        Mat.nil).2 _ hr rfl
    exact ⟨_, hr, rfl, h1, h2, rfl⟩

/-- C16: the many-blob device `forward` of a layer that supports in-place
execution. When every output allocation succeeds, the call is the device
`forward_inplace` on the created outputs with the recorder extended by, for
`i = 0 .. n-1` in order, the barrier on input `i` immediately followed by the
clone of input `i` into output `i`. When output `k` is the first whose
allocation fails, the call returns -100 with exactly the `2 * k` commands of
the first `k` inputs appended. -/
theorem C16_forward_vkblobs_barrier_then_clone (self : Layer F)
    (device_alloc : VkAllocatorOracle) (bottom_blobs top_blobs : List VkMat)
    (cmd : List VkCommand) (opt : Option) (hin : self.support_inplace = true) :
    ((∀ i, i < bottom_blobs.length →
        (Layer.vk_created bottom_blobs device_alloc i).empty = false) →
      self.forward_vkblobs device_alloc bottom_blobs top_blobs cmd opt
        = self.forward_inplace_vkblobs
            ((List.range bottom_blobs.length).map (Layer.vk_created bottom_blobs device_alloc))
            (cmd ++ Layer.vk_commands bottom_blobs device_alloc 0 bottom_blobs.length) opt ∧
      (Layer.vk_commands bottom_blobs device_alloc 0 bottom_blobs.length).length
        = 2 * bottom_blobs.length ∧
      ∀ i, i < bottom_blobs.length →
        (Layer.vk_commands bottom_blobs device_alloc 0 bottom_blobs.length).get? (2 * i)
          = some (VkCommand.prepare_transfer_barrier (bottom_blobs.getD i VkMat.nil)) ∧
        (Layer.vk_commands bottom_blobs device_alloc 0 bottom_blobs.length).get? (2 * i + 1)
          = some (VkCommand.clone (bottom_blobs.getD i VkMat.nil)
              (Layer.vk_created bottom_blobs device_alloc i))) ∧
    (∀ k, k < bottom_blobs.length →
      (Layer.vk_created bottom_blobs device_alloc k).empty = true →
      (∀ j, j < k → (Layer.vk_created bottom_blobs device_alloc j).empty = false) →
      ∃ tops : List VkMat,
        self.forward_vkblobs device_alloc bottom_blobs top_blobs cmd opt
          = (-100, tops, cmd ++ Layer.vk_commands bottom_blobs device_alloc 0 k) ∧
        (Layer.vk_commands bottom_blobs device_alloc 0 k).length = 2 * k ∧
        ∀ i, i < k →
          (Layer.vk_commands bottom_blobs device_alloc 0 k).get? (2 * i)
            = some (VkCommand.prepare_transfer_barrier (bottom_blobs.getD i VkMat.nil)) ∧
          (Layer.vk_commands bottom_blobs device_alloc 0 k).get? (2 * i + 1)
            = some (VkCommand.clone (bottom_blobs.getD i VkMat.nil)
                (Layer.vk_created bottom_blobs device_alloc i))) := by
  have hlen : (vkblobs_resize top_blobs bottom_blobs.length).length = bottom_blobs.length := by
    simp only [vkblobs_resize, List.length_append, List.length_take, List.length_replicate]
    omega
  have hpairs : ∀ n i, i < n →
      (Layer.vk_commands bottom_blobs device_alloc 0 n).length = 2 * n ∧
      (Layer.vk_commands bottom_blobs device_alloc 0 n).get? (2 * i)
        = some (VkCommand.prepare_transfer_barrier (bottom_blobs.getD i VkMat.nil)) ∧
      (Layer.vk_commands bottom_blobs device_alloc 0 n).get? (2 * i + 1)
        = some (VkCommand.clone (bottom_blobs.getD i VkMat.nil)
            (Layer.vk_created bottom_blobs device_alloc i)) := by
    intro n i hi
    have h := vk_commands_pairs bottom_blobs device_alloc n 0 i hi
    simpa using h
  have hlen0 : ∀ n, (Layer.vk_commands bottom_blobs device_alloc 0 n).length = 2 * n := by
    intro n
    cases n with
    | zero => rfl
    | succ m => exact (hpairs (m + 1) 0 (Nat.succ_pos m)).1
  constructor
  · intro hall
    refine ⟨?_, hlen0 _, fun i hi => (hpairs _ i hi).2⟩
    obtain ⟨tops2, e1, e2, e3, _⟩ :=
      forward_vk_loop_all_created bottom_blobs device_alloc bottom_blobs.length 0
        (vkblobs_resize top_blobs bottom_blobs.length) cmd (by omega)
        (fun j _ hj => hall j (by omega))
    have htops : tops2
        = (List.range bottom_blobs.length).map (Layer.vk_created bottom_blobs device_alloc) := by
      apply List.ext_get?
      intro j
      by_cases hj : j < bottom_blobs.length
      · rw [e3 j (Nat.zero_le j) (by omega)]
        simp [hj]
      · have h1 : tops2.get? j = none := by
          apply List.get?_eq_none.mpr
          rw [e2, hlen]
          omega
        rw [h1]
        symm
        apply List.get?_eq_none.mpr
        rw [List.length_map, List.length_range]
        omega
    simp only [Layer.forward_vkblobs, hin, hlen, e1, Bool.not_true, Bool.false_eq_true, if_false]
    rw [htops]
  · intro k hk hempty hbefore
    obtain ⟨tops2, e1, _, _, _⟩ :=
      forward_vk_loop_first_failure bottom_blobs device_alloc k hempty bottom_blobs.length 0
        (vkblobs_resize top_blobs bottom_blobs.length) cmd (Nat.zero_le k) (by omega)
        (by omega) (fun j _ hj => hbefore j hj)
    refine ⟨tops2, ?_, hlen0 k, fun i hi => (hpairs k i hi).2⟩
    simp only [Layer.forward_vkblobs, hin, hlen, e1, Bool.not_true, Bool.false_eq_true, if_false]
    simp

/-- Witness of C16 with two device inputs: when both allocations succeed the
recorder holds barrier, clone, barrier, clone and the result is that of
`forward_inplace`; when the second allocation is refused the call returns
-100 with the two commands of the first input. -/
theorem C16_forward_vkblobs_barrier_then_clone_witness :
    Layer.forward_vkblobs sample_inplace_layer sample_device_alloc
        [sample_vkmat 4 10, sample_vkmat 2 11] [] [] (sample_option 1)
      = (0, [sample_vkmat 4 100, sample_vkmat 2 101],
          [VkCommand.prepare_transfer_barrier (sample_vkmat 4 10),
           VkCommand.clone (sample_vkmat 4 10) (sample_vkmat 4 100),
           VkCommand.prepare_transfer_barrier (sample_vkmat 2 11),
           VkCommand.clone (sample_vkmat 2 11) (sample_vkmat 2 101)]) ∧
    ∃ tops : List VkMat,
      Layer.forward_vkblobs sample_inplace_layer sample_device_alloc_second_refused
          [sample_vkmat 4 10, sample_vkmat 2 11] [] [] (sample_option 1)
        = (-100, tops,
            [VkCommand.prepare_transfer_barrier (sample_vkmat 4 10),
             VkCommand.clone (sample_vkmat 4 10) (sample_vkmat 4 100)]) := by
  constructor
  · exact ((C16_forward_vkblobs_barrier_then_clone sample_inplace_layer sample_device_alloc
      [sample_vkmat 4 10, sample_vkmat 2 11] [] [] (sample_option 1) rfl).1
      (fun i hi => by
        have hi2 : i < 2 := hi
        interval_cases i <;> decide)).1.trans (by decide)
  · obtain ⟨tops, h, _⟩ :=
      (C16_forward_vkblobs_barrier_then_clone sample_inplace_layer
        sample_device_alloc_second_refused
        [sample_vkmat 4 10, sample_vkmat 2 11] [] [] (sample_option 1) rfl).2 1
        (by decide) (by decide)
        (fun j hj => by
          have hj0 : j = 0 := by omega
          subst hj0
          decide)
    refine ⟨tops, ?_⟩
    rw [h]
    rfl

end ForwardLoopTheorems

end ncnn

/-! ## Theorems: `pass_ncnn/nn_AvgPool2d.cpp` -/

namespace pnnx

namespace ncnn

/-- C20: `nn_AvgPool2d::write` leaves `op->params` unchanged when
`divisor_override` is not None; otherwise, with the six captured parameters
present and the three arrays holding two elements, it sets exactly the keys
0, 1, 11, 2, 12, 3, 13, 5, 6: 0 to 1, 1 and 11 to `kernel_size[1]` and
`kernel_size[0]`, 2 and 12 to `stride[1]` and `stride[0]`, 3 and 13 to
`padding[1]` and `padding[0]`, 5 to 0 with `ceil_mode` and 1 without, 6 to 1
with `count_include_pad` and 0 without; every other key keeps its value. -/
theorem C20_avgpool2d_write (captured_params params : ParameterMap) :
    (∀ divisor_override, captured_params "divisor_override" = some divisor_override →
      divisor_override.type ≠ 0 →
      nn_AvgPool2d.write captured_params params = some params) ∧
    (∀ divisor_override kernel_size stride padding ceil_mode count_include_pad
        kernel_h kernel_w stride_h stride_w pad_h pad_w,
      captured_params "divisor_override" = some divisor_override →
      captured_params "kernel_size" = some kernel_size →
      captured_params "stride" = some stride →
      captured_params "padding" = some padding →
      captured_params "ceil_mode" = some ceil_mode →
      captured_params "count_include_pad" = some count_include_pad →
      kernel_size.ai.get? 0 = some kernel_h → kernel_size.ai.get? 1 = some kernel_w →
      stride.ai.get? 0 = some stride_h → stride.ai.get? 1 = some stride_w →
      padding.ai.get? 0 = some pad_h → padding.ai.get? 1 = some pad_w →
      divisor_override.type = 0 →
      ∃ out : ParameterMap,
        nn_AvgPool2d.write captured_params params = some out ∧
        out "0" = some (Parameter.of_int 1) ∧
        out "1" = some (Parameter.of_int kernel_w) ∧
        out "11" = some (Parameter.of_int kernel_h) ∧
        out "2" = some (Parameter.of_int stride_w) ∧
        out "12" = some (Parameter.of_int stride_h) ∧
        out "3" = some (Parameter.of_int pad_w) ∧
        out "13" = some (Parameter.of_int pad_h) ∧
        out "5" = some (Parameter.of_int (if ceil_mode.b then 0 else 1)) ∧
        out "6" = some (Parameter.of_int (if count_include_pad.b then 1 else 0)) ∧
        ∀ k, k ∉ ["0", "1", "11", "2", "12", "3", "13", "5", "6"] → out k = params k) := by
  constructor
  · intro d hd ht
    unfold nn_AvgPool2d.write
    rw [hd, Option.some_bind, if_pos ht]
  · intro d ks st pa ce ci kh kw sh sw ph pw hd hks hst hpa hce hci hkh hkw hsh hsw hph hpw ht
    have hnot : ¬ d.type ≠ 0 := fun h => h ht
    refine ⟨(((((((((params.assign "0" (Parameter.of_int 1)).assign "1"
        (Parameter.of_int kw)).assign "11" (Parameter.of_int kh)).assign "2"
        (Parameter.of_int sw)).assign "12" (Parameter.of_int sh)).assign "3"
        (Parameter.of_int pw)).assign "13" (Parameter.of_int ph)).assign "5"
        (Parameter.of_int (if ce.b then 0 else 1))).assign "6"
        (Parameter.of_int (if ci.b then 1 else 0))), ?_, ?_⟩
    · unfold nn_AvgPool2d.write
      rw [hd, Option.some_bind, if_neg hnot]
      simp only [hks, hst, hpa, hce, hci, hkh, hkw, hsh, hsw, hph, hpw, Option.some_bind]
    · refine ⟨?_, ?_, ?_, ?_, ?_, ?_, ?_, ?_, ?_, ?_⟩
      · simp [ParameterMap.assign]
      · simp [ParameterMap.assign]
      · simp [ParameterMap.assign]
      · simp [ParameterMap.assign]
      · simp [ParameterMap.assign]
      · simp [ParameterMap.assign]
      · simp [ParameterMap.assign]
      · simp [ParameterMap.assign]
      · simp [ParameterMap.assign]
      · intro k hk
        simp only [List.mem_cons, List.mem_singleton, List.not_mem_nil, or_false, not_or] at hk
        obtain ⟨h0, h1, h11, h2, h12, h3, h13, h5, h6⟩ := hk
        simp [ParameterMap.assign, h0, h1, h11, h2, h12, h3, h13, h5, h6]

/-- Witness of C20 on the sample capture (kernel 3x2, stride 2x1, padding 1x0,
`ceil_mode` true, `count_include_pad` false): with an int `divisor_override`
the map is returned as it was; with None the nine keys are set and key "9"
keeps its value. -/
theorem C20_avgpool2d_write_witness :
    nn_AvgPool2d.write (sample_captured 2) sample_op_params = some sample_op_params ∧
    ∃ out : ParameterMap,
      nn_AvgPool2d.write (sample_captured 0) sample_op_params = some out ∧
      out "0" = some (Parameter.of_int 1) ∧
      out "1" = some (Parameter.of_int 2) ∧
      out "11" = some (Parameter.of_int 3) ∧
      out "2" = some (Parameter.of_int 1) ∧
      out "12" = some (Parameter.of_int 2) ∧
      out "3" = some (Parameter.of_int 0) ∧
      out "13" = some (Parameter.of_int 1) ∧
      out "5" = some (Parameter.of_int 0) ∧
      out "6" = some (Parameter.of_int 0) ∧
      out "9" = some (Parameter.of_int 7) := by
  refine ⟨(C20_avgpool2d_write (sample_captured 2) sample_op_params).1 _ rfl (by decide), ?_⟩
  obtain ⟨out, h, h0, h1, h11, h2, h12, h3, h13, h5, h6, hrest⟩ :=
    (C20_avgpool2d_write (sample_captured 0) sample_op_params).2
      _ _ _ _ _ _ 3 2 2 1 1 0 rfl rfl rfl rfl rfl rfl rfl rfl rfl rfl rfl rfl rfl
  exact ⟨out, h, h0, h1, h11, h2, h12, h3, h13, h5, h6,
    (hrest "9" (by decide)).trans rfl⟩

end ncnn

end pnnx
